import Mathlib

/-!
# Verification of the eve.fit fitting-computation core

A shallow embedding, in Lean 4, of the computation core of the eve.fit
ship-fitting simulator: the EFT text codec (`src/lib/eft-parser.ts`), the
stats calculator (`src/lib/stats.ts`), the capacitor simulator and helpers
(`src/lib/utils.ts`), the skill-bonus engine (`src/lib/skills.ts`), the
skill-plan builder (`src/lib/skill-plan.ts`) and the fitting-store mutation
surface (`src/store/fitting-store.ts`).

Modelling conventions:
* JavaScript strings are modelled as `List Char`; `split`, `trim` and
  `join` are modelled by explicit recursive functions with the same
  behaviour on the inputs considered.
* JavaScript numbers are modelled as `ℚ` wherever the source only performs
  field operations and comparisons; the two places where transcendental
  functions occur (`Math.sqrt` inside the capacitor integration loop and
  `Math.log` in the align-time formula) are modelled over `ℝ`.
* Division by zero follows the Lean convention `x / 0 = 0`; the source
  guards every division that the verified claims exercise.
* Asynchronous external lookups (`getType`) are modelled by a pure
  function `ℚ → Option EveType`; a failed promise is `none`.
-/

namespace EveFit

/-! ## Strings as character lists -/

/-- JavaScript strings are sequences of characters. -/
abbrev Str := List Char

/-- Turn a Lean string literal into the character-list model. -/
def str (s : String) : Str := s.data

/-- Whitespace characters recognised by `trim` / `\s` (ASCII range). -/
def isWsChar (c : Char) : Bool :=
  c = ' ' || c = '\t' || c = '\n' || c = '\r' || c = '\x0b' || c = '\x0c'

/-- Remove leading whitespace. -/
def trimLeft : Str → Str
  | [] => []
  | c :: rest => if isWsChar c then trimLeft rest else c :: rest

/-- `String.prototype.trim`: remove leading and trailing whitespace. -/
def trimStr (s : Str) : Str :=
  (trimLeft ((trimLeft s.reverse).reverse))

/-- `text.split("\n")`: split at every newline; never returns `[]`. -/
def splitNl : Str → List Str
  | [] => [[]]
  | c :: rest =>
    if c = '\n' then [] :: splitNl rest
    else
      match splitNl rest with
      | [] => [[c]]
      | l :: ls => (c :: l) :: ls

/-- `lines.join("\n")`. -/
def joinNl : List Str → Str
  | [] => []
  | [l] => l
  | l :: ls => l ++ '\n' :: joinNl ls

/-- The character for a decimal digit. -/
def digitChar (d : ℕ) : Char := Char.ofNat ('0'.toNat + d)

/-- Decimal digits of a natural number, used for the ` x<N>` suffix
(`String(n)` for a nonnegative integer). -/
def natDigits (n : ℕ) : Str :=
  if n < 10 then [digitChar n]
  else natDigits (n / 10) ++ [digitChar (n % 10)]
termination_by n
decreasing_by exact Nat.div_lt_self (by omega) (by omega)

/-- Parse a nonempty digit string into a natural number (`parseInt`). -/
def digitsToNat (s : Str) : ℕ :=
  s.foldl (fun acc c => acc * 10 + (c.toNat - '0'.toNat)) 0

/-- Does `pre` occur at the start of `s`? (`String.prototype.startsWith`). -/
def leadsWith : Str → Str → Bool
  | [], _ => true
  | _ :: _, [] => false
  | p :: ps, c :: cs => p = c && leadsWith ps cs

/-! ## EFT codec data model (`src/lib/eft-parser.ts`) -/

/-- One parsed EFT body line: module name, optional charge, optional
quantity (`EFTLine`). -/
structure EFTLine where
  name : Str
  charge : Option Str := none
  quantity : Option ℕ := none
deriving DecidableEq, Repr

/-- Result of `parseEFT` (`ParsedEFT`). -/
structure ParsedEFT where
  shipName : Str
  fitName : Str
  lowSlots : List EFTLine
  midSlots : List EFTLine
  highSlots : List EFTLine
  rigSlots : List EFTLine
  subsystems : List EFTLine
  drones : List EFTLine
  cargo : List EFTLine
deriving DecidableEq, Repr

/-! ## Header matching

The source matches the first line against the regular expression
`^\[(.+?),\s*(.+?)\]$`.  On a newline-free line this succeeds exactly when
the line starts with `[`, ends with `]`, and some comma lies strictly
between at least one character after the `[` and at least one character
before the `]`.  The lazy first group makes the *first* such comma the
separator; `\s*` then swallows the whitespace after it (backtracking keeps
the second group nonempty, which the subsequent `.trim()` erases again, so
the two captured-and-trimmed names are the trims of the pieces on either
side of that comma). -/

/-- Index of the first `,` in `inner` at position `≥ 1` that leaves at
least one character after it (the comma the lazy regex group selects). -/
def firstSepComma (inner : Str) : Option ℕ :=
  go inner 0
where
  go : Str → ℕ → Option ℕ
    | [], _ => none
    | c :: rest, i =>
      if c = ',' && decide (1 ≤ i) && decide (rest ≠ []) then some i
      else go rest (i + 1)

/-- Model of `line.match(/^\[(.+?),\s*(.+?)\]$/)`, returning the trimmed
ship and fit names on success. -/
def headerMatch (line : Str) : Option (Str × Str) :=
  match line with
  | [] => none
  | c :: rest =>
    if c = '[' ∧ rest ≠ [] ∧ rest.getLast? = some ']' then
      match firstSepComma rest.dropLast with
      | some i =>
        some (trimStr (rest.dropLast.take i), trimStr (rest.dropLast.drop (i + 1)))
      | none => none
    else none

/-! ## Line parsing -/

/-- The lazy-group split of `^(.+?)\s+x(\d+)$`: a final nonempty digit
run, preceded by `x`, preceded by nonempty whitespace, preceded by a
nonempty name part.  Returns `(namePart, quantity)` on success. -/
def quantSplit (line : Str) : Option (Str × ℕ) :=
  let rev := line.reverse
  let ds := rev.takeWhile (fun c => c.isDigit)
  let rest := rev.drop ds.length
  if ds = [] then none
  else
    match rest with
    | 'x' :: rest2 =>
      let ws := rest2.takeWhile isWsChar
      let g1 := rest2.drop ws.length
      if ws = [] ∨ g1 = [] then none
      else some (g1.reverse, digitsToNat ds.reverse)
    | _ => none

/-- Split at the first `,` of `s`, if any (`indexOf(",")` + `slice`). -/
def commaSplit : Str → Option (Str × Str)
  | [] => none
  | c :: rest =>
    if c = ',' then some ([], rest)
    else (commaSplit rest).map (fun p => (c :: p.1, p.2))

/-- `parseEFTLine`: parse one body line into name / charge / quantity. -/
def parseEFTLine (line : Str) : Option EFTLine :=
  if line = [] ∨ leadsWith (str "[Empty") line then none
  else
    match quantSplit line with
    | some (g1, q) =>
      let namePart := trimStr g1
      match commaSplit namePart with
      | some (a, b) => some { name := trimStr a, charge := some (trimStr b), quantity := some q }
      | none => some { name := namePart, quantity := some q }
    | none =>
      match commaSplit line with
      | some (a, b) => some { name := trimStr a, charge := some (trimStr b) }
      | none => some { name := trimStr line }

/-! ## Section splitting -/

/-- The five exact empty-slot marker lines. -/
def markerStrs : List Str :=
  [str "[Empty Low slot]", str "[Empty Mid slot]", str "[Empty High slot]",
   str "[Empty Rig slot]", str "[Empty Subsystem slot]"]

/-- The body loop of `parseEFT`: walk the lines after the header,
accumulating blank-line-separated sections and skipping empty-slot
markers. -/
def sectionizeGo (sections : List (List EFTLine)) (current : List EFTLine) :
    List Str → List (List EFTLine)
  | [] => if current ≠ [] then sections ++ [current] else sections
  | l :: rest =>
    let line := trimStr l
    if line = [] then
      if current ≠ [] then sectionizeGo (sections ++ [current]) [] rest
      else sectionizeGo sections current rest
    else if line ∈ markerStrs then sectionizeGo sections current rest
    else
      match parseEFTLine line with
      | some e => sectionizeGo sections (current ++ [e]) rest
      | none => sectionizeGo sections current rest

/-- `parseEFT`: header validation, then positional section mapping
(section 0 → low, 1 → mid, 2 → high, 3 → rig, 4 → subsystem, 5 → drones,
6 → cargo). -/
def parseEFT (eftText : Str) : Except Str ParsedEFT :=
  let lines := splitNl (trimStr eftText)
  match lines with
  | [] => Except.error (str "Empty EFT text")
  | headerRaw :: body =>
    let headerLine := trimStr headerRaw
    match headerMatch headerLine with
    | none => Except.error (str "Invalid EFT header")
    | some (shipName, fitName) =>
      let sections := sectionizeGo [] [] body
      Except.ok
        { shipName := shipName
          fitName := fitName
          lowSlots := sections.getD 0 []
          midSlots := sections.getD 1 []
          highSlots := sections.getD 2 []
          rigSlots := sections.getD 3 []
          subsystems := sections.getD 4 []
          drones := sections.getD 5 []
          cargo := sections.getD 6 [] }

/-! ## Serializer -/

/-- `EFTSerializeOptions`: the serializer input.  Optional arrays default
to empty (absent and empty are indistinguishable to the serializer). -/
structure EFTSerializeOptions where
  shipName : Str
  fitName : Str
  highSlots : List EFTLine
  midSlots : List EFTLine
  lowSlots : List EFTLine
  rigSlots : List EFTLine
  subsystems : List EFTLine := []
  drones : List EFTLine := []
  cargo : List EFTLine := []
  highSlotCount : Option ℕ := none
  midSlotCount : Option ℕ := none
  lowSlotCount : Option ℕ := none
  rigSlotCount : Option ℕ := none
deriving DecidableEq, Repr

/-- `formatEFTLine`: name, then `, charge` when the charge is a nonempty
string (JS truthiness), then ` x<N>` when the quantity exceeds 1. -/
def formatEFTLine (item : EFTLine) : Str :=
  let withCharge :=
    match item.charge with
    | some c => if c ≠ [] then item.name ++ str ", " ++ c else item.name
    | none => item.name
  match item.quantity with
  | some q => if q > 1 then withCharge ++ str " x" ++ natDigits q else withCharge
  | none => withCharge

/-- The bracketed empty-slot marker for a slot label. -/
def emptyMarker (label : Str) : Str := str "[Empty " ++ label ++ str " slot]"

/-- `appendSlotSection`: emit one line per slot position up to
`slotCount` (default: the array length), using the marker for unfilled
positions. -/
def padSection (slots : List EFTLine) (slotCount : Option ℕ) (label : Str) :
    List Str :=
  let count := slotCount.getD slots.length
  (slots.take count).map formatEFTLine ++
    List.replicate (count - slots.length) (emptyMarker label)

/-- The line list assembled by `serializeEFT` before joining. -/
def serializeLines (opts : EFTSerializeOptions) : List Str :=
  [str "[" ++ opts.shipName ++ str ", " ++ opts.fitName ++ str "]"] ++
  padSection opts.lowSlots opts.lowSlotCount (str "Low") ++ [[]] ++
  padSection opts.midSlots opts.midSlotCount (str "Mid") ++ [[]] ++
  padSection opts.highSlots opts.highSlotCount (str "High") ++ [[]] ++
  padSection opts.rigSlots opts.rigSlotCount (str "Rig") ++
  (if opts.subsystems ≠ [] then [[]] ++ opts.subsystems.map formatEFTLine else []) ++
  (if opts.drones ≠ [] then [[], []] ++ opts.drones.map formatEFTLine else []) ++
  (if opts.cargo ≠ [] then [[]] ++ opts.cargo.map formatEFTLine else [])

/-- `serializeEFT`. -/
def serializeEFT (opts : EFTSerializeOptions) : Str :=
  joinNl (serializeLines opts)

/-! ## Header-shape predicates -/

/-- The header shape the spec asks for: `[<ship>, <fit>]`, brackets,
comma-separated, with *both names non-empty after trim*.  Written from the
spec's words, to compare against the implementation's regex. -/
def claimHeaderOk (l : Str) : Bool :=
  match l with
  | '[' :: rest =>
    !rest.isEmpty && decide (rest.getLast? = some ']') &&
      (List.range rest.dropLast.length).any (fun i =>
        decide (rest.dropLast.getD i ' ' = ',') &&
        !(trimStr (rest.dropLast.take i)).isEmpty &&
        !(trimStr (rest.dropLast.drop (i + 1))).isEmpty)
  | _ => false

/-- The header shape the implementation's regex
`^\[(.+?),\s*(.+?)\]$` actually accepts: an opening bracket, at least one
character, a comma, at least one character, a closing bracket — the
captured names may trim to the empty string. -/
def regexHeaderOk (l : Str) : Prop :=
  ∃ a b : Str, l = '[' :: (a ++ ',' :: b) ++ [']'] ∧ a ≠ [] ∧ b ≠ []

/-! ## Characterization of the parser's failure condition -/

theorem splitNl_ne_nil (s : Str) : splitNl s ≠ [] := by
  induction s with
  | nil => simp [splitNl]
  | cons c rest ih =>
    simp only [splitNl]
    split
    · simp
    · cases h : splitNl rest with
      | nil => exact absurd h ih
      | cons l ls => simp

theorem firstSepComma_go_some {s : Str} {k i : ℕ}
    (h : firstSepComma.go s k = some i) :
    ∃ j, ∃ hj : j < s.length,
      i = k + j ∧ s.get ⟨j, hj⟩ = ',' ∧ 1 ≤ k + j ∧ j + 1 < s.length := by
  induction s generalizing k with
  | nil => simp [firstSepComma.go] at h
  | cons c rest ih =>
    rw [firstSepComma.go] at h
    by_cases hc : (c = ',' && decide (1 ≤ k) && decide (rest ≠ [])) = true
    · rw [if_pos hc] at h
      obtain ⟨rfl⟩ : i = k := by simpa using h.symm
      simp only [Bool.and_eq_true, decide_eq_true_eq] at hc
      refine ⟨0, by simp, by simp, by simpa using hc.1.1, by simpa using hc.1.2, ?_⟩
      have : rest.length ≠ 0 := by
        simpa [List.length_eq_zero] using hc.2
      simpa [Nat.lt_iff_add_one_le] using Nat.one_le_iff_ne_zero.mpr this
    · rw [if_neg hc] at h
      obtain ⟨j, hj, rfl, hget, hge, hlt⟩ := ih h
      exact ⟨j + 1, by simpa using Nat.succ_lt_succ hj, by omega, by simpa using hget,
        by omega, by simpa using Nat.succ_lt_succ hlt⟩

theorem firstSepComma_go_none {s : Str} {k : ℕ}
    (h : firstSepComma.go s k = none) :
    ∀ j (hj : j < s.length), s.get ⟨j, hj⟩ = ',' →
      ¬(1 ≤ k + j ∧ j + 1 < s.length) := by
  induction s generalizing k with
  | nil => intro j hj; simp at hj
  | cons c rest ih =>
    rw [firstSepComma.go] at h
    by_cases hc : (c = ',' && decide (1 ≤ k) && decide (rest ≠ [])) = true
    · rw [if_pos hc] at h; exact absurd h (by simp)
    · rw [if_neg hc] at h
      intro j hj hget hand
      cases j with
      | zero =>
        simp only [List.get] at hget
        apply hc
        simp only [Bool.and_eq_true, decide_eq_true_eq]
        refine ⟨⟨by simpa using hget, by simpa using hand.1⟩, ?_⟩
        have : 1 < (c :: rest).length := hand.2
        simp only [List.length_cons] at this
        simpa [← List.length_pos] using this
      | succ j' =>
        have hj' : j' < rest.length := by simpa using hj
        refine ih h j' hj' (by simpa using hget) ?_
        constructor
        · omega
        · have := hand.2; simp only [List.length_cons] at this; omega

theorem get_append_mid (a b : Str) (c : Char)
    (hj : a.length < (a ++ c :: b).length) :
    (a ++ c :: b).get ⟨a.length, hj⟩ = c := by
  induction a with
  | nil => rfl
  | cons x xs ih =>
    have hj' : xs.length < (xs ++ c :: b).length := by simp
    simpa using ih hj'

theorem headerMatch_isSome_iff (l : Str) :
    (headerMatch l).isSome = true ↔ regexHeaderOk l := by
  constructor
  · intro h
    cases l with
    | nil => simp [headerMatch] at h
    | cons c rest =>
      rw [headerMatch] at h
      by_cases hr : c = '[' ∧ rest ≠ [] ∧ rest.getLast? = some ']'
      · rw [if_pos hr] at h
        obtain ⟨rfl, hne, hlast⟩ := hr
        cases hc : firstSepComma rest.dropLast with
        | none => rw [hc] at h; simp at h
        | some i =>
          obtain ⟨j, hj, rfl, hget, hge, hlt⟩ := firstSepComma_go_some hc
          refine ⟨rest.dropLast.take j, rest.dropLast.drop (j + 1), ?_, ?_, ?_⟩
          · have hrest : rest.dropLast ++ [']'] = rest := by
              have hg : rest.getLast hne = ']' := by
                have := List.getLast?_eq_getLast rest hne
                rw [hlast] at this
                simpa using this.symm
              rw [← hg]
              exact List.dropLast_append_getLast hne
            have hdecomp : rest.dropLast =
                rest.dropLast.take j ++ ',' :: rest.dropLast.drop (j + 1) := by
              conv_lhs => rw [← List.take_append_drop j rest.dropLast]
              congr 1
              rw [List.drop_eq_get_cons hj, hget]
            rw [← hdecomp, List.cons_append, hrest]
          · intro hnil
            have h0 : min j rest.dropLast.length = 0 := by
              rw [← List.length_take, hnil]; rfl
            omega
          · intro hnil
            have h0 : rest.dropLast.length - (j + 1) = 0 := by
              rw [← List.length_drop, hnil]; rfl
            omega
      · rw [if_neg hr] at h; simp at h
  · rintro ⟨a, b, hl, ha, hb⟩
    have hl2 : l = '[' :: ((a ++ ',' :: b) ++ [']']) := by
      rw [hl, List.cons_append]
    rw [hl2]
    have hr : True ∧ (a ++ ',' :: b) ++ [']'] ≠ [] ∧
        ((a ++ ',' :: b) ++ [']']).getLast? = some ']' := by
      refine ⟨trivial, by simp, List.getLast?_concat _⟩
    simp only [headerMatch]
    rw [if_pos hr]
    have hdl : ((a ++ ',' :: b) ++ [']']).dropLast = a ++ ',' :: b :=
      List.dropLast_concat ..
    simp only [hdl]
    cases hc : firstSepComma (a ++ ',' :: b) with
    | some i => simp
    | none =>
      exfalso
      have hj : a.length < (a ++ ',' :: b).length := by simp
      have hget : (a ++ ',' :: b).get ⟨a.length, hj⟩ = ',' :=
        get_append_mid a b ',' hj
      refine firstSepComma_go_none hc a.length hj hget ⟨?_, ?_⟩
      · have : a.length ≠ 0 := by simpa [List.length_eq_zero] using ha
        omega
      · have : b.length ≠ 0 := by simpa [List.length_eq_zero] using hb
        simp only [List.length_append, List.length_cons]
        omega

/-- C6 (amended): `parseEFT` fails exactly when the trimmed first line
fails the regex shape — brackets with a comma and at least one character
on each side of it, whitespace-only names allowed. -/
theorem parseEFT_ok_iff_header (text : Str) :
    (parseEFT text).isOk = true ↔
      regexHeaderOk (trimStr ((splitNl (trimStr text)).headD [])) := by
  cases h : splitNl (trimStr text) with
  | nil => exact absurd h (splitNl_ne_nil _)
  | cons headerRaw body =>
    rw [parseEFT, h]
    simp only [List.headD_cons]
    cases hm : headerMatch (trimStr headerRaw) with
    | none =>
      simp only [Except.isOk, Except.toBool]
      constructor
      · intro hfalse; exact absurd hfalse (by simp)
      · intro hshape
        have := (headerMatch_isSome_iff (trimStr headerRaw)).mpr hshape
        rw [hm] at this; simp at this
    | some p =>
      simp only [Except.isOk, Except.toBool]
      constructor
      · intro _
        exact (headerMatch_isSome_iff (trimStr headerRaw)).mp (by rw [hm]; rfl)
      · intro _; trivial

/-- C6 (counterexample): the input `"[A, ]"` parses successfully even
though its fit name trims to the empty string, refuting "fails exactly
when ... both names non-empty after trim". -/
theorem parseEFT_accepts_blank_fit_name :
    (parseEFT (str "[A, ]")).isOk = true ∧
      claimHeaderOk (trimStr ((splitNl (trimStr (str "[A, ]"))).headD [])) = false := by
  decide

/-- Witness for `parseEFT_ok_iff_header`: a well-formed header parses. -/
theorem parseEFT_ok_iff_header_witness :
    (parseEFT (str "[Hurricane, My Fit]")).isOk = true :=
  (parseEFT_ok_iff_header (str "[Hurricane, My Fit]")).mpr
    ⟨str "Hurricane", str " My Fit", by decide, by decide, by decide⟩

/-! ## Round-trip machinery

Cleanliness conditions under which an EFT body line survives
`parseEFTLine ∘ formatEFTLine` with its module name intact. -/

/-- A module/ship name free of the syntax the codec treats specially:
nonempty, trim-stable, no newline, no comma, not bracket-initial, and not
already shaped like a ` x<N>`-suffixed line. -/
def CleanName (s : Str) : Prop :=
  s ≠ [] ∧ trimStr s = s ∧ '\n' ∉ s ∧ ',' ∉ s ∧
    s.head? ≠ some '[' ∧ quantSplit s = none

/-- A body line eligible for the round-trip claim: clean name, no charge. -/
def CleanLine (e : EFTLine) : Prop := CleanName e.name ∧ e.charge = none

instance (s : Str) : Decidable (CleanName s) := by
  unfold CleanName
  infer_instance

instance (e : EFTLine) : Decidable (CleanLine e) := by
  unfold CleanLine
  infer_instance

/-! ### trim lemmas -/

theorem trimLeft_of_head_not_ws {s : Str} :
    (∀ c, s.head? = some c → isWsChar c = false) → trimLeft s = s := by
  intro h
  cases s with
  | nil => rfl
  | cons c t => simp [trimLeft, h c rfl]

theorem trimLeft_length_le (s : Str) : (trimLeft s).length ≤ s.length := by
  induction s with
  | nil => simp [trimLeft]
  | cons c t ih =>
    simp only [trimLeft]
    split
    · exact le_trans ih (by simp)
    · simp

theorem trimLeft_eq_self_of_length (s : Str)
    (h : (trimLeft s).length = s.length) : trimLeft s = s := by
  cases s with
  | nil => rfl
  | cons c t =>
    by_cases hw : isWsChar c = true
    · exfalso
      rw [trimLeft, if_pos hw] at h
      have := trimLeft_length_le t
      simp only [List.length_cons] at h
      omega
    · rw [trimLeft, if_neg hw]

theorem head_not_ws_of_trimLeft_eq {s : Str} (h : trimLeft s = s) :
    ∀ c, s.head? = some c → isWsChar c = false := by
  intro c hc
  cases s with
  | nil => simp at hc
  | cons c0 t =>
    obtain rfl : c0 = c := by simpa using hc
    by_contra hw
    simp only [Bool.not_eq_false] at hw
    rw [trimLeft, if_pos hw] at h
    have := trimLeft_length_le t
    have := congrArg List.length h
    simp only [List.length_cons] at this
    omega

theorem trimStr_eq_self_of {s : Str}
    (h1 : ∀ c, s.head? = some c → isWsChar c = false)
    (h2 : ∀ c, s.getLast? = some c → isWsChar c = false) :
    trimStr s = s := by
  have hrev : trimLeft s.reverse = s.reverse := by
    apply trimLeft_of_head_not_ws
    intro c hc
    exact h2 c (by simpa [List.head?_reverse] using hc)
  rw [trimStr, hrev, List.reverse_reverse]
  exact trimLeft_of_head_not_ws h1

theorem trimStr_head_last {s : Str} (h : trimStr s = s) :
    (∀ c, s.head? = some c → isWsChar c = false) ∧
      (∀ c, s.getLast? = some c → isWsChar c = false) := by
  have hlen1 : (trimLeft s.reverse).length ≤ s.length := by
    simpa using trimLeft_length_le s.reverse
  have hlen2 : (trimStr s).length ≤ (trimLeft s.reverse).length := by
    rw [trimStr]
    simpa using trimLeft_length_le (trimLeft s.reverse).reverse
  have hslen : (trimStr s).length = s.length := by rw [h]
  have hinner : trimLeft s.reverse = s.reverse :=
    trimLeft_eq_self_of_length _ (by simp; omega)
  have houter : trimLeft s = s := by
    have := h
    rw [trimStr, hinner, List.reverse_reverse] at this
    exact this
  refine ⟨head_not_ws_of_trimLeft_eq houter, ?_⟩
  intro c hc
  exact head_not_ws_of_trimLeft_eq hinner c (by simpa [List.head?_reverse] using hc)

/-! ### split/join lemmas -/

theorem splitNl_no_nl {s : Str} (h : '\n' ∉ s) : splitNl s = [s] := by
  induction s with
  | nil => rfl
  | cons c t ih =>
    have hc : c ≠ '\n' := fun hh => h (hh ▸ List.mem_cons_self c t)
    have ht : '\n' ∉ t := fun hh => h (List.mem_cons_of_mem c hh)
    rw [splitNl, if_neg hc, ih ht]

theorem splitNl_append_nl {l : Str} (t : Str) (h : '\n' ∉ l) :
    splitNl (l ++ '\n' :: t) = l :: splitNl t := by
  induction l with
  | nil => simp [splitNl]
  | cons c cs ih =>
    have hc : c ≠ '\n' := fun hh => h (hh ▸ List.mem_cons_self c cs)
    have hcs : '\n' ∉ cs := fun hh => h (List.mem_cons_of_mem c hh)
    rw [List.cons_append, splitNl, if_neg hc, ih hcs]

theorem joinNl_cons_cons (l l2 : Str) (ls : List Str) :
    joinNl (l :: l2 :: ls) = l ++ '\n' :: joinNl (l2 :: ls) := rfl

theorem splitNl_joinNl {ls : List Str} (hne : ls ≠ [])
    (h : ∀ l ∈ ls, '\n' ∉ l) : splitNl (joinNl ls) = ls := by
  induction ls with
  | nil => exact absurd rfl hne
  | cons l rest ih =>
    cases rest with
    | nil => exact splitNl_no_nl (h l (List.mem_cons_self l []))
    | cons l2 rest2 =>
      rw [joinNl_cons_cons]
      rw [splitNl_append_nl _ (h l (List.mem_cons_self _ _))]
      rw [ih (by simp) (fun x hx => h x (List.mem_cons_of_mem l hx))]

theorem joinNl_head? (l : Str) (ls : List Str) (h : l ≠ []) :
    (joinNl (l :: ls)).head? = l.head? := by
  cases ls with
  | nil => rfl
  | cons l2 rest =>
    rw [joinNl_cons_cons]
    cases l with
    | nil => exact absurd rfl h
    | cons c t => rfl

theorem joinNl_getLast? (ls : List Str) (l : Str) (h : l ≠ [])
    (hlast : ls.getLast? = some l) :
    (joinNl ls).getLast? = l.getLast? := by
  induction ls with
  | nil => simp at hlast
  | cons l0 rest ih =>
    cases rest with
    | nil =>
      obtain rfl : l0 = l := by simpa using hlast
      rfl
    | cons l2 rest2 =>
      rw [joinNl_cons_cons]
      have hlast2 : (l2 :: rest2).getLast? = some l := by
        rw [← hlast]
        exact (List.getLast?_cons_cons ..).symm
      have hrec := ih hlast2
      rw [List.getLast?_append_cons]
      cases hj : joinNl (l2 :: rest2) with
      | nil =>
        exfalso
        rw [hj] at hrec
        simp only [List.getLast?_nil] at hrec
        cases l with
        | nil => exact h rfl
        | cons c t =>
          have : (c :: t).getLast? ≠ none := by
            rw [List.getLast?_eq_getLast _ (by simp)]
            simp
          exact this hrec.symm
      | cons j js =>
        rw [hj] at hrec
        rw [List.getLast?_cons_cons, hrec]

/-! ### digit-string lemmas -/

theorem digitChar_isDigit {d : ℕ} (h : d < 10) : (digitChar d).isDigit = true := by
  interval_cases d <;> decide

theorem natDigits_ne_nil (n : ℕ) : natDigits n ≠ [] := by
  rw [natDigits]
  split
  · simp
  · simp

theorem natDigits_all_digit (n : ℕ) : ∀ c ∈ natDigits n, c.isDigit = true := by
  induction n using Nat.strong_induction_on with
  | _ n ih =>
    rw [natDigits]
    split
    · intro c hc
      simp only [List.mem_singleton] at hc
      subst hc
      exact digitChar_isDigit (by omega)
    · intro c hc
      rcases List.mem_append.mp hc with h1 | h2
      · exact ih (n / 10) (Nat.div_lt_self (by omega) (by omega)) c h1
      · simp only [List.mem_singleton] at h2
        subst h2
        exact digitChar_isDigit (Nat.mod_lt _ (by omega))

theorem not_ws_of_digit {c : Char} (h : c.isDigit = true) : isWsChar c = false := by
  by_contra hw
  simp only [Bool.not_eq_false] at hw
  simp only [isWsChar, Bool.or_eq_true, decide_eq_true_eq] at hw
  rcases hw with ((((h1 | h2) | h3) | h4) | h5) | h6 <;> subst_vars <;> simp at h

theorem digit_ne_nl {c : Char} (h : c.isDigit = true) : c ≠ '\n' := by
  intro hc; subst hc; simp at h

theorem natDigits_getLast?_digit (n : ℕ) :
    ∃ c, (natDigits n).getLast? = some c ∧ c.isDigit = true := by
  have hne := natDigits_ne_nil n
  cases hd : natDigits n with
  | nil => exact absurd hd hne
  | cons c cs =>
    refine ⟨(c :: cs).getLast (by simp), ?_, ?_⟩
    · exact List.getLast?_eq_getLast _ _
    · have : (c :: cs).getLast (by simp) ∈ natDigits n := by
        rw [hd]; exact List.getLast_mem _
      exact natDigits_all_digit n _ this

/-! ### takeWhile / drop helper lemmas -/

theorem takeWhile_append_block {p : Char → Bool} {l1 : Str} (c0 : Char) (l2 : Str)
    (h1 : ∀ c ∈ l1, p c = true) (h0 : p c0 = false) :
    (l1 ++ c0 :: l2).takeWhile p = l1 := by
  induction l1 with
  | nil => simp [List.takeWhile, h0]
  | cons c cs ih =>
    rw [List.cons_append, List.takeWhile]
    rw [h1 c (List.mem_cons_self ..)]
    rw [ih (fun x hx => h1 x (List.mem_cons_of_mem c hx))]

theorem takeWhile_nil_of_head {p : Char → Bool} {l : Str}
    (h : ∀ c, l.head? = some c → p c = false) : l.takeWhile p = [] := by
  cases l with
  | nil => rfl
  | cons c cs =>
    rw [List.takeWhile]
    rw [h c rfl]

theorem commaSplit_eq_none {s : Str} (h : ',' ∉ s) : commaSplit s = none := by
  induction s with
  | nil => rfl
  | cons c cs ih =>
    have hc : c ≠ ',' := fun hh => h (hh ▸ List.mem_cons_self c cs)
    have hcs : ',' ∉ cs := fun hh => h (List.mem_cons_of_mem c hh)
    rw [commaSplit, if_neg hc, ih hcs]
    rfl

theorem leadsWith_head {c : Char} {p s : Str}
    (h : leadsWith (c :: p) s = true) : s.head? = some c := by
  cases s with
  | nil => simp [leadsWith] at h
  | cons c2 cs =>
    simp only [leadsWith, Bool.and_eq_true, decide_eq_true_eq] at h
    rw [h.1]
    rfl

/-! ### the per-line round trip -/

theorem formatEFTLine_no_charge {e : EFTLine} (h : e.charge = none) :
    formatEFTLine e =
      match e.quantity with
      | some q => if q > 1 then e.name ++ str " x" ++ natDigits q else e.name
      | none => e.name := by
  rw [formatEFTLine, h]

theorem quantSplit_format {name : Str} (q : ℕ)
    (hne : name ≠ []) (htrim : trimStr name = name) :
    quantSplit (name ++ str " x" ++ natDigits q) =
      some (name, digitsToNat (natDigits q)) := by
  have hshape : name ++ str " x" ++ natDigits q = name ++ (' ' :: 'x' :: natDigits q) := by
    simp [str]
  rw [hshape]
  have hrev : (name ++ (' ' :: 'x' :: natDigits q)).reverse =
      (natDigits q).reverse ++ 'x' :: ' ' :: name.reverse := by
    simp
  have hds : ((natDigits q).reverse ++ 'x' :: ' ' :: name.reverse).takeWhile
      (fun c => c.isDigit) = (natDigits q).reverse := by
    refine takeWhile_append_block 'x' _ ?_ (by decide)
    intro c hc
    exact natDigits_all_digit q c (List.mem_reverse.mp hc)
  have hdrop : ((natDigits q).reverse ++ 'x' :: ' ' :: name.reverse).drop
      (natDigits q).reverse.length = 'x' :: ' ' :: name.reverse := List.drop_left ..
  have hdsne : (natDigits q).reverse ≠ [] := by
    simpa using natDigits_ne_nil q
  have hws : (' ' :: name.reverse).takeWhile isWsChar = [' '] := by
    rw [List.takeWhile]
    have h1 : isWsChar ' ' = true := by decide
    rw [h1]
    rw [takeWhile_nil_of_head]
    intro c hc
    have hlast : name.getLast? = some c := by
      rwa [← List.head?_reverse]
    exact (trimStr_head_last htrim).2 c hlast
  have hrevne : name.reverse ≠ [] := by simpa using hne
  simp only [quantSplit, hrev, hds, hdrop, hws]
  rw [if_neg hdsne]
  rw [if_neg (by simpa using hrevne)]
  simp

theorem parseFormat_clean {e : EFTLine} (h : CleanLine e) :
    trimStr (formatEFTLine e) = formatEFTLine e ∧
    formatEFTLine e ≠ [] ∧
    (formatEFTLine e).head? = e.name.head? ∧
    '\n' ∉ formatEFTLine e ∧
    (∀ c, (formatEFTLine e).getLast? = some c → isWsChar c = false) ∧
    ∃ e2, parseEFTLine (formatEFTLine e) = some e2 ∧ e2.name = e.name := by
  obtain ⟨⟨hne, htrim, hnl, hcomma, hhead, hquant⟩, hcharge⟩ := h
  have hfmt := formatEFTLine_no_charge hcharge
  by_cases hq : ∃ q, e.quantity = some q ∧ q > 1
  · -- quantity suffix emitted
    obtain ⟨q, hqe, hq1⟩ := hq
    have hf : formatEFTLine e = e.name ++ str " x" ++ natDigits q := by
      rw [hfmt, hqe]
      simp [hq1]
    have hshape : formatEFTLine e = e.name ++ (' ' :: 'x' :: natDigits q) := by
      rw [hf]; simp [str]
    have hfne : formatEFTLine e ≠ [] := by
      rw [hshape]; simp
    have hfhead : (formatEFTLine e).head? = e.name.head? := by
      rw [hshape]
      cases hn : e.name with
      | nil => exact absurd hn hne
      | cons c cs => simp
    obtain ⟨dc, hdc, hdcdig⟩ := natDigits_getLast?_digit q
    have hflast : (formatEFTLine e).getLast? = some dc := by
      rw [hshape]
      rw [List.getLast?_append_of_ne_nil _ (by simp)]
      rw [List.getLast?_cons_cons]
      cases hnd : natDigits q with
      | nil => exact absurd hnd (natDigits_ne_nil q)
      | cons d ds =>
        rw [List.getLast?_cons_cons, ← hnd]
        exact hdc
    have hftrim : trimStr (formatEFTLine e) = formatEFTLine e := by
      apply trimStr_eq_self_of
      · intro c hc
        rw [hfhead] at hc
        exact (trimStr_head_last htrim).1 c hc
      · intro c hc
        rw [hflast] at hc
        obtain rfl : dc = c := by simpa using hc
        exact not_ws_of_digit hdcdig
    have hfnl : '\n' ∉ formatEFTLine e := by
      rw [hshape]
      intro hmem
      rcases List.mem_append.mp hmem with h1 | h2
      · exact hnl h1
      · rcases List.mem_cons.mp h2 with hsp | h2b
        · exact absurd hsp (by decide)
        rcases List.mem_cons.mp h2b with hx | h3
        · exact absurd hx (by decide)
        · exact digit_ne_nl (natDigits_all_digit q _ h3) rfl
    refine ⟨hftrim, hfne, hfhead, hfnl, ?_, ?_⟩
    · intro c hc
      rw [hflast] at hc
      obtain rfl : dc = c := by simpa using hc
      exact not_ws_of_digit hdcdig
    · have hqs : quantSplit (formatEFTLine e) =
          some (e.name, digitsToNat (natDigits q)) := by
        rw [hf]; exact quantSplit_format q hne htrim
      have hlw : leadsWith (str "[Empty") (formatEFTLine e) = false := by
        by_contra hcon
        simp only [Bool.not_eq_false] at hcon
        have := leadsWith_head (by
          rw [show str "[Empty" = '[' :: str "Empty" from rfl] at hcon
          exact hcon)
        rw [hfhead] at this
        exact hhead this
      rw [parseEFTLine, if_neg (by simp [hfne, hlw]), hqs]
      simp only [htrim, commaSplit_eq_none hcomma]
      exact ⟨_, rfl, rfl⟩
  · -- no quantity suffix: the formatted line is the bare name
    have hf : formatEFTLine e = e.name := by
      rw [hfmt]
      cases hqe : e.quantity with
      | none => rfl
      | some q =>
        have : ¬ q > 1 := fun hgt => hq ⟨q, hqe, hgt⟩
        simp [this]
    rw [hf]
    refine ⟨htrim, hne, rfl, hnl, ?_, ?_⟩
    · intro c hc
      exact (trimStr_head_last htrim).2 c hc
    · have hlw : leadsWith (str "[Empty") e.name = false := by
        by_contra hcon
        simp only [Bool.not_eq_false] at hcon
        have := leadsWith_head (by
          rw [show str "[Empty" = '[' :: str "Empty" from rfl] at hcon
          exact hcon)
        exact hhead this
      rw [parseEFTLine, if_neg (by simp [hne, hlw]), hquant,
        commaSplit_eq_none hcomma]
      exact ⟨_, rfl, htrim⟩

/-! ### section-splitting lemmas -/

theorem sectionizeGo_nil (secs : List (List EFTLine)) (cur : List EFTLine) :
    sectionizeGo secs cur [] = if cur ≠ [] then secs ++ [cur] else secs := rfl

theorem sectionizeGo_blank (secs : List (List EFTLine)) (cur : List EFTLine)
    (rest : List Str) :
    sectionizeGo secs cur ([] :: rest) =
      if cur ≠ [] then sectionizeGo (secs ++ [cur]) [] rest
      else sectionizeGo secs cur rest := by
  rw [sectionizeGo]
  simp only [trimStr, trimLeft, List.reverse_nil, if_pos rfl, if_true]

theorem sectionizeGo_marker (secs : List (List EFTLine)) (cur : List EFTLine)
    (rest : List Str) (l : Str) (htrim : trimStr l = l) (hne : l ≠ [])
    (hm : l ∈ markerStrs) :
    sectionizeGo secs cur (l :: rest) = sectionizeGo secs cur rest := by
  rw [sectionizeGo, htrim]
  rw [if_neg hne, if_pos hm]

theorem sectionizeGo_mod (secs : List (List EFTLine)) (cur : List EFTLine)
    (rest : List Str) (l : Str) (htrim : trimStr l = l) (hne : l ≠ [])
    (hm : l ∉ markerStrs) (e2 : EFTLine) (hp : parseEFTLine l = some e2) :
    sectionizeGo secs cur (l :: rest) = sectionizeGo secs (cur ++ [e2]) rest := by
  rw [sectionizeGo, htrim]
  rw [if_neg hne, if_neg hm, hp]

/-- Processing a run of cleanly formatted module lines appends their
parses (same names, same count) to the current section. -/
theorem sectionizeGo_mods (es : List EFTLine) (h : ∀ e ∈ es, CleanLine e) :
    ∃ es2 : List EFTLine, es2.map EFTLine.name = es.map EFTLine.name ∧
      ∀ secs cur rest,
        sectionizeGo secs cur (es.map formatEFTLine ++ rest) =
          sectionizeGo secs (cur ++ es2) rest := by
  induction es with
  | nil => exact ⟨[], rfl, fun secs cur rest => by simp⟩
  | cons e es' ih =>
    obtain ⟨htrim, hne, hhead, hnl, hlast, e2, hp, hname⟩ :=
      parseFormat_clean (h e (List.mem_cons_self ..))
    have hm : formatEFTLine e ∉ markerStrs := by
      intro hmem
      have hhd : (formatEFTLine e).head? = some '[' := by
        have : ∀ m ∈ markerStrs, m.head? = some '[' := by decide
        exact this _ hmem
      rw [hhead] at hhd
      exact (h e (List.mem_cons_self ..)).1.2.2.2.2.1 hhd
    obtain ⟨es2', hnames', hstep⟩ := ih (fun x hx => h x (List.mem_cons_of_mem e hx))
    refine ⟨e2 :: es2', ?_, ?_⟩
    · simp [hname, hnames']
    · intro secs cur rest
      rw [List.map_cons, List.cons_append]
      rw [sectionizeGo_mod secs cur _ _ htrim hne hm e2 hp]
      rw [hstep]
      simp

/-- Empty-slot marker lines are skipped. -/
theorem sectionizeGo_markers (n : ℕ) (m : Str) (hm : m ∈ markerStrs) :
    ∀ secs cur rest,
      sectionizeGo secs cur (List.replicate n m ++ rest) =
        sectionizeGo secs cur rest := by
  have hfacts : ∀ m2 ∈ markerStrs, trimStr m2 = m2 ∧ m2 ≠ [] := by decide
  induction n with
  | zero => intro secs cur rest; simp
  | succ k ih =>
    intro secs cur rest
    rw [List.replicate_succ, List.cons_append]
    rw [sectionizeGo_marker secs cur _ m (hfacts m hm).1 (hfacts m hm).2 hm]
    exact ih secs cur rest

/-- Processing one padded slot section: parses append to the section. -/
theorem sectionizeGo_pad (es : List EFTLine) (cnt : Option ℕ) (label : Str)
    (h : ∀ e ∈ es, CleanLine e) (hlen : es.length ≤ cnt.getD es.length)
    (hlab : emptyMarker label ∈ markerStrs) :
    ∃ es2 : List EFTLine, es2.map EFTLine.name = es.map EFTLine.name ∧
      (es2 = [] ↔ es = []) ∧
      ∀ secs cur rest,
        sectionizeGo secs cur (padSection es cnt label ++ rest) =
          sectionizeGo secs (cur ++ es2) rest := by
  obtain ⟨es2, hnames, hstep⟩ := sectionizeGo_mods es h
  refine ⟨es2, hnames, ?_, ?_⟩
  · constructor
    · intro h2
      have := congrArg List.length hnames
      rw [h2] at this
      simpa [List.length_eq_zero] using this.symm
    · intro h2
      have := congrArg List.length hnames
      rw [h2] at this
      simpa [List.length_eq_zero] using this
  · intro secs cur rest
    rw [padSection]
    have htake : es.take (cnt.getD es.length) = es := List.take_of_length_le hlen
    rw [htake, List.append_assoc]
    rw [hstep]
    exact sectionizeGo_markers _ _ hlab secs (cur ++ es2) rest

/-! ### the serialized header parses back to the same names -/

theorem firstSepComma_go_comma_free (a b : Str) (k : ℕ) (ha : ',' ∉ a)
    (h1 : 1 ≤ k + a.length) (hb : b ≠ []) :
    firstSepComma.go (a ++ ',' :: b) k = some (k + a.length) := by
  induction a generalizing k with
  | nil =>
    simp only [List.nil_append, List.length_nil, Nat.add_zero]
    rw [firstSepComma.go]
    rw [if_pos (by
      simp only [Bool.and_eq_true, decide_eq_true_eq]
      exact ⟨⟨trivial, by simpa using h1⟩, hb⟩)]
  | cons c cs ih =>
    have hc : c ≠ ',' := fun hh => ha (hh ▸ List.mem_cons_self c cs)
    have hcs : ',' ∉ cs := fun hh => ha (List.mem_cons_of_mem c hh)
    rw [List.cons_append, firstSepComma.go]
    rw [if_neg (by simp [hc])]
    rw [ih (k + 1) hcs (by omega)]
    congr 1
    simp only [List.length_cons]
    omega

theorem trimStr_space_cons (F : Str) (hne : F ≠ []) (htrim : trimStr F = F) :
    trimStr (' ' :: F) = F := by
  have h2 := trimStr_head_last htrim
  have hrev : trimLeft ((' ' :: F).reverse) = (' ' :: F).reverse := by
    apply trimLeft_of_head_not_ws
    intro c hc
    have hrevne : F.reverse ≠ [] := by simpa using hne
    cases hFr : F.reverse with
    | nil => exact absurd hFr hrevne
    | cons c0 cs =>
      simp only [List.reverse_cons, hFr, List.cons_append, List.head?_cons] at hc
      obtain rfl : c0 = c := by simpa using hc
      have hlast : F.getLast? = some c0 := by
        rw [← List.head?_reverse, hFr]
        rfl
      exact h2.2 c0 hlast
  rw [trimStr, hrev, List.reverse_reverse, trimLeft, if_pos (by decide)]
  exact trimLeft_of_head_not_ws h2.1

/-- The serialized header line, written in cons/concat normal form. -/
theorem header_shape (S F : Str) :
    str "[" ++ S ++ str ", " ++ F ++ str "]" =
      '[' :: ((S ++ ',' :: ' ' :: F) ++ [']']) := by
  simp [str]

theorem headerMatch_serialized (S F : Str) (hS : CleanName S) (hF : CleanName F) :
    headerMatch (str "[" ++ S ++ str ", " ++ F ++ str "]") = some (S, F) := by
  obtain ⟨hSne, hStrim, _, hScomma, _, _⟩ := hS
  obtain ⟨hFne, hFtrim, _, _, _, _⟩ := hF
  rw [header_shape]
  have hcond : True ∧ (S ++ ',' :: ' ' :: F) ++ [']'] ≠ [] ∧
      ((S ++ ',' :: ' ' :: F) ++ [']']).getLast? = some ']' :=
    ⟨trivial, by simp, List.getLast?_concat _⟩
  simp only [headerMatch]
  rw [if_pos hcond]
  have hdl : ((S ++ ',' :: ' ' :: F) ++ [']']).dropLast = S ++ ',' :: ' ' :: F :=
    List.dropLast_concat ..
  simp only [hdl]
  have hcomma : firstSepComma (S ++ ',' :: ' ' :: F) = some S.length := by
    rw [firstSepComma]
    have := firstSepComma_go_comma_free S (' ' :: F) 0 hScomma
      (by simpa [Nat.one_le_iff_ne_zero, List.length_eq_zero] using hSne) (by simp)
    simpa using this
  rw [hcomma]
  have htake : (S ++ ',' :: ' ' :: F).take S.length = S := List.take_left ..
  have hdrop : (S ++ ',' :: ' ' :: F).drop (S.length + 1) = ' ' :: F := by
    have h1 : (S ++ ',' :: ' ' :: F).drop S.length = ',' :: ' ' :: F :=
      List.drop_left ..
    have h2 : ((S ++ ',' :: ' ' :: F).drop S.length).drop 1 =
        (S ++ ',' :: ' ' :: F).drop (S.length + 1) := by
      rw [List.drop_drop]
    rw [← h2, h1]
    rfl
  simp only [htake, hdrop, hStrim, trimStr_space_cons F hFne hFtrim]

/-! ### assembling the round trip -/

theorem sectionizeGo_blank_flush (secs : List (List EFTLine)) (cur : List EFTLine)
    (rest : List Str) :
    sectionizeGo secs cur ([] :: rest) =
      sectionizeGo (secs ++ if cur = [] then [] else [cur]) [] rest := by
  rw [sectionizeGo_blank]
  by_cases h : cur = []
  · subst h; simp
  · rw [if_pos h, if_neg h]

theorem sectionizeGo_nil_flush (secs : List (List EFTLine)) (cur : List EFTLine) :
    sectionizeGo secs cur [] = secs ++ if cur = [] then [] else [cur] := by
  rw [sectionizeGo_nil]
  by_cases h : cur = []
  · subst h; simp
  · rw [if_pos h, if_neg h]

/-- Processing the optional trailing cargo section. -/
theorem sectionizeGo_condCargo
    (cargo carE : List EFTLine)
    (hcarStep : ∀ secs cur rest,
      sectionizeGo secs cur (cargo.map formatEFTLine ++ rest) =
        sectionizeGo secs (cur ++ carE) rest)
    (hcarIff : carE = [] ↔ cargo = []) :
    ∀ secs cur,
      sectionizeGo secs cur
        (if cargo ≠ [] then [] :: cargo.map formatEFTLine else []) =
      secs ++ (if cur = [] then [] else [cur]) ++
        (if cargo = [] then [] else [carE]) := by
  intro secs cur
  by_cases hc : cargo = []
  · rw [if_neg (not_not_intro hc), if_pos hc, sectionizeGo_nil_flush]
    simp
  · rw [if_pos hc, if_neg hc, sectionizeGo_blank_flush,
      ← List.append_nil (cargo.map formatEFTLine), hcarStep, List.nil_append,
      sectionizeGo_nil_flush, if_neg (fun h2 => hc (hcarIff.mp h2))]

/-- Processing the optional trailing drones-then-cargo sections. -/
theorem sectionizeGo_condDroCar
    (drones cargo droE carE : List EFTLine)
    (hdroStep : ∀ secs cur rest,
      sectionizeGo secs cur (drones.map formatEFTLine ++ rest) =
        sectionizeGo secs (cur ++ droE) rest)
    (hcarStep : ∀ secs cur rest,
      sectionizeGo secs cur (cargo.map formatEFTLine ++ rest) =
        sectionizeGo secs (cur ++ carE) rest)
    (hdroIff : droE = [] ↔ drones = []) (hcarIff : carE = [] ↔ cargo = []) :
    ∀ secs cur,
      sectionizeGo secs cur
        ((if drones ≠ [] then [] :: [] :: drones.map formatEFTLine else []) ++
          (if cargo ≠ [] then [] :: cargo.map formatEFTLine else [])) =
      secs ++ (if cur = [] then [] else [cur]) ++
        (if drones = [] then [] else [droE]) ++
        (if cargo = [] then [] else [carE]) := by
  intro secs cur
  by_cases hd : drones = []
  · rw [if_neg (not_not_intro hd), if_pos hd, List.nil_append,
      sectionizeGo_condCargo cargo carE hcarStep hcarIff]
    simp
  · rw [if_pos hd, if_neg hd]
    rw [List.cons_append, List.cons_append]
    rw [sectionizeGo_blank_flush, sectionizeGo_blank_flush, if_pos rfl,
      List.append_nil, hdroStep, List.nil_append,
      sectionizeGo_condCargo cargo carE hcarStep hcarIff,
      if_neg (fun h2 => hd (hdroIff.mp h2))]

/-- Processing the three optional trailing sections (subsystems, drones,
cargo) flushes the pending section and appends each nonempty section. -/
theorem sectionizeGo_condTail
    (subs drones cargo : List EFTLine) (subE droE carE : List EFTLine)
    (hsubStep : ∀ secs cur rest,
      sectionizeGo secs cur (subs.map formatEFTLine ++ rest) =
        sectionizeGo secs (cur ++ subE) rest)
    (hdroStep : ∀ secs cur rest,
      sectionizeGo secs cur (drones.map formatEFTLine ++ rest) =
        sectionizeGo secs (cur ++ droE) rest)
    (hcarStep : ∀ secs cur rest,
      sectionizeGo secs cur (cargo.map formatEFTLine ++ rest) =
        sectionizeGo secs (cur ++ carE) rest)
    (hsubIff : subE = [] ↔ subs = []) (hdroIff : droE = [] ↔ drones = [])
    (hcarIff : carE = [] ↔ cargo = []) :
    ∀ secs cur,
      sectionizeGo secs cur
        ((if subs ≠ [] then [] :: subs.map formatEFTLine else []) ++
         ((if drones ≠ [] then [] :: [] :: drones.map formatEFTLine else []) ++
          (if cargo ≠ [] then [] :: cargo.map formatEFTLine else []))) =
        secs ++ (if cur = [] then [] else [cur]) ++
          (if subs = [] then [] else [subE]) ++
          (if drones = [] then [] else [droE]) ++
          (if cargo = [] then [] else [carE]) := by
  intro secs cur
  by_cases hs : subs = []
  · rw [if_neg (not_not_intro hs), if_pos hs, List.nil_append,
      sectionizeGo_condDroCar drones cargo droE carE hdroStep hcarStep hdroIff hcarIff]
    simp
  · rw [if_pos hs, if_neg hs]
    rw [List.cons_append]
    rw [sectionizeGo_blank_flush, hsubStep, List.nil_append,
      sectionizeGo_condDroCar drones cargo droE carE hdroStep hcarStep hdroIff hcarIff,
      if_neg (fun h2 => hs (hsubIff.mp h2))]

/-! ### last-line and newline facts about the serialized output -/

theorem getLast?_cons_some {α : Type} (a : α) (A : List α) (lastL : α)
    (h : A.getLast? = some lastL) : (a :: A).getLast? = some lastL := by
  cases A with
  | nil => simp at h
  | cons a2 as => rw [List.getLast?_cons_cons]; exact h

theorem fmtGood {e : EFTLine} (he : CleanLine e) :
    formatEFTLine e ≠ [] ∧
      ∃ c, (formatEFTLine e).getLast? = some c ∧ isWsChar c = false := by
  obtain ⟨_, hne, _, _, hws, _⟩ := parseFormat_clean he
  refine ⟨hne, ?_⟩
  cases hgl : (formatEFTLine e).getLast? with
  | none =>
    have := List.getLast?_eq_getLast (formatEFTLine e) hne
    rw [hgl] at this
    exact absurd this (by simp)
  | some c => exact ⟨c, rfl, hws c hgl⟩

theorem mapFmtGood (es : List EFTLine) (hne : es ≠ [])
    (hcl : ∀ e ∈ es, CleanLine e) :
    ∃ lastL, (es.map formatEFTLine).getLast? = some lastL ∧ lastL ≠ [] ∧
      ∃ c, lastL.getLast? = some c ∧ isWsChar c = false := by
  have hml : (es.map formatEFTLine).getLast? = es.getLast?.map formatEFTLine :=
    List.getLast?_map _ _
  have hgl : es.getLast? = some (es.getLast hne) := List.getLast?_eq_getLast _ _
  refine ⟨formatEFTLine (es.getLast hne), by rw [hml, hgl]; rfl, ?_⟩
  exact fmtGood (hcl _ (List.getLast_mem hne))

theorem padGood (es : List EFTLine) (cnt : Option ℕ) (lab : Str)
    (hcl : ∀ e ∈ es, CleanLine e) (hlen : es.length ≤ cnt.getD es.length)
    (hpos : 0 < cnt.getD es.length)
    (hmark : emptyMarker lab ≠ [] ∧ ∃ c, (emptyMarker lab).getLast? = some c ∧
      isWsChar c = false) :
    padSection es cnt lab ≠ [] ∧
      ∃ lastL, (padSection es cnt lab).getLast? = some lastL ∧ lastL ≠ [] ∧
        ∃ c, lastL.getLast? = some c ∧ isWsChar c = false := by
  rw [padSection]
  by_cases hk : cnt.getD es.length - es.length = 0
  · have hlen2 : cnt.getD es.length = es.length := by omega
    have hesne : es ≠ [] := by
      intro h2
      subst h2
      simp only [List.length_nil] at hlen2 hpos
      omega
    rw [hk, List.replicate_zero, List.append_nil,
      List.take_of_length_le hlen]
    obtain ⟨lastL, h1, h2⟩ := mapFmtGood es hesne hcl
    refine ⟨?_, lastL, h1, h2⟩
    intro h3
    rw [h3] at h1
    simp at h1
  · have hk2 : cnt.getD es.length - es.length =
        (cnt.getD es.length - es.length - 1) + 1 := by omega
    rw [hk2, List.replicate_succ', ← List.append_assoc]
    refine ⟨by simp, emptyMarker lab, List.getLast?_concat _, hmark⟩

theorem markerLow_facts :
    emptyMarker (str "Low") ≠ [] ∧ (emptyMarker (str "Low")).getLast? = some ']' ∧
      emptyMarker (str "Low") ∈ markerStrs ∧ '\n' ∉ emptyMarker (str "Low") := by
  decide

theorem markerMid_facts :
    emptyMarker (str "Mid") ≠ [] ∧ (emptyMarker (str "Mid")).getLast? = some ']' ∧
      emptyMarker (str "Mid") ∈ markerStrs ∧ '\n' ∉ emptyMarker (str "Mid") := by
  decide

theorem markerHigh_facts :
    emptyMarker (str "High") ≠ [] ∧ (emptyMarker (str "High")).getLast? = some ']' ∧
      emptyMarker (str "High") ∈ markerStrs ∧ '\n' ∉ emptyMarker (str "High") := by
  decide

theorem markerRig_facts :
    emptyMarker (str "Rig") ≠ [] ∧ (emptyMarker (str "Rig")).getLast? = some ']' ∧
      emptyMarker (str "Rig") ∈ markerStrs ∧ '\n' ∉ emptyMarker (str "Rig") := by
  decide

theorem padNl (es : List EFTLine) (cnt : Option ℕ) (lab : Str)
    (hcl : ∀ e ∈ es, CleanLine e) (hm : '\n' ∉ emptyMarker lab) :
    ∀ l ∈ padSection es cnt lab, '\n' ∉ l := by
  intro l hl
  rw [padSection] at hl
  rcases List.mem_append.mp hl with h1 | h2
  · obtain ⟨e, he, rfl⟩ := List.mem_map.mp h1
    exact (parseFormat_clean (hcl e (List.mem_of_mem_take he))).2.2.2.1
  · rw [List.eq_of_mem_replicate h2]
    exact hm

theorem condMem {l : Str} {c : Prop} [Decidable c] {A : List Str}
    (h : l ∈ (if c then A else [])) : l ∈ A := by
  split at h
  · exact h
  · simp at h

theorem headerNl {S F : Str} (hS : '\n' ∉ S) (hF : '\n' ∉ F) :
    '\n' ∉ str "[" ++ S ++ str ", " ++ F ++ str "]" := by
  rw [header_shape]
  intro hmem
  rcases List.mem_cons.mp hmem with h1 | h2
  · exact absurd h1 (by decide)
  rcases List.mem_append.mp h2 with h3 | h4
  · rcases List.mem_append.mp h3 with h5 | h6
    · exact hS h5
    · rcases List.mem_cons.mp h6 with h7 | h8
      · exact absurd h7 (by decide)
      rcases List.mem_cons.mp h8 with h9 | h10
      · exact absurd h9 (by decide)
      · exact hF h10
  · exact absurd h4 (by decide)

/-! ### the amended round trip -/

/-- C1 (amended): for a serializer input with clean module names, no
charges, slot counts covering the fitted modules, at least one declared
rig position, and nonempty categories forming a prefix of the category
order (low, mid, high, rig, subsystem, drones, cargo), parsing the
serialized text recovers the ship name, the fit name and the ordered
module-name lists of every category. -/
theorem parseEFT_serializeEFT (o : EFTSerializeOptions)
    (hS : CleanName o.shipName) (hF : CleanName o.fitName)
    (hLow : ∀ e ∈ o.lowSlots, CleanLine e)
    (hMid : ∀ e ∈ o.midSlots, CleanLine e)
    (hHigh : ∀ e ∈ o.highSlots, CleanLine e)
    (hRig : ∀ e ∈ o.rigSlots, CleanLine e)
    (hSub : ∀ e ∈ o.subsystems, CleanLine e)
    (hDro : ∀ e ∈ o.drones, CleanLine e)
    (hCar : ∀ e ∈ o.cargo, CleanLine e)
    (hcLow : o.lowSlots.length ≤ o.lowSlotCount.getD o.lowSlots.length)
    (hcMid : o.midSlots.length ≤ o.midSlotCount.getD o.midSlots.length)
    (hcHigh : o.highSlots.length ≤ o.highSlotCount.getD o.highSlots.length)
    (hcRig : o.rigSlots.length ≤ o.rigSlotCount.getD o.rigSlots.length)
    (hrig0 : 0 < o.rigSlotCount.getD o.rigSlots.length)
    (hp1 : o.midSlots ≠ [] → o.lowSlots ≠ [])
    (hp2 : o.highSlots ≠ [] → o.midSlots ≠ [])
    (hp3 : o.rigSlots ≠ [] → o.highSlots ≠ [])
    (hp4 : o.subsystems ≠ [] → o.rigSlots ≠ [])
    (hp5 : o.drones ≠ [] → o.subsystems ≠ [])
    (hp6 : o.cargo ≠ [] → o.drones ≠ []) :
    ∃ p, parseEFT (serializeEFT o) = Except.ok p ∧
      p.shipName = o.shipName ∧ p.fitName = o.fitName ∧
      p.lowSlots.map EFTLine.name = o.lowSlots.map EFTLine.name ∧
      p.midSlots.map EFTLine.name = o.midSlots.map EFTLine.name ∧
      p.highSlots.map EFTLine.name = o.highSlots.map EFTLine.name ∧
      p.rigSlots.map EFTLine.name = o.rigSlots.map EFTLine.name ∧
      p.subsystems.map EFTLine.name = o.subsystems.map EFTLine.name ∧
      p.drones.map EFTLine.name = o.drones.map EFTLine.name ∧
      p.cargo.map EFTLine.name = o.cargo.map EFTLine.name := by
  -- per-category section processors
  obtain ⟨lowE, hLowN, hLowIff, hLowStep⟩ :=
    sectionizeGo_pad o.lowSlots o.lowSlotCount (str "Low") hLow hcLow
      markerLow_facts.2.2.1
  obtain ⟨midE, hMidN, hMidIff, hMidStep⟩ :=
    sectionizeGo_pad o.midSlots o.midSlotCount (str "Mid") hMid hcMid
      markerMid_facts.2.2.1
  obtain ⟨highE, hHighN, hHighIff, hHighStep⟩ :=
    sectionizeGo_pad o.highSlots o.highSlotCount (str "High") hHigh hcHigh
      markerHigh_facts.2.2.1
  obtain ⟨rigE, hRigN, hRigIff, hRigStep⟩ :=
    sectionizeGo_pad o.rigSlots o.rigSlotCount (str "Rig") hRig hcRig
      markerRig_facts.2.2.1
  obtain ⟨subE, hSubN, hSubStep⟩ := sectionizeGo_mods o.subsystems hSub
  obtain ⟨droE, hDroN, hDroStep⟩ := sectionizeGo_mods o.drones hDro
  obtain ⟨carE, hCarN, hCarStep⟩ := sectionizeGo_mods o.cargo hCar
  have lenIff : ∀ {A B : List EFTLine},
      A.map EFTLine.name = B.map EFTLine.name → (A = [] ↔ B = []) := by
    intro A B hAB
    have := congrArg List.length hAB
    simp only [List.length_map] at this
    constructor
    · intro h2; rw [h2] at this; exact List.length_eq_zero.mp this.symm
    · intro h2; rw [h2] at this; exact List.length_eq_zero.mp this
  have hSubIff := lenIff hSubN
  have hDroIff := lenIff hDroN
  have hCarIff := lenIff hCarN
  -- the serialized line list in processing-normal form
  have htail : serializeLines o =
      (str "[" ++ o.shipName ++ str ", " ++ o.fitName ++ str "]") ::
        (padSection o.lowSlots o.lowSlotCount (str "Low") ++ ([] ::
          (padSection o.midSlots o.midSlotCount (str "Mid") ++ ([] ::
            (padSection o.highSlots o.highSlotCount (str "High") ++ ([] ::
              (padSection o.rigSlots o.rigSlotCount (str "Rig") ++
                ((if o.subsystems ≠ [] then
                    [] :: o.subsystems.map formatEFTLine else []) ++
                 ((if o.drones ≠ [] then
                    [] :: [] :: o.drones.map formatEFTLine else []) ++
                  (if o.cargo ≠ [] then
                    [] :: o.cargo.map formatEFTLine else [])))))))))) := by
    rw [serializeLines]
    by_cases hs : o.subsystems = [] <;> by_cases hd : o.drones = [] <;>
      by_cases hc : o.cargo = [] <;>
      simp [hs, hd, hc]
  -- every line is newline-free
  have hlinesNl : ∀ l ∈ serializeLines o, '\n' ∉ l := by
    intro l hl
    rw [htail] at hl
    rcases List.mem_cons.mp hl with rfl | hl
    · exact headerNl hS.2.2.1 hF.2.2.1
    rcases List.mem_append.mp hl with h1 | hl
    · exact padNl _ _ _ hLow markerLow_facts.2.2.2 l h1
    rcases List.mem_cons.mp hl with rfl | hl
    · simp
    rcases List.mem_append.mp hl with h1 | hl
    · exact padNl _ _ _ hMid markerMid_facts.2.2.2 l h1
    rcases List.mem_cons.mp hl with rfl | hl
    · simp
    rcases List.mem_append.mp hl with h1 | hl
    · exact padNl _ _ _ hHigh markerHigh_facts.2.2.2 l h1
    rcases List.mem_cons.mp hl with rfl | hl
    · simp
    rcases List.mem_append.mp hl with h1 | hl
    · exact padNl _ _ _ hRig markerRig_facts.2.2.2 l h1
    rcases List.mem_append.mp hl with h1 | hl
    · rcases List.mem_cons.mp (condMem h1) with rfl | h2
      · simp
      · obtain ⟨e, he, rfl⟩ := List.mem_map.mp h2
        exact (parseFormat_clean (hSub e he)).2.2.2.1
    rcases List.mem_append.mp hl with h1 | hl
    · rcases List.mem_cons.mp (condMem h1) with rfl | h2
      · simp
      rcases List.mem_cons.mp h2 with rfl | h3
      · simp
      · obtain ⟨e, he, rfl⟩ := List.mem_map.mp h3
        exact (parseFormat_clean (hDro e he)).2.2.2.1
    · rcases List.mem_cons.mp (condMem hl) with rfl | h2
      · simp
      · obtain ⟨e, he, rfl⟩ := List.mem_map.mp h2
        exact (parseFormat_clean (hCar e he)).2.2.2.1
  -- the last line of the serialized output ends in a non-whitespace char
  have hRigGood := padGood o.rigSlots o.rigSlotCount (str "Rig") hRig hcRig hrig0
    ⟨markerRig_facts.1, ']', markerRig_facts.2.1, by decide⟩
  have hLgood : ∃ lastL, (serializeLines o).getLast? = some lastL ∧ lastL ≠ [] ∧
      ∃ c, lastL.getLast? = some c ∧ isWsChar c = false := by
    by_cases hc : o.cargo = []
    · by_cases hd : o.drones = []
      · by_cases hs : o.subsystems = []
        · rw [serializeLines, if_neg (not_not_intro hs), if_neg (not_not_intro hd),
            if_neg (not_not_intro hc)]
          simp only [List.append_nil]
          obtain ⟨lastL, h1, h2⟩ := hRigGood.2
          exact ⟨lastL, by
            rw [List.getLast?_append_of_ne_nil _ hRigGood.1]; exact h1, h2⟩
        · rw [serializeLines, if_pos hs, if_neg (not_not_intro hd),
            if_neg (not_not_intro hc)]
          simp only [List.append_nil]
          obtain ⟨lastL, h1, h2⟩ := mapFmtGood o.subsystems hs hSub
          refine ⟨lastL, ?_, h2⟩
          rw [List.getLast?_append_of_ne_nil _ (by simp :
            ([[]] ++ o.subsystems.map formatEFTLine) ≠ [])]
          rw [List.singleton_append]
          exact getLast?_cons_some _ _ _ h1
      · rw [serializeLines, if_neg (not_not_intro hc)]
        simp only [List.append_nil]
        rw [if_pos hd]
        obtain ⟨lastL, h1, h2⟩ := mapFmtGood o.drones hd hDro
        refine ⟨lastL, ?_, h2⟩
        rw [List.getLast?_append_of_ne_nil _ (by simp :
          ([[], []] ++ o.drones.map formatEFTLine) ≠ [])]
        exact getLast?_cons_some _ _ _ (getLast?_cons_some _ _ _ h1)
    · rw [serializeLines, if_pos hc]
      obtain ⟨lastL, h1, h2⟩ := mapFmtGood o.cargo hc hCar
      refine ⟨lastL, ?_, h2⟩
      rw [List.getLast?_append_of_ne_nil _ (by simp :
        ([[]] ++ o.cargo.map formatEFTLine) ≠ [])]
      rw [List.singleton_append]
      exact getLast?_cons_some _ _ _ h1
  -- the serialized text is trim-stable and splits back into its lines
  have hhdrShape := header_shape o.shipName o.fitName
  have hhdrNe : (str "[" ++ o.shipName ++ str ", " ++ o.fitName ++ str "]") ≠ [] := by
    rw [hhdrShape]; simp
  have hLne : serializeLines o ≠ [] := by rw [htail]; simp
  have hheadL : (joinNl (serializeLines o)).head? = some '[' := by
    rw [htail, joinNl_head? _ _ hhdrNe, hhdrShape]
    rfl
  have htrimText : trimStr (joinNl (serializeLines o)) = joinNl (serializeLines o) := by
    obtain ⟨lastL, h1, h2, c, h3, h4⟩ := hLgood
    apply trimStr_eq_self_of
    · intro c0 hc0
      rw [hheadL] at hc0
      obtain rfl : '[' = c0 := by simpa using hc0
      decide
    · intro c0 hc0
      rw [joinNl_getLast? _ lastL h2 h1, h3] at hc0
      obtain rfl : c = c0 := by simpa using hc0
      exact h4
  have hsplitL : splitNl (trimStr (serializeEFT o)) = serializeLines o := by
    rw [serializeEFT, htrimText]
    exact splitNl_joinNl hLne hlinesNl
  have hhdrTrim : trimStr (str "[" ++ o.shipName ++ str ", " ++ o.fitName ++ str "]") =
      str "[" ++ o.shipName ++ str ", " ++ o.fitName ++ str "]" := by
    rw [hhdrShape]
    apply trimStr_eq_self_of
    · intro c hc
      obtain rfl : '[' = c := by simpa using hc
      decide
    · intro c hc
      rw [getLast?_cons_some '[' _ ']' (List.getLast?_concat _)] at hc
      obtain rfl : ']' = c := by simpa using hc
      decide
  have hmatch := headerMatch_serialized o.shipName o.fitName hS hF
  -- the computed section list
  have hsecs : sectionizeGo [] []
      (padSection o.lowSlots o.lowSlotCount (str "Low") ++ ([] ::
        (padSection o.midSlots o.midSlotCount (str "Mid") ++ ([] ::
          (padSection o.highSlots o.highSlotCount (str "High") ++ ([] ::
            (padSection o.rigSlots o.rigSlotCount (str "Rig") ++
              ((if o.subsystems ≠ [] then
                  [] :: o.subsystems.map formatEFTLine else []) ++
               ((if o.drones ≠ [] then
                  [] :: [] :: o.drones.map formatEFTLine else []) ++
                (if o.cargo ≠ [] then
                  [] :: o.cargo.map formatEFTLine else []))))))))))
      = (if lowE = [] then [] else [lowE]) ++
        (if midE = [] then [] else [midE]) ++
        (if highE = [] then [] else [highE]) ++
        (if rigE = [] then [] else [rigE]) ++
        (if o.subsystems = [] then [] else [subE]) ++
        (if o.drones = [] then [] else [droE]) ++
        (if o.cargo = [] then [] else [carE]) := by
    rw [hLowStep, List.nil_append, sectionizeGo_blank_flush, List.nil_append,
      hMidStep, List.nil_append, sectionizeGo_blank_flush,
      hHighStep, List.nil_append, sectionizeGo_blank_flush,
      hRigStep, List.nil_append,
      sectionizeGo_condTail o.subsystems o.drones o.cargo subE droE carE
        hSubStep hDroStep hCarStep hSubIff hDroIff hCarIff]
  -- the parse of the serialized text
  have hparse : parseEFT (serializeEFT o) = Except.ok
      { shipName := o.shipName, fitName := o.fitName,
        lowSlots := ((if lowE = [] then [] else [lowE]) ++
          (if midE = [] then [] else [midE]) ++
          (if highE = [] then [] else [highE]) ++
          (if rigE = [] then [] else [rigE]) ++
          (if o.subsystems = [] then [] else [subE]) ++
          (if o.drones = [] then [] else [droE]) ++
          (if o.cargo = [] then [] else [carE])).getD 0 []
        midSlots := ((if lowE = [] then [] else [lowE]) ++
          (if midE = [] then [] else [midE]) ++
          (if highE = [] then [] else [highE]) ++
          (if rigE = [] then [] else [rigE]) ++
          (if o.subsystems = [] then [] else [subE]) ++
          (if o.drones = [] then [] else [droE]) ++
          (if o.cargo = [] then [] else [carE])).getD 1 []
        highSlots := ((if lowE = [] then [] else [lowE]) ++
          (if midE = [] then [] else [midE]) ++
          (if highE = [] then [] else [highE]) ++
          (if rigE = [] then [] else [rigE]) ++
          (if o.subsystems = [] then [] else [subE]) ++
          (if o.drones = [] then [] else [droE]) ++
          (if o.cargo = [] then [] else [carE])).getD 2 []
        rigSlots := ((if lowE = [] then [] else [lowE]) ++
          (if midE = [] then [] else [midE]) ++
          (if highE = [] then [] else [highE]) ++
          (if rigE = [] then [] else [rigE]) ++
          (if o.subsystems = [] then [] else [subE]) ++
          (if o.drones = [] then [] else [droE]) ++
          (if o.cargo = [] then [] else [carE])).getD 3 []
        subsystems := ((if lowE = [] then [] else [lowE]) ++
          (if midE = [] then [] else [midE]) ++
          (if highE = [] then [] else [highE]) ++
          (if rigE = [] then [] else [rigE]) ++
          (if o.subsystems = [] then [] else [subE]) ++
          (if o.drones = [] then [] else [droE]) ++
          (if o.cargo = [] then [] else [carE])).getD 4 []
        drones := ((if lowE = [] then [] else [lowE]) ++
          (if midE = [] then [] else [midE]) ++
          (if highE = [] then [] else [highE]) ++
          (if rigE = [] then [] else [rigE]) ++
          (if o.subsystems = [] then [] else [subE]) ++
          (if o.drones = [] then [] else [droE]) ++
          (if o.cargo = [] then [] else [carE])).getD 5 []
        cargo := ((if lowE = [] then [] else [lowE]) ++
          (if midE = [] then [] else [midE]) ++
          (if highE = [] then [] else [highE]) ++
          (if rigE = [] then [] else [rigE]) ++
          (if o.subsystems = [] then [] else [subE]) ++
          (if o.drones = [] then [] else [droE]) ++
          (if o.cargo = [] then [] else [carE])).getD 6 [] } := by
    simp only [parseEFT, hsplitL, htail, hhdrTrim, hmatch, hsecs]
  -- conclude by cases on which categories are populated
  by_cases h1 : o.lowSlots = []
  · have h2 : o.midSlots = [] := by by_contra hh; exact hp1 hh h1
    have h3 : o.highSlots = [] := by by_contra hh; exact hp2 hh h2
    have h4 : o.rigSlots = [] := by by_contra hh; exact hp3 hh h3
    have h5 : o.subsystems = [] := by by_contra hh; exact hp4 hh h4
    have h6 : o.drones = [] := by by_contra hh; exact hp5 hh h5
    have h7 : o.cargo = [] := by by_contra hh; exact hp6 hh h6
    have e1 : lowE = [] := hLowIff.mpr h1
    have e2 : midE = [] := hMidIff.mpr h2
    have e3 : highE = [] := hHighIff.mpr h3
    have e4 : rigE = [] := hRigIff.mpr h4
    refine ⟨_, hparse, rfl, rfl, ?_, ?_, ?_, ?_, ?_, ?_, ?_⟩ <;>
      simp [e1, e2, e3, e4, h1, h2, h3, h4, h5, h6, h7]
  · have n1 : lowE ≠ [] := fun hh => h1 (hLowIff.mp hh)
    by_cases h2 : o.midSlots = []
    · have h3 : o.highSlots = [] := by by_contra hh; exact hp2 hh h2
      have h4 : o.rigSlots = [] := by by_contra hh; exact hp3 hh h3
      have h5 : o.subsystems = [] := by by_contra hh; exact hp4 hh h4
      have h6 : o.drones = [] := by by_contra hh; exact hp5 hh h5
      have h7 : o.cargo = [] := by by_contra hh; exact hp6 hh h6
      have e2 : midE = [] := hMidIff.mpr h2
      have e3 : highE = [] := hHighIff.mpr h3
      have e4 : rigE = [] := hRigIff.mpr h4
      refine ⟨_, hparse, rfl, rfl, ?_, ?_, ?_, ?_, ?_, ?_, ?_⟩ <;>
        simp [n1, e2, e3, e4, h2, h3, h4, h5, h6, h7, hLowN]
    · have n2 : midE ≠ [] := fun hh => h2 (hMidIff.mp hh)
      by_cases h3 : o.highSlots = []
      · have h4 : o.rigSlots = [] := by by_contra hh; exact hp3 hh h3
        have h5 : o.subsystems = [] := by by_contra hh; exact hp4 hh h4
        have h6 : o.drones = [] := by by_contra hh; exact hp5 hh h5
        have h7 : o.cargo = [] := by by_contra hh; exact hp6 hh h6
        have e3 : highE = [] := hHighIff.mpr h3
        have e4 : rigE = [] := hRigIff.mpr h4
        refine ⟨_, hparse, rfl, rfl, ?_, ?_, ?_, ?_, ?_, ?_, ?_⟩ <;>
          simp [n1, n2, e3, e4, h3, h4, h5, h6, h7, hLowN, hMidN]
      · have n3 : highE ≠ [] := fun hh => h3 (hHighIff.mp hh)
        by_cases h4 : o.rigSlots = []
        · have h5 : o.subsystems = [] := by by_contra hh; exact hp4 hh h4
          have h6 : o.drones = [] := by by_contra hh; exact hp5 hh h5
          have h7 : o.cargo = [] := by by_contra hh; exact hp6 hh h6
          have e4 : rigE = [] := hRigIff.mpr h4
          refine ⟨_, hparse, rfl, rfl, ?_, ?_, ?_, ?_, ?_, ?_, ?_⟩ <;>
            simp [n1, n2, n3, e4, h4, h5, h6, h7, hLowN, hMidN, hHighN]
        · have n4 : rigE ≠ [] := fun hh => h4 (hRigIff.mp hh)
          by_cases h5 : o.subsystems = []
          · have h6 : o.drones = [] := by by_contra hh; exact hp5 hh h5
            have h7 : o.cargo = [] := by by_contra hh; exact hp6 hh h6
            refine ⟨_, hparse, rfl, rfl, ?_, ?_, ?_, ?_, ?_, ?_, ?_⟩ <;>
              simp [n1, n2, n3, n4, h5, h6, h7, hLowN, hMidN, hHighN, hRigN]
          · by_cases h6 : o.drones = []
            · have h7 : o.cargo = [] := by by_contra hh; exact hp6 hh h6
              refine ⟨_, hparse, rfl, rfl, ?_, ?_, ?_, ?_, ?_, ?_, ?_⟩ <;>
                simp [n1, n2, n3, n4, h5, h6, h7, hLowN, hMidN, hHighN, hRigN, hSubN]
            · by_cases h7 : o.cargo = []
              · refine ⟨_, hparse, rfl, rfl, ?_, ?_, ?_, ?_, ?_, ?_, ?_⟩ <;>
                  simp [n1, n2, n3, n4, h5, h6, h7, hLowN, hMidN, hHighN, hRigN,
                    hSubN, hDroN]
              · refine ⟨_, hparse, rfl, rfl, ?_, ?_, ?_, ?_, ?_, ?_, ?_⟩ <;>
                  simp [n1, n2, n3, n4, h5, h6, h7, hLowN, hMidN, hHighN, hRigN,
                    hSubN, hDroN, hCarN]

/-- A serializer input satisfying the round-trip claim's hypotheses
(clean names, no charges, counts covering the modules) whose low-slot
category is empty while the mid-slot category is not. -/
def c1Fail : EFTSerializeOptions :=
  { shipName := str "S", fitName := str "F",
    highSlots := [], midSlots := [{ name := str "Alpha" }],
    lowSlots := [], rigSlots := [],
    lowSlotCount := some 1, midSlotCount := some 1,
    highSlotCount := some 0, rigSlotCount := some 1 }

/-- C1 (counterexample): an empty low section serializes to empty-slot
markers only, which the parser skips, so the mid-slot module is parsed
back into the *low* category: the round trip does not restore the
per-category lists for this fitting, although it has clean module names,
no charges, and declared slot counts. -/
theorem parseEFT_serializeEFT_not_inverse :
    CleanName c1Fail.shipName ∧ CleanName c1Fail.fitName ∧
    (∀ e ∈ c1Fail.midSlots, CleanLine e) ∧
    c1Fail.midSlots.map EFTLine.name = [str "Alpha"] ∧
    (parseEFT (serializeEFT c1Fail)).toOption.map
        (fun p => (p.lowSlots.map EFTLine.name, p.midSlots.map EFTLine.name)) =
      some ([str "Alpha"], []) := by
  decide

/-- A fully populated serializer input for the round-trip witness. -/
def c1Ok : EFTSerializeOptions :=
  { shipName := str "Hurricane", fitName := str "Alpha Fit",
    lowSlots := [{ name := str "Gyrostabilizer II" }],
    midSlots := [{ name := str "50MN Microwarpdrive" }],
    highSlots := [{ name := str "720mm Howitzer" }],
    rigSlots := [{ name := str "Medium Extender" }],
    subsystems := [{ name := str "Core Sub" }],
    drones := [{ name := str "Warrior II", quantity := some 5 }],
    cargo := [{ name := str "EMP M Ammo" }],
    lowSlotCount := some 2, midSlotCount := some 2,
    highSlotCount := some 2, rigSlotCount := some 3 }

/-- Witness for `parseEFT_serializeEFT` at a concrete populated fitting. -/
theorem parseEFT_serializeEFT_witness :
    ∃ p, parseEFT (serializeEFT c1Ok) = Except.ok p ∧
      p.shipName = c1Ok.shipName ∧ p.fitName = c1Ok.fitName ∧
      p.lowSlots.map EFTLine.name = c1Ok.lowSlots.map EFTLine.name ∧
      p.midSlots.map EFTLine.name = c1Ok.midSlots.map EFTLine.name ∧
      p.highSlots.map EFTLine.name = c1Ok.highSlots.map EFTLine.name ∧
      p.rigSlots.map EFTLine.name = c1Ok.rigSlots.map EFTLine.name ∧
      p.subsystems.map EFTLine.name = c1Ok.subsystems.map EFTLine.name ∧
      p.drones.map EFTLine.name = c1Ok.drones.map EFTLine.name ∧
      p.cargo.map EFTLine.name = c1Ok.cargo.map EFTLine.name :=
  parseEFT_serializeEFT c1Ok (by decide) (by decide) (by decide) (by decide)
    (by decide) (by decide) (by decide) (by decide) (by decide) (by decide)
    (by decide) (by decide) (by decide) (by decide) (by decide) (by decide)
    (by decide) (by decide) (by decide) (by decide)

/-! ## Numeric data model (`src/types/eve.ts`)

JavaScript numbers are modelled as `ℚ`; optional record fields as
`Option`; `Record<number, number>` as an association list (absent record ≡
empty list, which yields the same lookups). -/

inductive SlotType
  | high | mid | low | rig | subsystem | drone | cargo
deriving DecidableEq, Repr

inductive ModuleState
  | active | passive | offline
deriving DecidableEq, Repr

structure Charge where
  type_id : ℚ
  name : String
  quantity : ℚ
  attributes : List (ℚ × ℚ) := []
deriving DecidableEq, Repr

structure FittedModule where
  id : String
  type_id : ℚ
  name : String
  slot_type : SlotType
  slot_index : ℤ
  state : ModuleState
  charge : Option Charge := none
  group_id : Option ℚ := none
  category_id : Option ℚ := none
  attributes : List (ℚ × ℚ) := []
  effects : Option (List ℚ) := none
deriving DecidableEq, Repr

structure DogmaAttribute where
  attribute_id : ℚ
  value : ℚ
deriving DecidableEq, Repr

structure EveType where
  type_id : ℚ
  name : String
  description : String := ""
  group_id : ℚ := 0
  category_id : Option ℚ := none
  mass : Option ℚ := none
  volume : Option ℚ := none
  dogma_attributes : Option (List DogmaAttribute) := none
deriving DecidableEq, Repr

structure Fitting where
  id : String
  name : String
  ship_type_id : ℚ
  ship_name : String
  ship_group_id : Option ℚ := none
  description : Option String := none
  tags : Option (List String) := none
  high_slots : List (Option FittedModule)
  mid_slots : List (Option FittedModule)
  low_slots : List (Option FittedModule)
  rig_slots : List (Option FittedModule)
  subsystem_slots : List (Option FittedModule)
  drones : List FittedModule
  cargo : List FittedModule
  created_at : String
  updated_at : String
deriving DecidableEq, Repr

structure ResistanceProfile where
  em : ℚ
  thermal : ℚ
  kinetic : ℚ
  explosive : ℚ
deriving DecidableEq, Repr

structure LayerStats where
  hp : ℚ
  resist : ResistanceProfile
  ehp : ℚ
  avg_resist : ℚ
deriving DecidableEq, Repr

structure CapacitorStats where
  capacity : ℚ
  recharge_rate : ℚ
  peak_recharge : ℚ
  drain_per_second : ℚ
  stable : Bool
  stable_percent : Option ℤ := none
  lasts_seconds : Option ℚ := none
deriving Repr

structure OffenseStats where
  turret_dps : ℚ
  missile_dps : ℚ
  drone_dps : ℚ
  total_dps : ℚ
  alpha : ℚ
  volley : ℚ
  turret_optimal : ℚ
  turret_falloff : ℚ
  missile_range : ℚ
  drone_control_range : ℚ
deriving DecidableEq, Repr

structure NavigationStats where
  max_velocity : ℚ
  agility : ℚ
  warp_speed : ℚ
  align_time : ℝ
  signature_radius : ℚ
  mass : ℚ
  inertia_modifier : ℚ

inductive SensorType
  | Gravimetric | Magnetometric | Ladar | Radar
deriving DecidableEq, Repr

structure TargetingStats where
  max_targets : ℚ
  max_target_range : ℚ
  scan_resolution : ℚ
  sensor_strength : ℚ
  sensor_type : SensorType
deriving DecidableEq, Repr

structure EngineeringStats where
  cpu_total : ℚ
  cpu_used : ℚ
  cpu_remaining : ℚ
  pg_total : ℚ
  pg_used : ℚ
  pg_remaining : ℚ
  calibration_total : ℚ
  calibration_used : ℚ
  drone_bandwidth_total : ℚ
  drone_bandwidth_used : ℚ
  drone_capacity : ℚ
  drone_capacity_used : ℚ
deriving DecidableEq, Repr

structure ShipStats where
  engineering : EngineeringStats
  capacitor : CapacitorStats
  offense : OffenseStats
  navigation : NavigationStats
  targeting : TargetingStats
  shield : LayerStats
  armor : LayerStats
  hull : LayerStats
  total_ehp : ℚ
  high_slots : ℕ
  mid_slots : ℕ
  low_slots : ℕ
  rig_slots : ℕ
  turret_hardpoints : ℚ
  launcher_hardpoints : ℚ

/-! ## Attribute-id constants (`src/lib/constants.ts`) -/

namespace ATTR

def POWERGRID : ℚ := 11
def CPU : ℚ := 48
def MODULE_PG_USAGE : ℚ := 30
def MODULE_CPU_USAGE : ℚ := 50
def MODULE_ACTIVATION_COST : ℚ := 15
def MODULE_CYCLE_TIME : ℚ := 51
def CAP_CAPACITY : ℚ := 482
def CAP_RECHARGE_TIME : ℚ := 55
def STRUCTURE_HP : ℚ := 9
def ARMOR_HP : ℚ := 265
def SHIELD_CAPACITY : ℚ := 263
def SHIELD_EM_RESONANCE : ℚ := 271
def SHIELD_EXPLOSIVE_RESONANCE : ℚ := 272
def SHIELD_KINETIC_RESONANCE : ℚ := 273
def SHIELD_THERMAL_RESONANCE : ℚ := 274
def ARMOR_EM_RESONANCE : ℚ := 267
def ARMOR_EXPLOSIVE_RESONANCE : ℚ := 268
def ARMOR_KINETIC_RESONANCE : ℚ := 269
def ARMOR_THERMAL_RESONANCE : ℚ := 270
def HULL_EM_RESONANCE : ℚ := 113
def HULL_KINETIC_RESONANCE : ℚ := 109
def HULL_THERMAL_RESONANCE : ℚ := 110
def HULL_EXPLOSIVE_RESONANCE : ℚ := 111
def MAX_VELOCITY : ℚ := 37
def INERTIA_MODIFIER : ℚ := 70
def WARP_SPEED_MULT : ℚ := 600
def SIGNATURE_RADIUS : ℚ := 552
def MAX_TARGETS : ℚ := 192
def MAX_TARGET_RANGE : ℚ := 76
def SCAN_RESOLUTION : ℚ := 564
def SENSOR_RADAR_STRENGTH : ℚ := 208
def SENSOR_LADAR_STRENGTH : ℚ := 209
def SENSOR_MAGNETOMETRIC_STRENGTH : ℚ := 210
def SENSOR_GRAVIMETRIC_STRENGTH : ℚ := 211
def LAUNCHER_SLOTS_LEFT : ℚ := 101
def TURRET_SLOTS_LEFT : ℚ := 102
def DRONE_CAPACITY : ℚ := 283
def DRONE_BANDWIDTH : ℚ := 1271
def CALIBRATION_TOTAL : ℚ := 1132
def CALIBRATION_COST : ℚ := 1153
def DAMAGE_MULTIPLIER : ℚ := 64
def TRACKING_SPEED : ℚ := 160
def OPTIMAL_RANGE : ℚ := 54
def FALLOFF : ℚ := 158
def MISSILE_FLIGHT_TIME : ℚ := 51
def MISSILE_VELOCITY : ℚ := 37
def EXPLOSION_RADIUS : ℚ := 103
def MISSILE_DAMAGE_MULT : ℚ := 212
def EM_DAMAGE : ℚ := 114
def EXPLOSIVE_DAMAGE : ℚ := 116
def KINETIC_DAMAGE : ℚ := 117
def THERMAL_DAMAGE : ℚ := 118

end ATTR

/-! ## Attribute lookup (`src/lib/stats.ts`) -/

/-- First binding for a numeric key in a number-keyed record. -/
def recAttr (l : List (ℚ × ℚ)) (k : ℚ) : Option ℚ :=
  (l.find? (fun p => p.1 = k)).map (fun p => p.2)

/-- `shipAttr(type, attrId, fallback = 0)`. -/
def shipAttr (t : EveType) (attrId : ℚ) (fallback : ℚ := 0) : ℚ :=
  match (t.dogma_attributes.getD []).find? (fun a => a.attribute_id = attrId) with
  | some a => a.value
  | none => fallback

/-- `modAttr(mod, attrId, fallback = 0)`. -/
def modAttr (m : FittedModule) (attrId : ℚ) (fallback : ℚ := 0) : ℚ :=
  (recAttr m.attributes attrId).getD fallback

/-- All non-null modules across the five slot arrays. -/
def allFittedModules (fitting : Fitting) : List FittedModule :=
  (fitting.high_slots ++ fitting.mid_slots ++ fitting.low_slots ++
    fitting.rig_slots ++ fitting.subsystem_slots).filterMap id

/-- Fitted modules in `active` state. -/
def activeModules (fitting : Fitting) : List FittedModule :=
  (allFittedModules fitting).filter (fun m => m.state = ModuleState.active)

/-! ## Capacitor simulator (`src/lib/utils.ts`, `simulateCap`)

The integration loop uses `Math.sqrt`; it is modelled over `ℝ` with exact
arithmetic (`dt = 1/10`, thresholds as exact rationals), while the time
counter and the interface stay rational. -/

structure CapSimResult where
  stable : Bool
  stablePercent : Option ℤ := none
  lastsSeconds : Option ℚ := none

/-- `Math.round`: round half toward positive infinity. -/
noncomputable def jsRound (x : ℝ) : ℤ := ⌊x + 1 / 2⌋

/-- One Euler step of the recharge ODE:
`cap += ((capacity/tau) * 10 * (sqrt f - f) - drain) * dt`. -/
noncomputable def capStep (capacity tau drain : ℚ) (cap : ℝ) : ℝ :=
  cap + (((capacity : ℝ) / (tau : ℝ)) * 10 *
    (Real.sqrt (max (cap / (capacity : ℝ)) 0) - max (cap / (capacity : ℝ)) 0) -
      (drain : ℝ)) * (1 / 10)

/-- The drain-to-empty loop of the quick-unstable branch; returns the time
at which the capacitor hit zero, or `none` if it survived to
`maxSimSeconds`. -/
noncomputable def capRunOut (capacity tau drain maxSim : ℚ) :
    ℕ → ℚ → ℝ → Option ℚ
  | 0, _, _ => none
  | fuel + 1, t, cap =>
    if t < maxSim then
      if capStep capacity tau drain cap ≤ 0 then some t
      else capRunOut capacity tau drain maxSim fuel (t + 1 / 10)
        (capStep capacity tau drain cap)
    else none

inductive CapLoopRes
  | died (t : ℚ)
  | stabilized (cap : ℝ)
  | ranOut (cap : ℝ)

/-- The stability-search loop: dies, stabilizes (per-step delta below
`0.01·dt·10` after `t > 10`), or runs out of simulated time. -/
noncomputable def capRunStable (capacity tau drain maxSim : ℚ) :
    ℕ → ℚ → ℝ → ℝ → CapLoopRes
  | 0, _, cap, _ => .ranOut cap
  | fuel + 1, t, cap, prevCap =>
    if t < maxSim then
      if capStep capacity tau drain cap ≤ 0 then .died t
      else if 10 < t ∧
          |capStep capacity tau drain cap - prevCap| < (1 / 100) * (1 / 10) * 10 then
        .stabilized (capStep capacity tau drain cap)
      else capRunStable capacity tau drain maxSim fuel (t + 1 / 10)
        (capStep capacity tau drain cap) (capStep capacity tau drain cap)
    else .ranOut cap

/-- `simulateCap(capacity, rechargeMs, drainPerSecond, maxSimSeconds = 600)`. -/
noncomputable def simulateCap (capacity rechargeMs drainPerSecond : ℚ)
    (maxSimSeconds : ℚ := 600) : CapSimResult :=
  if drainPerSecond ≤ 0 then { stable := true, stablePercent := some 100 }
  else
    if drainPerSecond > 2.5 * capacity / (rechargeMs / 1000) * 1.1 then
      match capRunOut capacity (rechargeMs / 1000) drainPerSecond maxSimSeconds
          ((Int.toNat ⌈maxSimSeconds * 10⌉) + 1) 0 (capacity : ℝ) with
      | some t => { stable := false, lastsSeconds := some t }
      | none => { stable := false, lastsSeconds := some maxSimSeconds }
    else
      match capRunStable capacity (rechargeMs / 1000) drainPerSecond maxSimSeconds
          ((Int.toNat ⌈maxSimSeconds * 10⌉) + 1) 0 (capacity : ℝ) (capacity : ℝ) with
      | .died t => { stable := false, lastsSeconds := some t }
      | .stabilized cap2 =>
        { stable := true, stablePercent := some (jsRound (cap2 / (capacity : ℝ) * 100)) }
      | .ranOut cap2 =>
        { stable := true, stablePercent := some (jsRound (cap2 / (capacity : ℝ) * 100)) }

/-- `calculateAlignTime`: `-ln(0.25) * agility * mass / 1e6`. -/
noncomputable def calculateAlignTime (mass agility : ℚ) : ℝ :=
  (-(Real.log (1 / 4)) * (agility : ℝ) * (mass : ℝ)) / 1000000

/-- `calculateEHP`. -/
def calculateEHP (hp avgResonance : ℚ) : ℚ :=
  if avgResonance ≥ 1 then hp else hp / avgResonance

/-- `avgResonance`. -/
def avgResonance (em thermal kinetic explosive : ℚ) : ℚ :=
  (em + thermal + kinetic + explosive) / 4

/-! ## Stats calculator (`src/lib/stats.ts`) -/

/-- Accumulator of the engineering loop. -/
structure EngAcc where
  cpuUsed : ℚ := 0
  pgUsed : ℚ := 0
  calibrationUsed : ℚ := 0
  droneBandwidthUsed : ℚ := 0
  droneCapacityUsed : ℚ := 0

/-- `calcEngineering`: totals from ship attributes, usage summed over
non-offline modules (drone/rig sub-sums keyed on `slot_type`; the module
list it iterates holds the five slot arrays only). -/
def calcEngineering (shipType : EveType) (fitting : Fitting) : EngineeringStats :=
  let cpuTotal := shipAttr shipType ATTR.CPU
  let pgTotal := shipAttr shipType ATTR.POWERGRID
  let calibrationTotal := shipAttr shipType ATTR.CALIBRATION_TOTAL 400
  let droneBandwidthTotal := shipAttr shipType ATTR.DRONE_BANDWIDTH
  let droneCapacity := shipAttr shipType ATTR.DRONE_CAPACITY
  let acc := (allFittedModules fitting).foldl (fun (acc : EngAcc) m =>
    if m.state = ModuleState.offline then acc
    else
      let acc :=
        if m.slot_type = SlotType.drone then
          { acc with
            droneBandwidthUsed := acc.droneBandwidthUsed + modAttr m ATTR.DRONE_BANDWIDTH 0
            droneCapacityUsed := acc.droneCapacityUsed + modAttr m ATTR.DRONE_CAPACITY 0 }
        else if m.slot_type = SlotType.rig then
          { acc with
            calibrationUsed := acc.calibrationUsed + modAttr m ATTR.CALIBRATION_COST 0 }
        else acc
      { acc with
        cpuUsed := acc.cpuUsed + modAttr m ATTR.MODULE_CPU_USAGE 0
        pgUsed := acc.pgUsed + modAttr m ATTR.MODULE_PG_USAGE 0 }) ({} : EngAcc)
  { cpu_total := cpuTotal
    cpu_used := acc.cpuUsed
    cpu_remaining := cpuTotal - acc.cpuUsed
    pg_total := pgTotal
    pg_used := acc.pgUsed
    pg_remaining := pgTotal - acc.pgUsed
    calibration_total := calibrationTotal
    calibration_used := acc.calibrationUsed
    drone_bandwidth_total := droneBandwidthTotal
    drone_bandwidth_used := acc.droneBandwidthUsed
    drone_capacity := droneCapacity
    drone_capacity_used := acc.droneCapacityUsed }

/-- `calcResistProfile` (resonance fallback 1.0 = no resist). -/
def calcResistProfile (shipType : EveType) (emAttr thermalAttr kineticAttr
    explosiveAttr : ℚ) : ResistanceProfile :=
  { em := shipAttr shipType emAttr 1
    thermal := shipAttr shipType thermalAttr 1
    kinetic := shipAttr shipType kineticAttr 1
    explosive := shipAttr shipType explosiveAttr 1 }

/-- `calcLayerStats`. -/
def calcLayerStats (hp : ℚ) (resist : ResistanceProfile) : LayerStats :=
  { hp := hp
    resist := resist
    ehp := calculateEHP hp (avgResonance resist.em resist.thermal resist.kinetic resist.explosive)
    avg_resist := avgResonance resist.em resist.thermal resist.kinetic resist.explosive }

/-- `calcShield`. -/
def calcShield (shipType : EveType) : LayerStats :=
  calcLayerStats (shipAttr shipType ATTR.SHIELD_CAPACITY)
    (calcResistProfile shipType ATTR.SHIELD_EM_RESONANCE ATTR.SHIELD_THERMAL_RESONANCE
      ATTR.SHIELD_KINETIC_RESONANCE ATTR.SHIELD_EXPLOSIVE_RESONANCE)

/-- `calcArmor`. -/
def calcArmor (shipType : EveType) : LayerStats :=
  calcLayerStats (shipAttr shipType ATTR.ARMOR_HP)
    (calcResistProfile shipType ATTR.ARMOR_EM_RESONANCE ATTR.ARMOR_THERMAL_RESONANCE
      ATTR.ARMOR_KINETIC_RESONANCE ATTR.ARMOR_EXPLOSIVE_RESONANCE)

/-- `calcHull`. -/
def calcHull (shipType : EveType) : LayerStats :=
  calcLayerStats (shipAttr shipType ATTR.STRUCTURE_HP)
    (calcResistProfile shipType ATTR.HULL_EM_RESONANCE ATTR.HULL_THERMAL_RESONANCE
      ATTR.HULL_KINETIC_RESONANCE ATTR.HULL_EXPLOSIVE_RESONANCE)

/-- Capacitor drain from one active module: `activationCost / (cycle/1000)`
when both attributes are positive. -/
def capDrain (m : FittedModule) : ℚ :=
  if modAttr m ATTR.MODULE_ACTIVATION_COST 0 > 0 ∧ modAttr m ATTR.MODULE_CYCLE_TIME 0 > 0 then
    modAttr m ATTR.MODULE_ACTIVATION_COST 0 / (modAttr m ATTR.MODULE_CYCLE_TIME 0 / 1000)
  else 0

/-- `calcCapacitor`. -/
noncomputable def calcCapacitor (shipType : EveType) (fitting : Fitting) :
    CapacitorStats :=
  let capacity := shipAttr shipType ATTR.CAP_CAPACITY
  let rechargeMs := shipAttr shipType ATTR.CAP_RECHARGE_TIME
  let tau := rechargeMs / 1000
  let peakRecharge := if tau > 0 then 2.5 * capacity / tau else 0
  let drainPerSecond := (activeModules fitting).foldl (fun d m => d + capDrain m) 0
  let sim := simulateCap capacity rechargeMs drainPerSecond
  { capacity := capacity
    recharge_rate := tau
    peak_recharge := peakRecharge
    drain_per_second := drainPerSecond
    stable := sim.stable
    stable_percent := sim.stablePercent
    lasts_seconds := sim.lastsSeconds }

/-! ### offense -/

/-- Accumulator of the offense loop over active modules. -/
structure OffAcc where
  turretDps : ℚ := 0
  missileDps : ℚ := 0
  turretAlpha : ℚ := 0
  missileAlpha : ℚ := 0
  turretOptimal : ℚ := 0
  turretFalloff : ℚ := 0
  missileRange : ℚ := 0

/-- One iteration of the offense loop: the turret block (positive
tracking speed) and the missile block (positive explosion radius) are two
independent `if` statements applied in sequence. -/
def offenseStep (acc : OffAcc) (m : FittedModule) : OffAcc :=
  let cycleMs := modAttr m ATTR.MODULE_CYCLE_TIME 0
  let dmgMult := modAttr m ATTR.DAMAGE_MULTIPLIER 1
  let baseDmg := modAttr m ATTR.EM_DAMAGE 0 + modAttr m ATTR.THERMAL_DAMAGE 0 +
    modAttr m ATTR.KINETIC_DAMAGE 0 + modAttr m ATTR.EXPLOSIVE_DAMAGE 0
  let acc1 :=
    if modAttr m ATTR.TRACKING_SPEED 0 > 0 ∧ cycleMs > 0 then
      { acc with
        turretAlpha := acc.turretAlpha + baseDmg * dmgMult
        turretDps := acc.turretDps + baseDmg * dmgMult / (cycleMs / 1000)
        turretOptimal := max acc.turretOptimal (modAttr m ATTR.OPTIMAL_RANGE 0)
        turretFalloff := max acc.turretFalloff (modAttr m ATTR.FALLOFF 0) }
    else acc
  if modAttr m ATTR.EXPLOSION_RADIUS 0 > 0 ∧ cycleMs > 0 then
    { acc1 with
      missileAlpha := acc1.missileAlpha +
        baseDmg * modAttr m ATTR.MISSILE_DAMAGE_MULT 1
      missileDps := acc1.missileDps +
        baseDmg * modAttr m ATTR.MISSILE_DAMAGE_MULT 1 / (cycleMs / 1000)
      missileRange :=
        if modAttr m ATTR.MISSILE_FLIGHT_TIME 0 > 0 ∧ modAttr m ATTR.MISSILE_VELOCITY 0 > 0 then
          max acc1.missileRange
            (modAttr m ATTR.MISSILE_FLIGHT_TIME 0 / 1000 * modAttr m ATTR.MISSILE_VELOCITY 0)
        else acc1.missileRange }
  else acc1

/-- One iteration of the drone-DPS loop. -/
def droneStep (dps : ℚ) (drone : FittedModule) : ℚ :=
  let cycleMs := modAttr drone ATTR.MODULE_CYCLE_TIME 0
  let dmgMult := modAttr drone ATTR.DAMAGE_MULTIPLIER 1
  let baseDmg := modAttr drone ATTR.EM_DAMAGE 0 + modAttr drone ATTR.THERMAL_DAMAGE 0 +
    modAttr drone ATTR.KINETIC_DAMAGE 0 + modAttr drone ATTR.EXPLOSIVE_DAMAGE 0
  if cycleMs > 0 ∧ baseDmg > 0 then dps + baseDmg * dmgMult / (cycleMs / 1000)
  else dps

/-- `calcOffense`. -/
def calcOffense (fitting : Fitting) : OffenseStats :=
  let acc := (activeModules fitting).foldl offenseStep ({} : OffAcc)
  let droneDps := fitting.drones.foldl droneStep 0
  { turret_dps := acc.turretDps
    missile_dps := acc.missileDps
    drone_dps := droneDps
    total_dps := acc.turretDps + acc.missileDps + droneDps
    alpha := acc.turretAlpha + acc.missileAlpha
    volley := acc.turretAlpha + acc.missileAlpha
    turret_optimal := acc.turretOptimal
    turret_falloff := acc.turretFalloff
    missile_range := acc.missileRange
    drone_control_range := 0 }

/-- `calcNavigation`. -/
noncomputable def calcNavigation (shipType : EveType) : NavigationStats :=
  let inertia := shipAttr shipType ATTR.INERTIA_MODIFIER 1
  let mass := shipType.mass.getD 1000000
  { max_velocity := shipAttr shipType ATTR.MAX_VELOCITY 0
    agility := inertia
    warp_speed := shipAttr shipType ATTR.WARP_SPEED_MULT 1
    align_time := calculateAlignTime mass inertia
    signature_radius := shipAttr shipType ATTR.SIGNATURE_RADIUS 100
    mass := mass
    inertia_modifier := inertia }

/-- `calcTargeting` (`reduce` keeps the earlier sensor on ties). -/
def calcTargeting (shipType : EveType) : TargetingStats :=
  let radar := shipAttr shipType ATTR.SENSOR_RADAR_STRENGTH 0
  let ladar := shipAttr shipType ATTR.SENSOR_LADAR_STRENGTH 0
  let magneto := shipAttr shipType ATTR.SENSOR_MAGNETOMETRIC_STRENGTH 0
  let gravi := shipAttr shipType ATTR.SENSOR_GRAVIMETRIC_STRENGTH 0
  let strongest :=
    [(SensorType.Ladar, ladar), (SensorType.Magnetometric, magneto),
     (SensorType.Gravimetric, gravi)].foldl
      (fun a b => if b.2 > a.2 then b else a) (SensorType.Radar, radar)
  { max_targets := shipAttr shipType ATTR.MAX_TARGETS 7
    max_target_range := shipAttr shipType ATTR.MAX_TARGET_RANGE 50000
    scan_resolution := shipAttr shipType ATTR.SCAN_RESOLUTION 300
    sensor_strength := strongest.2
    sensor_type := strongest.1 }

/-- `calculateShipStats`. -/
noncomputable def calculateShipStats (shipType : EveType) (fitting : Fitting) :
    ShipStats :=
  let shield := calcShield shipType
  let armor := calcArmor shipType
  let hull := calcHull shipType
  { engineering := calcEngineering shipType fitting
    capacitor := calcCapacitor shipType fitting
    offense := calcOffense fitting
    navigation := calcNavigation shipType
    targeting := calcTargeting shipType
    shield := shield
    armor := armor
    hull := hull
    total_ehp := shield.ehp + armor.ehp + hull.ehp
    high_slots := fitting.high_slots.length
    mid_slots := fitting.mid_slots.length
    low_slots := fitting.low_slots.length
    rig_slots := fitting.rig_slots.length
    turret_hardpoints := shipAttr shipType ATTR.TURRET_SLOTS_LEFT 0
    launcher_hardpoints := shipAttr shipType ATTR.LAUNCHER_SLOTS_LEFT 0 }

/-! ## Skill bonus engine (`src/lib/skills.ts`) -/

namespace SUPPORT

def CPU_MANAGEMENT : ℚ := 3426
def POWER_GRID_MANAGEMENT : ℚ := 3413
def CAPACITOR_MANAGEMENT : ℚ := 3418
def CAPACITOR_SYSTEMS_OPERATION : ℚ := 3417
def SHIELD_MANAGEMENT : ℚ := 3419
def HULL_UPGRADES : ℚ := 3394
def MECHANICS : ℚ := 3392
def NAVIGATION : ℚ := 3449
def EVASIVE_MANEUVERING : ℚ := 3453
def TARGET_MANAGEMENT : ℚ := 3428
def LONG_RANGE_TARGETING : ℚ := 3431
def SIGNATURE_ANALYSIS : ℚ := 3432

end SUPPORT

/-- `Object.values(SUPPORT_SKILL_IDS)` in declaration order. -/
def supportSkillIds : List ℚ :=
  [SUPPORT.CPU_MANAGEMENT, SUPPORT.POWER_GRID_MANAGEMENT,
   SUPPORT.CAPACITOR_MANAGEMENT, SUPPORT.CAPACITOR_SYSTEMS_OPERATION,
   SUPPORT.SHIELD_MANAGEMENT, SUPPORT.HULL_UPGRADES, SUPPORT.MECHANICS,
   SUPPORT.NAVIGATION, SUPPORT.EVASIVE_MANEUVERING, SUPPORT.TARGET_MANAGEMENT,
   SUPPORT.LONG_RANGE_TARGETING, SUPPORT.SIGNATURE_ANALYSIS]

/-- `SkillMap`: skill type id → trained level, absent = untrained. -/
def SkillMap := ℚ → Option ℚ

/-- `lvl(skills, skillId)`. -/
def lvl (skills : SkillMap) (skillId : ℚ) : ℚ := (skills skillId).getD 0

/-- `allLevelVSkillMap`. -/
def allLevelVSkillMap : SkillMap :=
  fun id => if id ∈ supportSkillIds then some 5 else none

/-- `SkillDeltas` (`src/types/eve.ts`): the thirteen recorded deltas. -/
structure SkillDeltas where
  cpu_total : ℚ
  pg_total : ℚ
  cap_capacity : ℚ
  cap_recharge : ℚ
  shield_hp : ℚ
  armor_hp : ℚ
  hull_hp : ℚ
  max_velocity : ℚ
  inertia_modifier : ℚ
  align_time : ℝ
  max_targets : ℚ
  max_target_range : ℚ
  scan_resolution : ℚ

/-- `applySkillBonuses`: the source mutates the passed `stats` in place
and returns the deltas; modelled as returning the updated stats together
with the deltas. -/
noncomputable def applySkillBonuses (stats : ShipStats) (skills : SkillMap) :
    ShipStats × SkillDeltas :=
  -- snapshot base values
  let baseCpuTotal := stats.engineering.cpu_total
  let basePgTotal := stats.engineering.pg_total
  let baseCapCapacity := stats.capacitor.capacity
  let baseCapRecharge := stats.capacitor.recharge_rate
  let baseShieldHp := stats.shield.hp
  let baseArmorHp := stats.armor.hp
  let baseHullHp := stats.hull.hp
  let baseVelocity := stats.navigation.max_velocity
  let baseInertia := stats.navigation.inertia_modifier
  let baseMaxTargets := stats.targeting.max_targets
  let baseTargetRange := stats.targeting.max_target_range
  let baseScanRes := stats.targeting.scan_resolution
  -- engineering
  let cpuMult := 1 + 0.05 * lvl skills SUPPORT.CPU_MANAGEMENT
  let pgMult := 1 + 0.05 * lvl skills SUPPORT.POWER_GRID_MANAGEMENT
  let engineering2 := { stats.engineering with
    cpu_total := baseCpuTotal * cpuMult
    cpu_remaining := baseCpuTotal * cpuMult - stats.engineering.cpu_used
    pg_total := basePgTotal * pgMult
    pg_remaining := basePgTotal * pgMult - stats.engineering.pg_used }
  -- capacitor
  let capMult := 1 + 0.05 * lvl skills SUPPORT.CAPACITOR_MANAGEMENT
  let capRechargeMult := 1 - 0.05 * lvl skills SUPPORT.CAPACITOR_SYSTEMS_OPERATION
  let capacity2 := baseCapCapacity * capMult
  let recharge2 := baseCapRecharge * capRechargeMult
  let sim := simulateCap capacity2 (recharge2 * 1000) stats.capacitor.drain_per_second
  let capacitor2 := { stats.capacitor with
    capacity := capacity2
    recharge_rate := recharge2
    peak_recharge := if recharge2 > 0 then 2.5 * capacity2 / recharge2 else 0
    stable := sim.stable
    stable_percent := sim.stablePercent
    lasts_seconds := sim.lastsSeconds }
  -- defense
  let shieldMult := 1 + 0.05 * lvl skills SUPPORT.SHIELD_MANAGEMENT
  let shield2 := { stats.shield with
    hp := baseShieldHp * shieldMult
    ehp := calculateEHP (baseShieldHp * shieldMult)
      (avgResonance stats.shield.resist.em stats.shield.resist.thermal
        stats.shield.resist.kinetic stats.shield.resist.explosive) }
  let armorMult := 1 + 0.05 * lvl skills SUPPORT.HULL_UPGRADES
  let armor2 := { stats.armor with
    hp := baseArmorHp * armorMult
    ehp := calculateEHP (baseArmorHp * armorMult)
      (avgResonance stats.armor.resist.em stats.armor.resist.thermal
        stats.armor.resist.kinetic stats.armor.resist.explosive) }
  let hullMult := 1 + 0.05 * lvl skills SUPPORT.MECHANICS
  let hull2 := { stats.hull with
    hp := baseHullHp * hullMult
    ehp := calculateEHP (baseHullHp * hullMult)
      (avgResonance stats.hull.resist.em stats.hull.resist.thermal
        stats.hull.resist.kinetic stats.hull.resist.explosive) }
  -- navigation
  let velMult := 1 + 0.05 * lvl skills SUPPORT.NAVIGATION
  let inertiaMult := 1 - 0.05 * lvl skills SUPPORT.EVASIVE_MANEUVERING
  let inertia2 := baseInertia * inertiaMult
  let navigation2 := { stats.navigation with
    max_velocity := baseVelocity * velMult
    inertia_modifier := inertia2
    agility := inertia2
    align_time := calculateAlignTime stats.navigation.mass inertia2 }
  -- targeting
  let targeting2 := { stats.targeting with
    max_targets := baseMaxTargets + lvl skills SUPPORT.TARGET_MANAGEMENT
    max_target_range := baseTargetRange * (1 + 0.05 * lvl skills SUPPORT.LONG_RANGE_TARGETING)
    scan_resolution := baseScanRes * (1 + 0.05 * lvl skills SUPPORT.SIGNATURE_ANALYSIS) }
  let stats2 := { stats with
    engineering := engineering2
    capacitor := capacitor2
    shield := shield2
    armor := armor2
    hull := hull2
    total_ehp := shield2.ehp + armor2.ehp + hull2.ehp
    navigation := navigation2
    targeting := targeting2 }
  (stats2,
    { cpu_total := stats2.engineering.cpu_total - baseCpuTotal
      pg_total := stats2.engineering.pg_total - basePgTotal
      cap_capacity := stats2.capacitor.capacity - baseCapCapacity
      cap_recharge := stats2.capacitor.recharge_rate - baseCapRecharge
      shield_hp := stats2.shield.hp - baseShieldHp
      armor_hp := stats2.armor.hp - baseArmorHp
      hull_hp := stats2.hull.hp - baseHullHp
      max_velocity := stats2.navigation.max_velocity - baseVelocity
      inertia_modifier := stats2.navigation.inertia_modifier - baseInertia
      align_time := stats2.navigation.align_time -
        calculateAlignTime stats2.navigation.mass baseInertia
      max_targets := stats2.targeting.max_targets - baseMaxTargets
      max_target_range := stats2.targeting.max_target_range - baseTargetRange
      scan_resolution := stats2.targeting.scan_resolution - baseScanRes })

/-! ## C2: turret/missile classification in `calcOffense` -/

/-- Turret DPS contribution of one active module. -/
def tDps (m : FittedModule) : ℚ :=
  if modAttr m ATTR.TRACKING_SPEED 0 > 0 ∧ modAttr m ATTR.MODULE_CYCLE_TIME 0 > 0 then
    (modAttr m ATTR.EM_DAMAGE 0 + modAttr m ATTR.THERMAL_DAMAGE 0 +
      modAttr m ATTR.KINETIC_DAMAGE 0 + modAttr m ATTR.EXPLOSIVE_DAMAGE 0) *
      modAttr m ATTR.DAMAGE_MULTIPLIER 1 / (modAttr m ATTR.MODULE_CYCLE_TIME 0 / 1000)
  else 0

/-- Turret alpha contribution of one active module. -/
def tAlpha (m : FittedModule) : ℚ :=
  if modAttr m ATTR.TRACKING_SPEED 0 > 0 ∧ modAttr m ATTR.MODULE_CYCLE_TIME 0 > 0 then
    (modAttr m ATTR.EM_DAMAGE 0 + modAttr m ATTR.THERMAL_DAMAGE 0 +
      modAttr m ATTR.KINETIC_DAMAGE 0 + modAttr m ATTR.EXPLOSIVE_DAMAGE 0) *
      modAttr m ATTR.DAMAGE_MULTIPLIER 1
  else 0

/-- Missile DPS contribution of one active module. -/
def mDps (m : FittedModule) : ℚ :=
  if modAttr m ATTR.EXPLOSION_RADIUS 0 > 0 ∧ modAttr m ATTR.MODULE_CYCLE_TIME 0 > 0 then
    (modAttr m ATTR.EM_DAMAGE 0 + modAttr m ATTR.THERMAL_DAMAGE 0 +
      modAttr m ATTR.KINETIC_DAMAGE 0 + modAttr m ATTR.EXPLOSIVE_DAMAGE 0) *
      modAttr m ATTR.MISSILE_DAMAGE_MULT 1 / (modAttr m ATTR.MODULE_CYCLE_TIME 0 / 1000)
  else 0

/-- Missile alpha contribution of one active module. -/
def mAlpha (m : FittedModule) : ℚ :=
  if modAttr m ATTR.EXPLOSION_RADIUS 0 > 0 ∧ modAttr m ATTR.MODULE_CYCLE_TIME 0 > 0 then
    (modAttr m ATTR.EM_DAMAGE 0 + modAttr m ATTR.THERMAL_DAMAGE 0 +
      modAttr m ATTR.KINETIC_DAMAGE 0 + modAttr m ATTR.EXPLOSIVE_DAMAGE 0) *
      modAttr m ATTR.MISSILE_DAMAGE_MULT 1
  else 0

theorem offenseStep_fields (acc : OffAcc) (m : FittedModule) :
    (offenseStep acc m).turretDps = acc.turretDps + tDps m ∧
    (offenseStep acc m).missileDps = acc.missileDps + mDps m ∧
    (offenseStep acc m).turretAlpha = acc.turretAlpha + tAlpha m ∧
    (offenseStep acc m).missileAlpha = acc.missileAlpha + mAlpha m := by
  simp only [offenseStep, tDps, mDps, tAlpha, mAlpha]
  by_cases ht : modAttr m ATTR.TRACKING_SPEED 0 > 0 <;>
    by_cases he : modAttr m ATTR.EXPLOSION_RADIUS 0 > 0 <;>
    by_cases hc : modAttr m ATTR.MODULE_CYCLE_TIME 0 > 0 <;>
    simp [ht, he, hc]

theorem foldl_offense_fields (l : List FittedModule) (acc : OffAcc) :
    (l.foldl offenseStep acc).turretDps = acc.turretDps + (l.map tDps).sum ∧
    (l.foldl offenseStep acc).missileDps = acc.missileDps + (l.map mDps).sum ∧
    (l.foldl offenseStep acc).turretAlpha = acc.turretAlpha + (l.map tAlpha).sum ∧
    (l.foldl offenseStep acc).missileAlpha = acc.missileAlpha + (l.map mAlpha).sum := by
  induction l generalizing acc with
  | nil => simp
  | cons m rest ih =>
    obtain ⟨s1, s2, s3, s4⟩ := offenseStep_fields acc m
    obtain ⟨i1, i2, i3, i4⟩ := ih (offenseStep acc m)
    simp only [List.foldl_cons, List.map_cons, List.sum_cons]
    exact ⟨by rw [i1, s1]; ring, by rw [i2, s2]; ring,
      by rw [i3, s3]; ring, by rw [i4, s4]; ring⟩

/-- C2 (amended): turret and missile contributions are decided by two
*independent* attribute tests, not mutually exclusive ones.  The offense
totals decompose into per-module turret and missile contributions; a
module contributes nothing on the turret side when its tracking-speed
attribute is not positive, and nothing on the missile side when its
explosion-radius attribute is not positive — so exclusivity holds exactly
for modules that do not carry both attributes positive, while a module
with both contributes to both sides. -/
theorem calcOffense_classification (f : Fitting) :
    (calcOffense f).turret_dps = ((activeModules f).map tDps).sum ∧
    (calcOffense f).missile_dps = ((activeModules f).map mDps).sum ∧
    (calcOffense f).alpha =
      ((activeModules f).map tAlpha).sum + ((activeModules f).map mAlpha).sum ∧
    ∀ m ∈ activeModules f,
      ¬(modAttr m ATTR.TRACKING_SPEED 0 > 0 ∧ modAttr m ATTR.EXPLOSION_RADIUS 0 > 0) →
        (tDps m = 0 ∧ tAlpha m = 0) ∨ (mDps m = 0 ∧ mAlpha m = 0) := by
  obtain ⟨f1, f2, f3, f4⟩ := foldl_offense_fields (activeModules f) ({} : OffAcc)
  have h1 : ({} : OffAcc).turretDps = 0 := rfl
  have h2 : ({} : OffAcc).missileDps = 0 := rfl
  have h3 : ({} : OffAcc).turretAlpha = 0 := rfl
  have h4 : ({} : OffAcc).missileAlpha = 0 := rfl
  refine ⟨?_, ?_, ?_, ?_⟩
  · simp only [calcOffense]; rw [f1, h1, zero_add]
  · simp only [calcOffense]; rw [f2, h2, zero_add]
  · simp only [calcOffense]; rw [f3, f4, h3, h4, zero_add, zero_add]
  · intro m _ hnot
    by_cases ht : modAttr m ATTR.TRACKING_SPEED 0 > 0
    · have he : ¬ modAttr m ATTR.EXPLOSION_RADIUS 0 > 0 := fun hh => hnot ⟨ht, hh⟩
      right
      constructor <;> simp [mDps, mAlpha, he]
    · left
      constructor <;> simp [tDps, tAlpha, ht]

/-- A module carrying both a positive tracking speed and a positive
explosion radius (the source tests the two independently). -/
def c2BothMod : FittedModule :=
  { id := "1", type_id := 1, name := "Hybrid", slot_type := SlotType.high,
    slot_index := 0, state := ModuleState.active,
    attributes := [(ATTR.TRACKING_SPEED, 1), (ATTR.EXPLOSION_RADIUS, 50),
      (ATTR.MODULE_CYCLE_TIME, 1000), (ATTR.EM_DAMAGE, 10)] }

/-- One-module fitting around `c2BothMod`. -/
def c2BothFit : Fitting :=
  { id := "f", name := "F", ship_type_id := 1, ship_name := "S",
    high_slots := [some c2BothMod], mid_slots := [], low_slots := [],
    rig_slots := [], subsystem_slots := [], drones := [], cargo := [],
    created_at := "", updated_at := "" }

/-- C2 counterexample: a single active module with both a positive
tracking speed and a positive explosion radius is counted as a turret
*and* as a missile launcher — 10 turret DPS and 10 missile DPS from the
same module — so the classification is not mutually exclusive. -/
theorem calcOffense_both_contributions :
    activeModules c2BothFit = [c2BothMod] ∧
    modAttr c2BothMod ATTR.TRACKING_SPEED 0 > 0 ∧
    modAttr c2BothMod ATTR.EXPLOSION_RADIUS 0 > 0 ∧
    (calcOffense c2BothFit).turret_dps = 10 ∧
    (calcOffense c2BothFit).missile_dps = 10 ∧
    (calcOffense c2BothFit).alpha = 20 := by
  refine ⟨by decide, by decide, by decide, ?_, ?_, ?_⟩ <;>
    norm_num [calcOffense, activeModules, allFittedModules, c2BothFit, c2BothMod,
      offenseStep, modAttr, recAttr, List.find?, List.filterMap_cons, List.filter_cons,
      List.foldl_cons, List.foldl_nil, ATTR.TRACKING_SPEED,
      ATTR.EXPLOSION_RADIUS, ATTR.MODULE_CYCLE_TIME, ATTR.EM_DAMAGE,
      ATTR.THERMAL_DAMAGE, ATTR.KINETIC_DAMAGE, ATTR.EXPLOSIVE_DAMAGE,
      ATTR.DAMAGE_MULTIPLIER, ATTR.MISSILE_DAMAGE_MULT, ATTR.OPTIMAL_RANGE,
      ATTR.FALLOFF, ATTR.MISSILE_FLIGHT_TIME, ATTR.MISSILE_VELOCITY]

/-- A module with a positive explosion radius and no tracking-speed
attribute. -/
def c2MissileMod : FittedModule :=
  { id := "2", type_id := 2, name := "Launcher", slot_type := SlotType.high,
    slot_index := 0, state := ModuleState.active,
    attributes := [(ATTR.EXPLOSION_RADIUS, 50),
      (ATTR.MODULE_CYCLE_TIME, 1000), (ATTR.EM_DAMAGE, 10)] }

/-- One-module fitting around `c2MissileMod`. -/
def c2MissileFit : Fitting :=
  { id := "g", name := "G", ship_type_id := 1, ship_name := "S",
    high_slots := [some c2MissileMod], mid_slots := [], low_slots := [],
    rig_slots := [], subsystem_slots := [], drones := [], cargo := [],
    created_at := "", updated_at := "" }

theorem calcOffense_classification_witness :
    (calcOffense c2MissileFit).turret_dps =
        ((activeModules c2MissileFit).map tDps).sum ∧
    ((tDps c2MissileMod = 0 ∧ tAlpha c2MissileMod = 0) ∨
      (mDps c2MissileMod = 0 ∧ mAlpha c2MissileMod = 0)) :=
  ⟨(calcOffense_classification c2MissileFit).1,
    (calcOffense_classification c2MissileFit).2.2.2 c2MissileMod
      (by decide) (by decide)⟩

/-! ## C3, C5: monotonicity and deltas of the skill-bonus engine -/

/-- A concrete `ShipStats` record (all resonances 1, mass 10^6,
capacitor and offense zeroed) used as input for the skill-bonus claims. -/
noncomputable def mkStats (cpu shieldHp armorHp hullHp : ℚ) : ShipStats :=
  { engineering :=
      { cpu_total := cpu
        cpu_used := 0
        cpu_remaining := cpu
        pg_total := 0
        pg_used := 0
        pg_remaining := 0
        calibration_total := 400
        calibration_used := 0
        drone_bandwidth_total := 0
        drone_bandwidth_used := 0
        drone_capacity := 0
        drone_capacity_used := 0 }
    capacitor :=
      { capacity := 0
        recharge_rate := 0
        peak_recharge := 0
        drain_per_second := 0
        stable := true }
    offense :=
      { turret_dps := 0
        missile_dps := 0
        drone_dps := 0
        total_dps := 0
        alpha := 0
        volley := 0
        turret_optimal := 0
        turret_falloff := 0
        missile_range := 0
        drone_control_range := 0 }
    navigation :=
      { max_velocity := 0
        agility := 1
        warp_speed := 1
        align_time := 0
        signature_radius := 100
        mass := 1000000
        inertia_modifier := 1 }
    targeting :=
      { max_targets := 7
        max_target_range := 50000
        scan_resolution := 300
        sensor_strength := 0
        sensor_type := SensorType.Radar }
    shield := { hp := shieldHp, resist := ⟨1, 1, 1, 1⟩, ehp := shieldHp, avg_resist := 1 }
    armor := { hp := armorHp, resist := ⟨1, 1, 1, 1⟩, ehp := armorHp, avg_resist := 1 }
    hull := { hp := hullHp, resist := ⟨1, 1, 1, 1⟩, ehp := hullHp, avg_resist := 1 }
    total_ehp := shieldHp + armorHp + hullHp
    high_slots := 0
    mid_slots := 0
    low_slots := 0
    rig_slots := 0
    turret_hardpoints := 0
    launcher_hardpoints := 0 }

/-- Point update of a skill map. -/
def setSkill (m : SkillMap) (s L : ℚ) : SkillMap :=
  fun id => if id = s then some L else m id

theorem lvl_setSkill_mono (m : SkillMap) (s L1 L2 : ℚ) (hL : L1 ≤ L2) (id : ℚ) :
    lvl (setSkill m s L1) id ≤ lvl (setSkill m s L2) id := by
  unfold lvl setSkill
  by_cases h : id = s
  · simpa [h] using hL
  · simp [h]

/-- C3 (amended): raising one skill level never *decreases* the bonused
statistics when the affected base statistics are nonnegative (the
nonnegativity hypotheses are necessary: see the negative-CPU
counterexample).  `cpu_total`, `pg_total`, capacitor capacity, the three
hit-point pools, max velocity, max targets, targeting range and scan
resolution do not decrease; capacitor recharge time and the inertia
modifier do not increase. -/
theorem applySkillBonuses_monotone (stats : ShipStats) (m : SkillMap) (s L1 L2 : ℚ)
    (hL : L1 ≤ L2)
    (hcpu : 0 ≤ stats.engineering.cpu_total)
    (hpg : 0 ≤ stats.engineering.pg_total)
    (hcap : 0 ≤ stats.capacitor.capacity)
    (hrec : 0 ≤ stats.capacitor.recharge_rate)
    (hsh : 0 ≤ stats.shield.hp)
    (har : 0 ≤ stats.armor.hp)
    (hhu : 0 ≤ stats.hull.hp)
    (hvel : 0 ≤ stats.navigation.max_velocity)
    (hin : 0 ≤ stats.navigation.inertia_modifier)
    (htr : 0 ≤ stats.targeting.max_target_range)
    (hsr : 0 ≤ stats.targeting.scan_resolution) :
    (applySkillBonuses stats (setSkill m s L1)).1.engineering.cpu_total ≤
      (applySkillBonuses stats (setSkill m s L2)).1.engineering.cpu_total ∧
    (applySkillBonuses stats (setSkill m s L1)).1.engineering.pg_total ≤
      (applySkillBonuses stats (setSkill m s L2)).1.engineering.pg_total ∧
    (applySkillBonuses stats (setSkill m s L1)).1.capacitor.capacity ≤
      (applySkillBonuses stats (setSkill m s L2)).1.capacitor.capacity ∧
    (applySkillBonuses stats (setSkill m s L1)).1.shield.hp ≤
      (applySkillBonuses stats (setSkill m s L2)).1.shield.hp ∧
    (applySkillBonuses stats (setSkill m s L1)).1.armor.hp ≤
      (applySkillBonuses stats (setSkill m s L2)).1.armor.hp ∧
    (applySkillBonuses stats (setSkill m s L1)).1.hull.hp ≤
      (applySkillBonuses stats (setSkill m s L2)).1.hull.hp ∧
    (applySkillBonuses stats (setSkill m s L1)).1.navigation.max_velocity ≤
      (applySkillBonuses stats (setSkill m s L2)).1.navigation.max_velocity ∧
    (applySkillBonuses stats (setSkill m s L1)).1.targeting.max_targets ≤
      (applySkillBonuses stats (setSkill m s L2)).1.targeting.max_targets ∧
    (applySkillBonuses stats (setSkill m s L1)).1.targeting.max_target_range ≤
      (applySkillBonuses stats (setSkill m s L2)).1.targeting.max_target_range ∧
    (applySkillBonuses stats (setSkill m s L1)).1.targeting.scan_resolution ≤
      (applySkillBonuses stats (setSkill m s L2)).1.targeting.scan_resolution ∧
    (applySkillBonuses stats (setSkill m s L2)).1.capacitor.recharge_rate ≤
      (applySkillBonuses stats (setSkill m s L1)).1.capacitor.recharge_rate ∧
    (applySkillBonuses stats (setSkill m s L2)).1.navigation.inertia_modifier ≤
      (applySkillBonuses stats (setSkill m s L1)).1.navigation.inertia_modifier := by
  have hlv := lvl_setSkill_mono m s L1 L2 hL
  simp only [applySkillBonuses]
  refine ⟨?_, ?_, ?_, ?_, ?_, ?_, ?_, ?_, ?_, ?_, ?_, ?_⟩
  · exact mul_le_mul_of_nonneg_left
      (by linarith [hlv SUPPORT.CPU_MANAGEMENT]) hcpu
  · exact mul_le_mul_of_nonneg_left
      (by linarith [hlv SUPPORT.POWER_GRID_MANAGEMENT]) hpg
  · exact mul_le_mul_of_nonneg_left
      (by linarith [hlv SUPPORT.CAPACITOR_MANAGEMENT]) hcap
  · exact mul_le_mul_of_nonneg_left
      (by linarith [hlv SUPPORT.SHIELD_MANAGEMENT]) hsh
  · exact mul_le_mul_of_nonneg_left
      (by linarith [hlv SUPPORT.HULL_UPGRADES]) har
  · exact mul_le_mul_of_nonneg_left
      (by linarith [hlv SUPPORT.MECHANICS]) hhu
  · exact mul_le_mul_of_nonneg_left
      (by linarith [hlv SUPPORT.NAVIGATION]) hvel
  · linarith [hlv SUPPORT.TARGET_MANAGEMENT]
  · exact mul_le_mul_of_nonneg_left
      (by linarith [hlv SUPPORT.LONG_RANGE_TARGETING]) htr
  · exact mul_le_mul_of_nonneg_left
      (by linarith [hlv SUPPORT.SIGNATURE_ANALYSIS]) hsr
  · exact mul_le_mul_of_nonneg_left
      (by linarith [hlv SUPPORT.CAPACITOR_SYSTEMS_OPERATION]) hrec
  · exact mul_le_mul_of_nonneg_left
      (by linarith [hlv SUPPORT.EVASIVE_MANEUVERING]) hin

theorem applySkillBonuses_monotone_witness :
    (applySkillBonuses (mkStats 100 100 200 400)
        (setSkill (fun _ => none) SUPPORT.CPU_MANAGEMENT 2)).1.engineering.cpu_total ≤
      (applySkillBonuses (mkStats 100 100 200 400)
        (setSkill (fun _ => none) SUPPORT.CPU_MANAGEMENT 4)).1.engineering.cpu_total ∧
    (applySkillBonuses (mkStats 100 100 200 400)
        (setSkill (fun _ => none) SUPPORT.CPU_MANAGEMENT 4)).1.navigation.inertia_modifier ≤
      (applySkillBonuses (mkStats 100 100 200 400)
        (setSkill (fun _ => none) SUPPORT.CPU_MANAGEMENT 2)).1.navigation.inertia_modifier := by
  have h := applySkillBonuses_monotone (mkStats 100 100 200 400) (fun _ => none)
    SUPPORT.CPU_MANAGEMENT 2 4 (by norm_num)
    (by norm_num [mkStats]) (by norm_num [mkStats]) (by norm_num [mkStats])
    (by norm_num [mkStats]) (by norm_num [mkStats]) (by norm_num [mkStats])
    (by norm_num [mkStats]) (by norm_num [mkStats]) (by norm_num [mkStats])
    (by norm_num [mkStats]) (by norm_num [mkStats])
  exact ⟨h.1, h.2.2.2.2.2.2.2.2.2.2.2⟩

/-- C3 counterexample: the claimed monotonicity fails without sign
restrictions — on a ship whose CPU total is negative, raising CPU
Management from untrained to level 5 makes `cpu_total` strictly
*smaller* (−125 < −100), because the bonus is a multiplicative factor. -/
theorem applySkillBonuses_not_monotone :
    (applySkillBonuses (mkStats (-100) 100 200 400)
        (fun id => if id = SUPPORT.CPU_MANAGEMENT then some 5 else none)).1.engineering.cpu_total <
      (applySkillBonuses (mkStats (-100) 100 200 400)
        (fun _ => none)).1.engineering.cpu_total := by
  norm_num [applySkillBonuses, lvl, mkStats]

/-- C5 (amended): the deltas record returned by `applySkillBonuses` has
exactly thirteen fields — each the difference between the corresponding
field of the updated stats and its snapshotted base value, with the
align-time delta measured against the align time recomputed from the
base inertia — and *none* of them is an effective-hit-point delta. -/
theorem applySkillBonuses_deltas (stats : ShipStats) (skills : SkillMap) :
    (applySkillBonuses stats skills).2 =
      { cpu_total := (applySkillBonuses stats skills).1.engineering.cpu_total -
          stats.engineering.cpu_total
        pg_total := (applySkillBonuses stats skills).1.engineering.pg_total -
          stats.engineering.pg_total
        cap_capacity := (applySkillBonuses stats skills).1.capacitor.capacity -
          stats.capacitor.capacity
        cap_recharge := (applySkillBonuses stats skills).1.capacitor.recharge_rate -
          stats.capacitor.recharge_rate
        shield_hp := (applySkillBonuses stats skills).1.shield.hp - stats.shield.hp
        armor_hp := (applySkillBonuses stats skills).1.armor.hp - stats.armor.hp
        hull_hp := (applySkillBonuses stats skills).1.hull.hp - stats.hull.hp
        max_velocity := (applySkillBonuses stats skills).1.navigation.max_velocity -
          stats.navigation.max_velocity
        inertia_modifier := (applySkillBonuses stats skills).1.navigation.inertia_modifier -
          stats.navigation.inertia_modifier
        align_time := (applySkillBonuses stats skills).1.navigation.align_time -
          calculateAlignTime stats.navigation.mass stats.navigation.inertia_modifier
        max_targets := (applySkillBonuses stats skills).1.targeting.max_targets -
          stats.targeting.max_targets
        max_target_range := (applySkillBonuses stats skills).1.targeting.max_target_range -
          stats.targeting.max_target_range
        scan_resolution := (applySkillBonuses stats skills).1.targeting.scan_resolution -
          stats.targeting.scan_resolution } := rfl

/-- The skill map of the C5 counterexample: the three defensive hit-point
skills at level 5. -/
def c5Skills : SkillMap := fun id =>
  if id = SUPPORT.SHIELD_MANAGEMENT ∨ id = SUPPORT.HULL_UPGRADES ∨
      id = SUPPORT.MECHANICS then some 5 else none

/-- C5 counterexample: on a 100/200/400 hit-point ship with flat
resonance 1, the three defensive skills at level 5 raise the total EHP by
175, yet no field of the returned deltas record equals 175 — the deltas
carry no EHP entry (the spec's claimed `ehp` delta does not exist; the
thirteen fields are the ones listed in `SkillDeltas`). -/
theorem skillDeltas_no_ehp_entry :
    (applySkillBonuses (mkStats 0 100 200 400) c5Skills).1.total_ehp -
        (mkStats 0 100 200 400).total_ehp = 175 ∧
    (applySkillBonuses (mkStats 0 100 200 400) c5Skills).2.cpu_total ≠ 175 ∧
    (applySkillBonuses (mkStats 0 100 200 400) c5Skills).2.pg_total ≠ 175 ∧
    (applySkillBonuses (mkStats 0 100 200 400) c5Skills).2.cap_capacity ≠ 175 ∧
    (applySkillBonuses (mkStats 0 100 200 400) c5Skills).2.cap_recharge ≠ 175 ∧
    (applySkillBonuses (mkStats 0 100 200 400) c5Skills).2.shield_hp ≠ 175 ∧
    (applySkillBonuses (mkStats 0 100 200 400) c5Skills).2.armor_hp ≠ 175 ∧
    (applySkillBonuses (mkStats 0 100 200 400) c5Skills).2.hull_hp ≠ 175 ∧
    (applySkillBonuses (mkStats 0 100 200 400) c5Skills).2.max_velocity ≠ 175 ∧
    (applySkillBonuses (mkStats 0 100 200 400) c5Skills).2.inertia_modifier ≠ 175 ∧
    (applySkillBonuses (mkStats 0 100 200 400) c5Skills).2.align_time ≠ (175 : ℝ) ∧
    (applySkillBonuses (mkStats 0 100 200 400) c5Skills).2.max_targets ≠ 175 ∧
    (applySkillBonuses (mkStats 0 100 200 400) c5Skills).2.max_target_range ≠ 175 ∧
    (applySkillBonuses (mkStats 0 100 200 400) c5Skills).2.scan_resolution ≠ 175 := by
  norm_num [applySkillBonuses, c5Skills, lvl, mkStats, calculateEHP, avgResonance,
    SUPPORT.CPU_MANAGEMENT, SUPPORT.POWER_GRID_MANAGEMENT, SUPPORT.CAPACITOR_MANAGEMENT,
    SUPPORT.CAPACITOR_SYSTEMS_OPERATION, SUPPORT.SHIELD_MANAGEMENT, SUPPORT.HULL_UPGRADES,
    SUPPORT.MECHANICS, SUPPORT.NAVIGATION, SUPPORT.EVASIVE_MANEUVERING,
    SUPPORT.TARGET_MANAGEMENT, SUPPORT.LONG_RANGE_TARGETING, SUPPORT.SIGNATURE_ANALYSIS]

/-! ## Fitting store (`src/store/fitting-store.ts`)

The zustand store is modelled as a state record plus a step function over
the mutation-surface actions.  `generateId()` is modelled by a counter
`nextId` (each call yields the counter's string and bumps it) and
`new Date().toISOString()` by a fixed string `now`; neither influences
any claim. -/

/-- `SkillMode` (`src/types/eve.ts`). -/
inductive SkillMode
  | none | allV | mySkills
deriving DecidableEq, Repr

/-- `Omit<FittedModule, "id" | "slot_type" | "slot_index">`: the module
payload handed to the store actions. -/
structure ModuleData where
  type_id : ℚ
  name : String
  state : ModuleState
  charge : Option Charge := Option.none
  group_id : Option ℚ := Option.none
  category_id : Option ℚ := Option.none
  attributes : List (ℚ × ℚ) := []
  effects : Option (List ℚ) := Option.none
deriving DecidableEq, Repr

/-- The slice of the store state the mutation surface touches. -/
structure StoreState where
  fitting : Option Fitting
  shipType : Option EveType
  stats : Option ShipStats
  skillMode : SkillMode
  skillMap : Option SkillMap
  skillDeltas : Option SkillDeltas
  dirty : Bool
  nextId : ℕ
  now : String

/-- `getSlotArrayKey`, read side: `null` for `drone`/`cargo`. -/
def getSlots (f : Fitting) : SlotType → Option (List (Option FittedModule))
  | SlotType.high => some f.high_slots
  | SlotType.mid => some f.mid_slots
  | SlotType.low => some f.low_slots
  | SlotType.rig => some f.rig_slots
  | SlotType.subsystem => some f.subsystem_slots
  | _ => Option.none

/-- `getSlotArrayKey`, write side (writing through the key returned). -/
def setSlots (f : Fitting) (slotType : SlotType)
    (slots : List (Option FittedModule)) : Fitting :=
  match slotType with
  | SlotType.high => { f with high_slots := slots }
  | SlotType.mid => { f with mid_slots := slots }
  | SlotType.low => { f with low_slots := slots }
  | SlotType.rig => { f with rig_slots := slots }
  | SlotType.subsystem => { f with subsystem_slots := slots }
  | _ => f

/-- `computeStatsWithSkills`. -/
noncomputable def computeStatsWithSkills (shipType : EveType) (fitting : Fitting)
    (skillMode : SkillMode) (skillMap : Option SkillMap) :
    ShipStats × Option SkillDeltas :=
  let stats := calculateShipStats shipType fitting
  if skillMode = SkillMode.none then (stats, Option.none)
  else
    match (if skillMode = SkillMode.allV then some allLevelVSkillMap else skillMap) with
    | Option.none => (stats, Option.none)
    | some skills =>
      let r := applySkillBonuses stats skills
      (r.1, some r.2)

/-- `{ ...moduleData, id: generateId(), slot_type, slot_index }`. -/
def mkModule (m : ModuleData) (slotType : SlotType) (nid : ℕ) (i : ℤ) :
    FittedModule :=
  { id := toString nid
    type_id := m.type_id
    name := m.name
    slot_type := slotType
    slot_index := i
    state := m.state
    charge := m.charge
    group_id := m.group_id
    category_id := m.category_id
    attributes := m.attributes
    effects := m.effects }

/-- `slots[index]` for a signed, possibly out-of-range index. -/
def idxGet {α : Type} (l : List α) (index : ℤ) : Option α :=
  if h : 0 ≤ index ∧ index < (l.length : ℤ) then
    some (l.get ⟨index.toNat, by omega⟩)
  else Option.none

/-- The hardpoint-count loop of `fillSlots`. -/
def hardpointsUsed (isTurret isLauncher : Bool) (slots : List (Option FittedModule)) : ℚ :=
  slots.foldl (fun n s =>
    match s with
    | Option.none => n
    | some m =>
      let n := if isTurret ∧ (42 : ℚ) ∈ m.effects.getD [] then n + 1 else n
      if isLauncher ∧ (40 : ℚ) ∈ m.effects.getD [] then n + 1 else n) 0

/-- The fill loop of `fillSlots`: walk the slot array from position `i`,
skip occupied slots, and at each empty slot either `break` (hardpoint
module with `used + filled ≥ limit`, leaving the rest untouched) or fill
it.  Returns the new array, the fill count and the next fresh id. -/
def fillGo (isHard : Bool) (limit used : ℚ) (m : ModuleData) (slotType : SlotType) :
    ℕ → ℕ → ℚ → List (Option FittedModule) →
      List (Option FittedModule) × ℚ × ℕ
  | _, nid, filled, [] => ([], filled, nid)
  | i, nid, filled, some x :: rest =>
    let r := fillGo isHard limit used m slotType (i + 1) nid filled rest
    (some x :: r.1, r.2)
  | i, nid, filled, Option.none :: rest =>
    if isHard ∧ used + filled ≥ limit then (Option.none :: rest, filled, nid)
    else
      let r := fillGo isHard limit used m slotType (i + 1) (nid + 1) (filled + 1) rest
      (some (mkModule m slotType nid i) :: r.1, r.2)

/-- `cycle = ["active", "passive", "offline"]; cycle[(idx + 1) % 3]`. -/
def cycleState : ModuleState → ModuleState
  | ModuleState.active => ModuleState.passive
  | ModuleState.passive => ModuleState.offline
  | ModuleState.offline => ModuleState.active

/-- `Array.prototype.splice(index, 1)`: a negative index counts from the
end (clamped at 0), an index past the end removes nothing. -/
def spliceOne {α : Type} (l : List α) (index : ℤ) : List α :=
  let start : ℕ :=
    if index < 0 then ((l.length : ℤ) + index).toNat else min index.toNat l.length
  l.take start ++ l.drop (start + 1)

/-- `drones.forEach((d, i) => d.slot_index = i)`. -/
def reindexFrom (i : ℤ) : List FittedModule → List FittedModule
  | [] => []
  | d :: rest => { d with slot_index := i } :: reindexFrom (i + 1) rest

/-- The store's mutation-surface actions. -/
inductive StoreOp
  | addModule (slotType : SlotType) (index : ℤ) (m : ModuleData)
  | fillSlots (slotType : SlotType) (m : ModuleData)
  | removeModule (slotType : SlotType) (index : ℤ)
  | toggleModuleState (slotType : SlotType) (index : ℤ)
  | setModuleCharge (slotType : SlotType) (index : ℤ) (charge : Option Charge)
  | addDrone (m : ModuleData)
  | removeDrone (index : ℤ)
  | importFitting (fitting : Fitting) (shipType : EveType)

/-- One store action.  A guarded `return` in the source leaves the state
untouched; `set({...})` merges the listed fields into the state. -/
noncomputable def applyOp (st : StoreState) : StoreOp → StoreState
  | StoreOp.addModule slotType index m =>
    match st.fitting, st.shipType with
    | some fitting, some shipType =>
      (match getSlots fitting slotType with
       | Option.none => st
       | some slots =>
         if index < 0 ∨ (slots.length : ℤ) ≤ index then st
         else
           let slots2 := slots.set index.toNat (some (mkModule m slotType st.nextId index))
           let updated := { setSlots fitting slotType slots2 with updated_at := st.now }
           let r := computeStatsWithSkills shipType updated st.skillMode st.skillMap
           { st with
             fitting := some updated
             stats := some r.1
             skillDeltas := r.2
             dirty := true
             nextId := st.nextId + 1 })
    | _, _ => st
  | StoreOp.fillSlots slotType m =>
    match st.fitting, st.shipType, st.stats with
    | some fitting, some shipType, some stats =>
      (match getSlots fitting slotType with
       | Option.none => st
       | some slots =>
         let effects := m.effects.getD []
         let isTurret := decide ((42 : ℚ) ∈ effects)
         let isLauncher := decide ((40 : ℚ) ∈ effects)
         let hardpointLimit : ℚ :=
           if isTurret then stats.turret_hardpoints
           else if isLauncher then stats.launcher_hardpoints
           else (slots.length : ℚ)
         let used := hardpointsUsed isTurret isLauncher slots
         let r := fillGo (isTurret || isLauncher) hardpointLimit used m slotType
           0 st.nextId 0 slots
         if r.2.1 = 0 then st
         else
           let updated := { setSlots fitting slotType r.1 with updated_at := st.now }
           let s := computeStatsWithSkills shipType updated st.skillMode st.skillMap
           { st with
             fitting := some updated
             stats := some s.1
             skillDeltas := s.2
             dirty := true
             nextId := r.2.2 })
    | _, _, _ => st
  | StoreOp.removeModule slotType index =>
    match st.fitting, st.shipType with
    | some fitting, some shipType =>
      (match getSlots fitting slotType with
       | Option.none => st
       | some slots =>
         if index < 0 ∨ (slots.length : ℤ) ≤ index then st
         else
           let slots2 := slots.set index.toNat Option.none
           let updated := { setSlots fitting slotType slots2 with updated_at := st.now }
           let r := computeStatsWithSkills shipType updated st.skillMode st.skillMap
           { st with
             fitting := some updated
             stats := some r.1
             skillDeltas := r.2
             dirty := true })
    | _, _ => st
  | StoreOp.toggleModuleState slotType index =>
    match st.fitting, st.shipType with
    | some fitting, some shipType =>
      (match getSlots fitting slotType with
       | Option.none => st
       | some slots =>
         match idxGet slots index with
         | some (some m0) =>
           let slots2 := slots.set index.toNat
             (some { m0 with state := cycleState m0.state })
           let updated := { setSlots fitting slotType slots2 with updated_at := st.now }
           let r := computeStatsWithSkills shipType updated st.skillMode st.skillMap
           { st with
             fitting := some updated
             stats := some r.1
             skillDeltas := r.2
             dirty := true }
         | _ => st)
    | _, _ => st
  | StoreOp.setModuleCharge slotType index charge =>
    match st.fitting, st.shipType with
    | some fitting, some shipType =>
      (match getSlots fitting slotType with
       | Option.none => st
       | some slots =>
         match idxGet slots index with
         | some (some m0) =>
           let slots2 := slots.set index.toNat (some { m0 with charge := charge })
           let updated := { setSlots fitting slotType slots2 with updated_at := st.now }
           let r := computeStatsWithSkills shipType updated st.skillMode st.skillMap
           { st with
             fitting := some updated
             stats := some r.1
             skillDeltas := r.2
             dirty := true }
         | _ => st)
    | _, _ => st
  | StoreOp.addDrone m =>
    match st.fitting, st.shipType with
    | some fitting, some shipType =>
      let updated := { fitting with
        drones := fitting.drones ++
          [mkModule m SlotType.drone st.nextId (fitting.drones.length : ℤ)]
        updated_at := st.now }
      let r := computeStatsWithSkills shipType updated st.skillMode st.skillMap
      { st with
        fitting := some updated
        stats := some r.1
        skillDeltas := r.2
        dirty := true
        nextId := st.nextId + 1 }
    | _, _ => st
  | StoreOp.removeDrone index =>
    match st.fitting, st.shipType with
    | some fitting, some shipType =>
      let updated := { fitting with
        drones := reindexFrom 0 (spliceOne fitting.drones index)
        updated_at := st.now }
      let r := computeStatsWithSkills shipType updated st.skillMode st.skillMap
      { st with
        fitting := some updated
        stats := some r.1
        skillDeltas := r.2
        dirty := true }
    | _, _ => st
  | StoreOp.importFitting fitting shipType =>
    let r := computeStatsWithSkills shipType fitting st.skillMode st.skillMap
    { st with
      fitting := some fitting
      shipType := some shipType
      stats := some r.1
      skillDeltas := r.2
      dirty := false }

/-! ## C10: out-of-bounds mutation is a silent no-op -/

/-- C10: calling `addModule` or `removeModule` with a slot type that has
no slot array (`drone`/`cargo`), with a negative index, or with an index
at or beyond the length of the category's slot array leaves the whole
store state — fitting, stats, skill deltas, dirty flag and all — exactly
as it was: the guards return before any mutation or stats recomputation,
and nothing is thrown (the step function is total). -/
theorem store_out_of_bounds_noop (st : StoreState) (slotType : SlotType)
    (index : ℤ) (m : ModuleData)
    (h : slotType = SlotType.drone ∨ slotType = SlotType.cargo ∨ index < 0 ∨
      ∀ f slots, st.fitting = some f → getSlots f slotType = some slots →
        (slots.length : ℤ) ≤ index) :
    applyOp st (StoreOp.addModule slotType index m) = st ∧
    applyOp st (StoreOp.removeModule slotType index) = st := by
  constructor <;>
  · show (match st.fitting, st.shipType with
      | some _, some _ => _
      | _, _ => st) = st
    cases hf : st.fitting with
    | none => rfl
    | some fitting =>
      cases hs : st.shipType with
      | none => rfl
      | some shipType =>
        cases hg : getSlots fitting slotType with
        | none => simp only [hg]
        | some slots =>
          simp only [hg]
          have hbad : index < 0 ∨ (slots.length : ℤ) ≤ index := by
            rcases h with h | h | h | h
            · exact absurd hg (by simp [h, getSlots])
            · exact absurd hg (by simp [h, getSlots])
            · exact Or.inl h
            · exact Or.inr (h fitting slots hf hg)
          rw [if_pos hbad]

/-- Concrete no-op inputs for the C10 witness. -/
def c10Ship : EveType := { type_id := 1, name := "Ship" }

def c10Data : ModuleData :=
  { type_id := 5, name := "Mod", state := ModuleState.active }

def c10St : StoreState :=
  { fitting := some c2BothFit
    shipType := some c10Ship
    stats := Option.none
    skillMode := SkillMode.none
    skillMap := Option.none
    skillDeltas := Option.none
    dirty := false
    nextId := 3
    now := "T" }

theorem store_out_of_bounds_noop_witness :
    applyOp c10St (StoreOp.addModule SlotType.high 99 c10Data) = c10St ∧
    applyOp c10St (StoreOp.removeModule SlotType.high 99) = c10St :=
  store_out_of_bounds_noop c10St SlotType.high 99 c10Data
    (Or.inr (Or.inr (Or.inr (by
      intro f slots hf hg
      simp only [c10St, Option.some.injEq] at hf
      subst hf
      simp only [getSlots, c2BothFit, Option.some.injEq] at hg
      subst hg
      norm_num))))

/-! ## C9: rig/subsystem passivity -/

/-- Every module held in a rig or subsystem slot is passive. -/
def RigSubPassive (f : Fitting) : Prop :=
  ∀ x : FittedModule, (some x ∈ f.rig_slots ∨ some x ∈ f.subsystem_slots) →
    x.state = ModuleState.passive

/-- The UI-level calling discipline the spec describes: module payloads
placed into rig/subsystem slots are passive, the state toggle is never
invoked on those categories, and imported fittings already satisfy the
invariant. -/
def GoodOp : StoreOp → Prop
  | StoreOp.addModule slotType _ m =>
    slotType = SlotType.rig ∨ slotType = SlotType.subsystem →
      m.state = ModuleState.passive
  | StoreOp.fillSlots slotType m =>
    slotType = SlotType.rig ∨ slotType = SlotType.subsystem →
      m.state = ModuleState.passive
  | StoreOp.toggleModuleState slotType _ =>
    slotType ≠ SlotType.rig ∧ slotType ≠ SlotType.subsystem
  | StoreOp.importFitting f _ => RigSubPassive f
  | _ => True

theorem idxGet_mem {α : Type} {l : List α} {index : ℤ} {a : α}
    (h : idxGet l index = some a) : a ∈ l := by
  unfold idxGet at h
  split at h
  · injection h with h2
    exact h2 ▸ List.get_mem l _ _
  · cases h

theorem fillGo_mem (isHard : Bool) (limit used : ℚ) (m : ModuleData)
    (slotType : SlotType) :
    ∀ (sl : List (Option FittedModule)) (i nid : ℕ) (filled : ℚ)
      (x : FittedModule),
      some x ∈ (fillGo isHard limit used m slotType i nid filled sl).1 →
      some x ∈ sl ∨ x.state = m.state := by
  intro sl
  induction sl with
  | nil => intro i nid filled x hx; simp [fillGo] at hx
  | cons hd tl ih =>
    intro i nid filled x hx
    cases hd with
    | some y =>
      simp only [fillGo] at hx
      rcases List.mem_cons.mp hx with h | h
      · exact Or.inl (List.mem_cons.mpr (Or.inl h))
      · rcases ih (i + 1) nid filled x h with h2 | h2
        · exact Or.inl (List.mem_cons.mpr (Or.inr h2))
        · exact Or.inr h2
    | none =>
      simp only [fillGo] at hx
      split at hx
      · exact Or.inl hx
      · rcases List.mem_cons.mp hx with h | h
        · injection h with h2
          exact Or.inr (h2 ▸ rfl)
        · rcases ih (i + 1) (nid + 1) (filled + 1) x h with h2 | h2
          · exact Or.inl (List.mem_cons.mpr (Or.inr h2))
          · exact Or.inr h2

/-- Replacing the slot array of one category preserves the invariant
when every new occupant of a rig/subsystem array is old or passive. -/
theorem RigSubPassive_setSlots (fitting : Fitting) (t : SlotType)
    (slots sl2 : List (Option FittedModule))
    (hg : getSlots fitting t = some slots) (hf : RigSubPassive fitting)
    (hnew : (t = SlotType.rig ∨ t = SlotType.subsystem) →
      ∀ x : FittedModule, some x ∈ sl2 →
        some x ∈ slots ∨ x.state = ModuleState.passive) :
    RigSubPassive (setSlots fitting t sl2) := by
  intro x hx
  cases t with
  | high => exact hf x (by simpa [setSlots] using hx)
  | mid => exact hf x (by simpa [setSlots] using hx)
  | low => exact hf x (by simpa [setSlots] using hx)
  | drone => simp [getSlots] at hg
  | cargo => simp [getSlots] at hg
  | rig =>
    simp only [getSlots, Option.some.injEq] at hg
    rcases hx with hx | hx
    · simp only [setSlots] at hx
      rcases hnew (Or.inl rfl) x hx with h | h
      · exact hf x (Or.inl (hg ▸ h))
      · exact h
    · exact hf x (Or.inr (by simpa [setSlots] using hx))
  | subsystem =>
    simp only [getSlots, Option.some.injEq] at hg
    rcases hx with hx | hx
    · exact hf x (Or.inl (by simpa [setSlots] using hx))
    · simp only [setSlots] at hx
      rcases hnew (Or.inr rfl) x hx with h | h
      · exact hf x (Or.inr (hg ▸ h))
      · exact h

theorem applyOp_rig_passive (st : StoreState) (op : StoreOp)
    (hst : ∀ f, st.fitting = some f → RigSubPassive f) (hop : GoodOp op) :
    ∀ f, (applyOp st op).fitting = some f → RigSubPassive f := by
  cases op with
  | addModule slotType index m =>
    cases hf : st.fitting with
    | none => intro f h2; simp only [applyOp, hf] at h2; exact hst f (hf ▸ h2)
    | some fitting =>
      cases hs : st.shipType with
      | none => intro f h2; simp only [applyOp, hf, hs] at h2; exact hst f (hf ▸ h2)
      | some shipType =>
        intro f h2
        simp only [applyOp, hf, hs] at h2
        cases hg : getSlots fitting slotType with
        | none => simp only [hg] at h2; exact hst f (hf ▸ h2)
        | some slots =>
          simp only [hg] at h2
          by_cases hidx : index < 0 ∨ (slots.length : ℤ) ≤ index
          · rw [if_pos hidx] at h2; exact hst f (hf ▸ h2)
          · rw [if_neg hidx] at h2
            simp only [Option.some.injEq] at h2
            subst h2
            refine RigSubPassive_setSlots fitting slotType slots _ hg
              (hst fitting hf) ?_
            intro hts x hx
            rcases List.mem_or_eq_of_mem_set hx with h | h
            · exact Or.inl h
            · injection h with h3
              exact Or.inr (h3 ▸ hop hts)
  | fillSlots slotType m =>
    cases hf : st.fitting with
    | none => intro f h2; simp only [applyOp, hf] at h2; exact hst f (hf ▸ h2)
    | some fitting =>
      cases hs : st.shipType with
      | none => intro f h2; simp only [applyOp, hf, hs] at h2; exact hst f (hf ▸ h2)
      | some shipType =>
        cases hq : st.stats with
        | none => intro f h2; simp only [applyOp, hf, hs, hq] at h2; exact hst f (hf ▸ h2)
        | some stats =>
          intro f h2
          simp only [applyOp, hf, hs, hq] at h2
          cases hg : getSlots fitting slotType with
          | none => simp only [hg] at h2; exact hst f (hf ▸ h2)
          | some slots =>
            simp only [hg] at h2
            repeat' split at h2
            all_goals first
              | exact hst f h2
              | exact hst f (hf ▸ h2)
              | (simp only [Option.some.injEq] at h2
                 subst h2
                 refine RigSubPassive_setSlots fitting slotType slots _ hg
                   (hst fitting hf) ?_
                 intro hts x hx
                 rcases fillGo_mem _ _ _ m slotType slots 0 st.nextId 0 x hx with h | h
                 · exact Or.inl h
                 · exact Or.inr (h ▸ hop hts))
  | removeModule slotType index =>
    cases hf : st.fitting with
    | none => intro f h2; simp only [applyOp, hf] at h2; exact hst f (hf ▸ h2)
    | some fitting =>
      cases hs : st.shipType with
      | none => intro f h2; simp only [applyOp, hf, hs] at h2; exact hst f (hf ▸ h2)
      | some shipType =>
        intro f h2
        simp only [applyOp, hf, hs] at h2
        cases hg : getSlots fitting slotType with
        | none => simp only [hg] at h2; exact hst f (hf ▸ h2)
        | some slots =>
          simp only [hg] at h2
          by_cases hidx : index < 0 ∨ (slots.length : ℤ) ≤ index
          · rw [if_pos hidx] at h2; exact hst f (hf ▸ h2)
          · rw [if_neg hidx] at h2
            simp only [Option.some.injEq] at h2
            subst h2
            refine RigSubPassive_setSlots fitting slotType slots _ hg
              (hst fitting hf) ?_
            intro hts x hx
            rcases List.mem_or_eq_of_mem_set hx with h | h
            · exact Or.inl h
            · cases h
  | toggleModuleState slotType index =>
    cases hf : st.fitting with
    | none => intro f h2; simp only [applyOp, hf] at h2; exact hst f (hf ▸ h2)
    | some fitting =>
      cases hs : st.shipType with
      | none => intro f h2; simp only [applyOp, hf, hs] at h2; exact hst f (hf ▸ h2)
      | some shipType =>
        intro f h2
        simp only [applyOp, hf, hs] at h2
        cases hg : getSlots fitting slotType with
        | none => simp only [hg] at h2; exact hst f (hf ▸ h2)
        | some slots =>
          simp only [hg] at h2
          cases hm : idxGet slots index with
          | none => simp only [hm] at h2; exact hst f (hf ▸ h2)
          | some s0 =>
            cases s0 with
            | none => simp only [hm] at h2; exact hst f (hf ▸ h2)
            | some m0 =>
              simp only [hm, Option.some.injEq] at h2
              subst h2
              refine RigSubPassive_setSlots fitting slotType slots _ hg
                (hst fitting hf) ?_
              intro hts
              rcases hts with h | h
              · exact absurd h hop.1
              · exact absurd h hop.2
  | setModuleCharge slotType index charge =>
    cases hf : st.fitting with
    | none => intro f h2; simp only [applyOp, hf] at h2; exact hst f (hf ▸ h2)
    | some fitting =>
      cases hs : st.shipType with
      | none => intro f h2; simp only [applyOp, hf, hs] at h2; exact hst f (hf ▸ h2)
      | some shipType =>
        intro f h2
        simp only [applyOp, hf, hs] at h2
        cases hg : getSlots fitting slotType with
        | none => simp only [hg] at h2; exact hst f (hf ▸ h2)
        | some slots =>
          simp only [hg] at h2
          cases hm : idxGet slots index with
          | none => simp only [hm] at h2; exact hst f (hf ▸ h2)
          | some s0 =>
            cases s0 with
            | none => simp only [hm] at h2; exact hst f (hf ▸ h2)
            | some m0 =>
              simp only [hm, Option.some.injEq] at h2
              subst h2
              refine RigSubPassive_setSlots fitting slotType slots _ hg
                (hst fitting hf) ?_
              intro hts x hx
              rcases List.mem_or_eq_of_mem_set hx with h | h
              · exact Or.inl h
              · injection h with h3
                have hm0 : some m0 ∈ slots := idxGet_mem hm
                have hpass : m0.state = ModuleState.passive := by
                  rcases hts with ht | ht
                  · subst ht
                    simp only [getSlots, Option.some.injEq] at hg
                    exact hst fitting hf m0 (Or.inl (hg ▸ hm0))
                  · subst ht
                    simp only [getSlots, Option.some.injEq] at hg
                    exact hst fitting hf m0 (Or.inr (hg ▸ hm0))
                exact Or.inr (h3 ▸ hpass)
  | addDrone m =>
    cases hf : st.fitting with
    | none => intro f h2; simp only [applyOp, hf] at h2; exact hst f (hf ▸ h2)
    | some fitting =>
      cases hs : st.shipType with
      | none => intro f h2; simp only [applyOp, hf, hs] at h2; exact hst f (hf ▸ h2)
      | some shipType =>
        intro f h2
        simp only [applyOp, hf, hs, Option.some.injEq] at h2
        subst h2
        exact hst fitting hf
  | removeDrone index =>
    cases hf : st.fitting with
    | none => intro f h2; simp only [applyOp, hf] at h2; exact hst f (hf ▸ h2)
    | some fitting =>
      cases hs : st.shipType with
      | none => intro f h2; simp only [applyOp, hf, hs] at h2; exact hst f (hf ▸ h2)
      | some shipType =>
        intro f h2
        simp only [applyOp, hf, hs, Option.some.injEq] at h2
        subst h2
        exact hst fitting hf
  | importFitting fitting shipType =>
    intro f h2
    simp only [applyOp, Option.some.injEq] at h2
    subst h2
    exact hop

/-- C9 (amended): the store itself does not enforce rig/subsystem
passivity (see the counterexample), but under the UI calling discipline
the spec describes — passive payloads for rig/subsystem placement, no
state toggling on those categories, imported fittings already conformant —
every fitting reachable through any sequence of mutation-surface actions
keeps all rig- and subsystem-slot modules in `passive` state. -/
theorem store_rig_subsystem_passive (ops : List StoreOp) (st : StoreState)
    (hst : ∀ f, st.fitting = some f → RigSubPassive f)
    (hops : ∀ op ∈ ops, GoodOp op) :
    ∀ f, (ops.foldl applyOp st).fitting = some f → RigSubPassive f := by
  induction ops generalizing st with
  | nil => exact hst
  | cons op rest ih =>
    simp only [List.foldl_cons]
    exact ih (applyOp st op)
      (applyOp_rig_passive st op hst (hops op (List.mem_cons_self op rest)))
      (fun o ho => hops o (List.mem_cons_of_mem op ho))

/-- Inputs for the C9 counterexample and witness. -/
def c9Fit0 : Fitting :=
  { id := "c9", name := "C9", ship_type_id := 1, ship_name := "S",
    high_slots := [], mid_slots := [], low_slots := [],
    rig_slots := [Option.none], subsystem_slots := [], drones := [], cargo := [],
    created_at := "", updated_at := "" }

def c9ActiveData : ModuleData :=
  { type_id := 31, name := "Rig", state := ModuleState.active }

def c9PassiveData : ModuleData :=
  { type_id := 31, name := "Rig", state := ModuleState.passive }

def c9St : StoreState :=
  { fitting := some c9Fit0
    shipType := some c10Ship
    stats := Option.none
    skillMode := SkillMode.none
    skillMap := Option.none
    skillDeltas := Option.none
    dirty := false
    nextId := 7
    now := "T" }

/-- C9 counterexample: `addModule` copies the payload's `state` field
verbatim, so adding a rig module whose payload state is `active` puts an
*active* module into a rig slot — the store operations themselves do not
enforce the passivity invariant (only the UI layer guards the toggle). -/
theorem addModule_rig_active :
    (applyOp c9St (StoreOp.addModule SlotType.rig 0 c9ActiveData)).fitting =
      some { c9Fit0 with
        rig_slots := [some (mkModule c9ActiveData SlotType.rig 7 0)]
        updated_at := "T" } ∧
    (mkModule c9ActiveData SlotType.rig 7 0).state = ModuleState.active ∧
    ¬ RigSubPassive { c9Fit0 with
        rig_slots := [some (mkModule c9ActiveData SlotType.rig 7 0)]
        updated_at := "T" } := by
  refine ⟨?_, rfl, ?_⟩
  · simp only [applyOp, c9St]
    norm_num [getSlots, setSlots, c9Fit0]
  · intro h
    have := h (mkModule c9ActiveData SlotType.rig 7 0) (Or.inl (by simp))
    simp [mkModule, c9ActiveData] at this

theorem store_rig_subsystem_passive_witness :
    (mkModule c9PassiveData SlotType.rig 7 0).state = ModuleState.passive := by
  have hfit : (([StoreOp.addModule SlotType.rig 0 c9PassiveData]).foldl applyOp
      c9St).fitting = some { c9Fit0 with
        rig_slots := [some (mkModule c9PassiveData SlotType.rig 7 0)]
        updated_at := "T" } := by
    simp only [List.foldl_cons, List.foldl_nil, applyOp, c9St]
    norm_num [getSlots, setSlots, c9Fit0]
  exact store_rig_subsystem_passive
    [StoreOp.addModule SlotType.rig 0 c9PassiveData] c9St
    (by
      intro f hf x hx
      simp only [c9St, Option.some.injEq] at hf
      subst hf
      simp [c9Fit0] at hx)
    (by
      intro op ho
      simp only [List.mem_singleton] at ho
      subst ho
      exact fun _ => rfl)
    _ hfit (mkModule c9PassiveData SlotType.rig 7 0) (Or.inl (by simp))

/-! ## C7: hardpoint-respecting fill -/

/-- C7 (amended): the fill loop's gate.  For hardpoint modules the loop
stops as soon as already-present plus newly-filled reaches the limit — in
particular it fills nothing, and the whole action is a no-op, when the
present count already meets the limit; for non-hardpoint modules every
empty slot is filled.  (The spec's concrete arithmetic is off: see the
counterexample — 4 slots stay empty in its scenario, not 2.) -/
theorem fillSlots_hardpoint_gate :
    (∀ (limit used : ℚ) (m : ModuleData) (t : SlotType) (i nid : ℕ)
        (filled : ℚ) (sl : List (Option FittedModule)),
        used + filled ≥ limit →
        fillGo true limit used m t i nid filled sl = (sl, filled, nid)) ∧
    (∀ (limit used : ℚ) (m : ModuleData) (t : SlotType) (i nid : ℕ)
        (filled : ℚ) (sl : List (Option FittedModule)),
        (fillGo false limit used m t i nid filled sl).2.1 =
          filled + ((sl.filter (fun s => s.isNone)).length : ℚ) ∧
        ∀ s ∈ (fillGo false limit used m t i nid filled sl).1, s.isSome) ∧
    (∀ (st : StoreState) (f : Fitting) (ship : EveType) (stats : ShipStats)
        (sl : List (Option FittedModule)) (m : ModuleData),
        st.fitting = some f → st.shipType = some ship → st.stats = some stats →
        getSlots f SlotType.high = some sl →
        (42 : ℚ) ∈ m.effects.getD [] → (40 : ℚ) ∉ m.effects.getD [] →
        hardpointsUsed true false sl ≥ stats.turret_hardpoints →
        applyOp st (StoreOp.fillSlots SlotType.high m) = st) := by
  have hstop : ∀ (limit used : ℚ) (m : ModuleData) (t : SlotType) (i nid : ℕ)
      (filled : ℚ) (sl : List (Option FittedModule)),
      used + filled ≥ limit →
      fillGo true limit used m t i nid filled sl = (sl, filled, nid) := by
    intro limit used m t i nid filled sl
    induction sl generalizing i nid filled with
    | nil => intro _; rfl
    | cons hd tl ih =>
      intro hge
      cases hd with
      | some y => simp only [fillGo, ih (i + 1) nid filled hge]
      | none =>
        simp only [fillGo]
        rw [if_pos ⟨by simp, hge⟩]
  refine ⟨hstop, ?_, ?_⟩
  · intro limit used m t i nid filled sl
    induction sl generalizing i nid filled with
    | nil => simp [fillGo]
    | cons hd tl ih =>
      cases hd with
      | some y =>
        obtain ⟨ih1, ih2⟩ := ih (i + 1) nid filled
        constructor
        · simpa [fillGo] using ih1
        · intro s hs
          simp only [fillGo, List.mem_cons] at hs
          rcases hs with h | h
          · simp [h]
          · exact ih2 s h
      | none =>
        obtain ⟨ih1, ih2⟩ := ih (i + 1) (nid + 1) (filled + 1)
        have hred : fillGo false limit used m t i nid filled (Option.none :: tl) =
            (some (mkModule m t nid i) ::
              (fillGo false limit used m t (i + 1) (nid + 1) (filled + 1) tl).1,
             (fillGo false limit used m t (i + 1) (nid + 1) (filled + 1) tl).2) := by
          simp only [fillGo]
          rw [if_neg]
          rintro ⟨h, -⟩
          simp at h
        constructor
        · rw [hred]
          simp only at ih1 ⊢
          rw [ih1]
          push_cast [List.filter_cons]
          simp only [Option.isNone_none, if_true, List.length_cons]
          push_cast
          ring
        · intro s hs
          rw [hred] at hs
          simp only [List.mem_cons] at hs
          rcases hs with h | h
          · simp [h]
          · exact ih2 s h
  · intro st f ship stats sl m h1 h2 h3 h4 h5 h6 h7
    have e42 : decide ((42 : ℚ) ∈ m.effects.getD []) = true := decide_eq_true h5
    have e40 : decide ((40 : ℚ) ∈ m.effects.getD []) = false := decide_eq_false h6
    have hz : fillGo true stats.turret_hardpoints
        (hardpointsUsed true false sl) m SlotType.high 0 st.nextId 0 sl =
        (sl, 0, st.nextId) := by
      refine hstop _ _ m SlotType.high 0 st.nextId 0 sl ?_
      rw [add_zero]; exact h7
    show (match st.fitting, st.shipType, st.stats with
      | some _, some _, some _ => _
      | _, _, _ => st) = st
    rw [h1, h2, h3]
    simp only [h4, e42, e40, Bool.true_or, if_true, Bool.false_eq_true, if_false,
      hz]

/-- The C7 scenario: an 8-slot rack with two turret modules fitted. -/
def c7Data : ModuleData :=
  { type_id := 10, name := "Turret", state := ModuleState.active,
    effects := some [42] }

def c7Slots : List (Option FittedModule) :=
  [some (mkModule c7Data SlotType.high 1 0), some (mkModule c7Data SlotType.high 2 1),
   Option.none, Option.none, Option.none, Option.none, Option.none, Option.none]

/-- C7 counterexample: with `turret_hardpoints = 4`, two turrets fitted
and an 8-slot rack, the fill stops after 2 new modules — but that leaves
*four* slots empty, not the two the spec claims. -/
theorem fillSlots_leaves_four_empty :
    hardpointsUsed true false c7Slots = 2 ∧
    (fillGo true 4 2 c7Data SlotType.high 0 3 0 c7Slots).2.1 = 2 ∧
    ((fillGo true 4 2 c7Data SlotType.high 0 3 0 c7Slots).1.filter
      (fun s => s.isNone)).length = 4 := by
  refine ⟨?_, ?_, ?_⟩ <;>
    norm_num [hardpointsUsed, c7Slots, c7Data, mkModule, fillGo]

def c7Fit : Fitting :=
  { id := "c7", name := "C7", ship_type_id := 1, ship_name := "S",
    high_slots := c7Slots, mid_slots := [], low_slots := [],
    rig_slots := [], subsystem_slots := [], drones := [], cargo := [],
    created_at := "", updated_at := "" }

noncomputable def c7Stats : ShipStats :=
  { mkStats 0 0 0 0 with turret_hardpoints := 2 }

noncomputable def c7St : StoreState :=
  { fitting := some c7Fit
    shipType := some c10Ship
    stats := some c7Stats
    skillMode := SkillMode.none
    skillMap := Option.none
    skillDeltas := Option.none
    dirty := false
    nextId := 3
    now := "T" }

theorem fillSlots_hardpoint_gate_witness :
    fillGo true 4 4 c10Data SlotType.high 0 0 0 [Option.none] =
      ([Option.none], 0, 0) ∧
    (fillGo false 0 0 c10Data SlotType.high 0 0 0 [Option.none]).2.1 =
      0 + ((([Option.none] : List (Option FittedModule)).filter
        (fun s => s.isNone)).length : ℚ) ∧
    applyOp c7St (StoreOp.fillSlots SlotType.high c7Data) = c7St :=
  ⟨fillSlots_hardpoint_gate.1 4 4 c10Data SlotType.high 0 0 0 [Option.none]
      (by norm_num),
   (fillSlots_hardpoint_gate.2.1 0 0 c10Data SlotType.high 0 0 0 [Option.none]).1,
   fillSlots_hardpoint_gate.2.2 c7St c7Fit c10Ship c7Stats c7Slots c7Data
     rfl rfl rfl rfl (by decide) (by decide)
     (by
       show hardpointsUsed true false c7Slots ≥ (2 : ℚ)
       norm_num [hardpointsUsed, c7Slots, c7Data, mkModule])⟩

/-! ## C4: the quick-unstable branch of the capacitor simulator -/

theorem capRunOut_some_le (capacity tau drain maxSim : ℚ) :
    ∀ (fuel : ℕ) (t0 : ℚ) (cap : ℝ) (t : ℚ),
      capRunOut capacity tau drain maxSim fuel t0 cap = some t →
      t0 ≤ t ∧ t < maxSim := by
  intro fuel
  induction fuel with
  | zero => intro t0 cap t h; simp [capRunOut] at h
  | succ n ih =>
    intro t0 cap t h
    simp only [capRunOut] at h
    by_cases h1 : t0 < maxSim
    · rw [if_pos h1] at h
      by_cases h2 : capStep capacity tau drain cap ≤ 0
      · rw [if_pos h2] at h
        injection h with h3
        subst h3
        exact ⟨le_refl _, h1⟩
      · rw [if_neg h2] at h
        obtain ⟨ha, hb⟩ := ih (t0 + 1 / 10) _ t h
        exact ⟨by linarith, hb⟩
    · rw [if_neg h1] at h; cases h

/-- C4 (amended): whenever the drain exceeds peak recharge by more than
10% (with positive capacity and recharge time), `simulateCap` takes the
quick drain-to-exhaustion branch and returns `stable = false` together
with a `lastsSeconds` value in the closed interval `[0, maxSimSeconds]`
(default 600).  `lastsSeconds` is *not* always strictly below the
window: when the loop completes without the capacitor hitting zero it is
exactly `maxSimSeconds` — see the counterexample. -/
theorem simulateCap_quick_branch (capacity rechargeMs drain : ℚ)
    (hcap : 0 < capacity) (hrech : 0 < rechargeMs)
    (hdrain : drain > 2.5 * capacity / (rechargeMs / 1000) * 1.1) :
    (simulateCap capacity rechargeMs drain).stable = false ∧
    ∃ t, (simulateCap capacity rechargeMs drain).lastsSeconds = some t ∧
      0 ≤ t ∧ t ≤ 600 := by
  have hpeak : 0 < 2.5 * capacity / (rechargeMs / 1000) := by positivity
  have hd0 : ¬ drain ≤ 0 := by nlinarith
  simp only [simulateCap]
  rw [if_neg hd0, if_pos hdrain]
  cases hE : capRunOut capacity (rechargeMs / 1000) drain 600
      ((Int.toNat ⌈(600 : ℚ) * 10⌉) + 1) 0 (capacity : ℝ) with
  | none => exact ⟨rfl, 600, rfl, by norm_num, by norm_num⟩
  | some t =>
    obtain ⟨h0, hlt⟩ := capRunOut_some_le capacity (rechargeMs / 1000) drain 600
      _ 0 (capacity : ℝ) t hE
    exact ⟨rfl, t, rfl, h0, le_of_lt hlt⟩

theorem simulateCap_quick_branch_witness :
    (simulateCap 100 1000 300).stable = false ∧
    ∃ t, (simulateCap 100 1000 300).lastsSeconds = some t ∧ 0 ≤ t ∧ t ≤ 600 :=
  simulateCap_quick_branch 100 1000 300 (by norm_num) (by norm_num) (by norm_num)

theorem sqrt_sub_self_bounds {f : ℝ} (h0 : 0 ≤ f) (h1 : f ≤ 1) :
    0 ≤ Real.sqrt f - f ∧ Real.sqrt f - f ≤ 1 / 4 := by
  have hs0 : 0 ≤ Real.sqrt f := Real.sqrt_nonneg f
  have hs2 : Real.sqrt f ^ 2 = f := Real.sq_sqrt h0
  have hs1 : Real.sqrt f ≤ 1 := by nlinarith [sq_nonneg (Real.sqrt f - 1)]
  constructor
  · nlinarith [mul_nonneg hs0 (sub_nonneg.mpr hs1)]
  · nlinarith [sq_nonneg (Real.sqrt f - 1 / 2)]

/-- On the counterexample parameters (capacity 100000, tau 10^6, drain 1)
every Euler step loses between 3/40 and 1/10 of a unit. -/
theorem capStep_concrete_bounds (cap : ℝ) (h1 : 0 ≤ cap) (h2 : cap ≤ 100000) :
    cap - 1 / 10 ≤ capStep 100000 1000000 1 cap ∧
    capStep 100000 1000000 1 cap ≤ cap - 3 / 40 := by
  unfold capStep
  rw [show (((100000 : ℚ)) : ℝ) = 100000 by norm_num,
    show (((1000000 : ℚ)) : ℝ) = 1000000 by norm_num,
    show (((1 : ℚ)) : ℝ) = 1 by norm_num]
  have hf0 : 0 ≤ max (cap / 100000) 0 := le_max_right _ _
  have hf1 : max (cap / 100000) 0 ≤ 1 := by
    apply max_le _ (by norm_num)
    rw [div_le_one (by norm_num : (0 : ℝ) < 100000)]
    linarith
  obtain ⟨hb0, hb1⟩ := sqrt_sub_self_bounds hf0 hf1
  constructor <;> nlinarith [hb0, hb1]

theorem capRunOut_none_concrete :
    ∀ (fuel k : ℕ) (cap : ℝ),
      (k : ℚ) ≤ 6000 →
      (100000 : ℝ) - (k : ℝ) / 10 ≤ cap → cap ≤ 100000 →
      capRunOut 100000 1000000 1 600 fuel ((k : ℚ) / 10) cap = Option.none := by
  intro fuel
  induction fuel with
  | zero => intro k cap _ _ _; rfl
  | succ n ih =>
    intro k cap hk h1 h2
    simp only [capRunOut]
    by_cases hguard : ((k : ℚ)) / 10 < 600
    · rw [if_pos hguard]
      have hkR : (k : ℝ) ≤ 6000 := by exact_mod_cast hk
      have h0cap : (0 : ℝ) ≤ cap := by linarith
      obtain ⟨hs1, hs2⟩ := capStep_concrete_bounds cap h0cap h2
      have hklt : (k : ℚ) < 6000 := by linarith
      have hkRlt : (k : ℝ) < 6000 := by exact_mod_cast hklt
      have hpos : ¬ capStep 100000 1000000 1 cap ≤ 0 := by
        push_neg
        linarith
      rw [if_neg hpos]
      have heq : ((k : ℚ)) / 10 + 1 / 10 = (((k + 1 : ℕ) : ℚ)) / 10 := by
        push_cast; ring
      rw [heq]
      refine ih (k + 1) _ ?_ ?_ ?_
      · have hkn : k < 6000 := by exact_mod_cast hklt
        exact_mod_cast Nat.succ_le_of_lt hkn
      · push_cast
        linarith
      · linarith
    · rw [if_neg hguard]

/-- C4 counterexample: with capacity 100000, recharge time 10^9 ms and
drain 1 the quick-branch guard holds (1 > 0.275), yet the capacitor
survives the whole window and `lastsSeconds` equals 600 — not strictly
less than `maxSimSeconds` as the spec claims. -/
theorem simulateCap_lasts_full_window :
    ((1 : ℚ) > 2.5 * 100000 / ((1000000000 : ℚ) / 1000) * 1.1) ∧
    (simulateCap 100000 1000000000 1).stable = false ∧
    (simulateCap 100000 1000000000 1).lastsSeconds = some 600 := by
  have hgt : (1 : ℚ) > 2.5 * 100000 / ((1000000000 : ℚ) / 1000) * 1.1 := by
    norm_num
  have htau : (1000000000 : ℚ) / 1000 = 1000000 := by norm_num
  have h0 : capRunOut 100000 ((1000000000 : ℚ) / 1000) 1 600
      ((Int.toNat ⌈(600 : ℚ) * 10⌉) + 1) 0 ((100000 : ℚ) : ℝ) = Option.none := by
    rw [htau]
    have := capRunOut_none_concrete ((Int.toNat ⌈(600 : ℚ) * 10⌉) + 1) 0
      ((100000 : ℚ) : ℝ) (by norm_num) (by push_cast; norm_num)
      (by push_cast; norm_num)
    simpa using this
  refine ⟨hgt, ?_, ?_⟩ <;>
  · simp only [simulateCap]
    rw [if_neg (by norm_num : ¬ (1 : ℚ) ≤ 0), if_pos hgt, h0]

/-! ## Skill plan builder (`src/lib/skill-plan.ts`)

`getType` (the asynchronous ESI lookup) is modelled as a pure partial
lookup `ℚ → Option EveType`; a `none` result plays the role of a
rejected promise / thrown lookup, which every call site of the original
skips over.  JavaScript `Map`s are modelled as insertion-ordered
association lists (`mapGet`/`mapSet`), and JS truthiness of a looked-up
number (`!existing`) as `existing = 0` alongside absence. -/

namespace CATEGORY_IDS

def SKILL : ℚ := 16

end CATEGORY_IDS

/-- Modelled from the spec: the fixed set of paired
"required-skill-type / required-level" dogma attribute ids
(`SKILL_REQ_ATTRS` in `src/lib/constants.ts`, which the spec describes
as a fixed small set of such attribute-id pairs, typically 3–6 per
item): requiredSkill1–3 (182/183/184 with levels 277/278/279) and
requiredSkill4–6 (1285/1289/1290 with levels 1286/1287/1288). -/
def SKILL_REQ_ATTRS : List (ℚ × ℚ) :=
  [(182, 277), (183, 278), (184, 279),
   (1285, 1286), (1289, 1287), (1290, 1288)]

/-- `Map.get`. -/
def mapGet {β : Type} (m : List (ℚ × β)) (k : ℚ) : Option β :=
  (m.find? (fun p => decide (p.1 = k))).map (fun p => p.2)

/-- `Map.set`: overwrite in place if the key is present, else append. -/
def mapSet {β : Type} (m : List (ℚ × β)) (k : ℚ) (v : β) : List (ℚ × β) :=
  if (mapGet m k).isSome then
    m.map (fun p => if p.1 = k then (k, v) else p)
  else m ++ [(k, v)]

/-- The "keep highest required level" update used for `directReqs` and
`allReqs` (`if (!existing || level > existing) set(...)`). -/
def bumpInsert (m : List (ℚ × ℚ)) (k v : ℚ) : List (ℚ × ℚ) :=
  match mapGet m k with
  | Option.none => mapSet m k v
  | some e => if e = 0 ∨ v > e then mapSet m k v else m

/-- The support-skill bump of stage 2
(`if (!existing || existing < 4) set(supportId, 4)`). -/
def supportInsert (m : List (ℚ × ℚ)) (sid : ℚ) : List (ℚ × ℚ) :=
  match mapGet m sid with
  | Option.none => mapSet m sid 4
  | some e => if e = 0 ∨ e < 4 then mapSet m sid 4 else m

/-- `extractSkillReqs`. -/
def extractSkillReqs (t : EveType) : List (ℚ × ℚ) :=
  match t.dogma_attributes with
  | Option.none => []
  | some attrs =>
    let attrMap := attrs.foldl (fun m a => mapSet m a.attribute_id a.value) []
    SKILL_REQ_ATTRS.foldl (fun reqs p =>
      match mapGet attrMap p.1, mapGet attrMap p.2 with
      | some skillTypeId, some level =>
        if skillTypeId ≠ 0 ∧ skillTypeId > 0 ∧ level ≠ 0 ∧ level > 0 then
          reqs ++ [(skillTypeId, level)]
        else reqs
      | _, _ => reqs) []

/-- `resolvePrerequisites`, with explicit recursion fuel standing in for
the finiteness of the skill graph (the `visited` set guarantees
termination in the source). -/
def resolvePrereqs (getT : ℚ → Option EveType) :
    ℕ → ℚ → List ℚ → List (ℚ × ℚ) → List ℚ × List (ℚ × ℚ)
  | 0, _, visited, result => (visited, result)
  | fuel + 1, skillTypeId, visited, result =>
    if skillTypeId ∈ visited then (visited, result)
    else
      let visited2 := visited ++ [skillTypeId]
      match getT skillTypeId with
      | Option.none => (visited2, result)
      | some skillType =>
        if skillType.category_id ≠ Option.none ∧
            skillType.category_id ≠ some CATEGORY_IDS.SKILL then
          (visited2, result)
        else
          (extractSkillReqs skillType).foldl
            (fun acc req =>
              resolvePrereqs getT fuel req.1 acc.1 (bumpInsert acc.2 req.1 req.2))
            (visited2, result)

/-- `ids.add` on a JS `Set`, insertion-ordered. -/
def addUnique (l : List ℚ) (x : ℚ) : List ℚ := if x ∈ l then l else l ++ [x]

/-- `getAllModuleTypeIds`. -/
def getAllModuleTypeIds (fitting : Fitting) : List ℚ :=
  let ids := ((fitting.high_slots ++ fitting.mid_slots ++ fitting.low_slots ++
    fitting.rig_slots ++ fitting.subsystem_slots).filterMap id).foldl
      (fun l m => addUnique l m.type_id) []
  fitting.drones.foldl (fun l d => addUnique l d.type_id) ids

structure SkillRequirement where
  skill_type_id : ℚ
  skill_name : String
  required_level : ℚ
deriving DecidableEq, Repr

structure SkillPlanStage where
  name : String
  skills : List SkillRequirement
  total : ℕ
deriving DecidableEq, Repr

structure SkillPlan where
  stages : List SkillPlanStage
deriving DecidableEq, Repr

/-- The stage-list builder (`for ([skillId, level] of map) { if (!name)
continue; push({...}) }`). -/
def stageSkills (names : List (ℚ × String)) (m : List (ℚ × ℚ)) :
    List SkillRequirement :=
  m.filterMap (fun kv =>
    match mapGet names kv.1 with
    | some n =>
      if n = "" then Option.none
      else some { skill_type_id := kv.1, skill_name := n, required_level := kv.2 }
    | Option.none => Option.none)

/-- `.sort((a, b) => a.skill_name.localeCompare(b.skill_name))`. -/
def sortByName (l : List SkillRequirement) : List SkillRequirement :=
  l.mergeSort (fun a b => decide (a.skill_name ≤ b.skill_name))

/-- Step 1 of `buildSkillPlan`: direct requirements from the ship type
and every resolvable distinct module type, keeping the maximum level per
skill id. -/
def planDirectReqs (getT : ℚ → Option EveType) (shipType : EveType)
    (fitting : Fitting) : List (ℚ × ℚ) :=
  let allTypes := shipType :: (getAllModuleTypeIds fitting).filterMap getT
  allTypes.foldl (fun m t =>
    (extractSkillReqs t).foldl (fun m2 req => bumpInsert m2 req.1 req.2) m) []

/-- Step 2 of `buildSkillPlan`: `allReqs`, the direct requirements
extended by every prerequisite (shared `visited` set threaded through). -/
def planAllReqs (getT : ℚ → Option EveType) (fuel : ℕ) (shipType : EveType)
    (fitting : Fitting) : List (ℚ × ℚ) :=
  ((planDirectReqs getT shipType fitting).foldl
    (fun acc kv => resolvePrereqs getT fuel kv.1 acc.1 acc.2)
    ([], planDirectReqs getT shipType fitting)).2

/-- Step 3 of `buildSkillPlan`: resolved skill names. -/
def planSkillNames (getT : ℚ → Option EveType) (fuel : ℕ) (shipType : EveType)
    (fitting : Fitting) : List (ℚ × String) :=
  (planAllReqs getT fuel shipType fitting).foldl (fun names kv =>
    match getT kv.1 with
    | some t => mapSet names kv.1 t.name
    | Option.none => names) []

/-- Step 5a of `buildSkillPlan`: the Recommended-stage map — all of
`allReqs` bumped to at least IV, plus the support skills at IV. -/
def planStage2Map (getT : ℚ → Option EveType) (fuel : ℕ) (shipType : EveType)
    (fitting : Fitting) : List (ℚ × ℚ) :=
  supportSkillIds.foldl supportInsert
    ((planAllReqs getT fuel shipType fitting).foldl
      (fun m kv => mapSet m kv.1 (max kv.2 4)) [])

/-- Step 5b of `buildSkillPlan`: names extended for support skills that
were not already resolved. -/
def planSkillNames2 (getT : ℚ → Option EveType) (fuel : ℕ) (shipType : EveType)
    (fitting : Fitting) : List (ℚ × String) :=
  supportSkillIds.foldl (fun names sid =>
    if (mapGet names sid).isSome then names
    else match getT sid with
      | some t => mapSet names sid t.name
      | Option.none => names) (planSkillNames getT fuel shipType fitting)

/-- `buildSkillPlan`: the three stages assembled from the steps above. -/
def buildSkillPlan (getT : ℚ → Option EveType) (fuel : ℕ) (shipType : EveType)
    (fitting : Fitting) : SkillPlan :=
  let stage1Skills := sortByName (stageSkills (planSkillNames getT fuel shipType fitting)
    (planAllReqs getT fuel shipType fitting))
  let stage2Skills := sortByName (stageSkills (planSkillNames2 getT fuel shipType fitting)
    (planStage2Map getT fuel shipType fitting))
  let stage3Skills := stage2Skills.map (fun s => { s with required_level := 5 })
  { stages := [
      { name := "Minimum", skills := stage1Skills, total := stage1Skills.length },
      { name := "Recommended", skills := stage2Skills, total := stage2Skills.length },
      { name := "Mastery", skills := stage3Skills, total := stage3Skills.length }] }

/-! ### C8 support lemmas: association-list maps -/

theorem mapGet_eq_some_mem {β : Type} {m : List (ℚ × β)} {k : ℚ} {v : β}
    (h : mapGet m k = some v) : (k, v) ∈ m := by
  unfold mapGet at h
  cases hf : m.find? (fun p => decide (p.1 = k)) with
  | none => rw [hf] at h; cases h
  | some p =>
    rw [hf] at h
    have hm := List.mem_of_find?_eq_some hf
    have hpeq := List.find?_some hf
    rcases p with ⟨p1, p2⟩
    have hp : p1 = k := by simpa using hpeq
    have h2 : p2 = v := by simpa using h
    subst hp; subst h2
    exact hm

theorem mapGet_eq_none {β : Type} {m : List (ℚ × β)} {k : ℚ}
    (h : mapGet m k = Option.none) : ∀ p ∈ m, p.1 ≠ k := by
  unfold mapGet at h
  cases hf : m.find? (fun p => decide (p.1 = k)) with
  | some p => rw [hf] at h; cases h
  | none =>
    intro p hp
    have := List.find?_eq_none.mp hf p hp
    simpa using this

theorem mem_mapSet {β : Type} {m : List (ℚ × β)} {k : ℚ} {v : β} {p : ℚ × β}
    (h : p ∈ mapSet m k v) : p ∈ m ∨ p = (k, v) := by
  unfold mapSet at h
  split at h
  · obtain ⟨q, hq, hfq⟩ := List.mem_map.mp h
    by_cases hqk : q.1 = k
    · rw [if_pos hqk] at hfq; exact Or.inr hfq.symm
    · rw [if_neg hqk] at hfq; exact Or.inl (hfq ▸ hq)
  · rcases List.mem_append.mp h with h2 | h2
    · exact Or.inl h2
    · simp only [List.mem_singleton] at h2; exact Or.inr h2

theorem mem_mapSet_self {β : Type} (m : List (ℚ × β)) (k : ℚ) (v : β) :
    (k, v) ∈ mapSet m k v := by
  unfold mapSet
  split
  · rename_i hs
    obtain ⟨v0, hv0⟩ := Option.isSome_iff_exists.mp hs
    refine List.mem_map.mpr ⟨(k, v0), mapGet_eq_some_mem hv0, ?_⟩
    simp
  · exact List.mem_append.mpr (Or.inr (by simp))

theorem mem_mapSet_of_ne {β : Type} {m : List (ℚ × β)} {k : ℚ} {v : β}
    (k' : ℚ) (v' : β) (hne : k ≠ k') (h : (k, v) ∈ m) :
    (k, v) ∈ mapSet m k' v' := by
  unfold mapSet
  split
  · refine List.mem_map.mpr ⟨(k, v), h, ?_⟩
    simp [hne]
  · exact List.mem_append.mpr (Or.inl h)

theorem mapGet_append_some {β : Type} {m : List (ℚ × β)} {k : ℚ} {v : β}
    (l2 : List (ℚ × β)) (h : mapGet m k = some v) :
    mapGet (m ++ l2) k = some v := by
  unfold mapGet at h ⊢
  cases hf : m.find? (fun p => decide (p.1 = k)) with
  | none => rw [hf] at h; cases h
  | some p =>
    rw [hf] at h
    rw [List.find?_append, hf]
    simpa using h

theorem foldl_preserve {α β : Type} (P : β → Prop) (step : β → α → β)
    (hstep : ∀ b a, P b → P (step b a)) :
    ∀ (l : List α) (b : β), P b → P (l.foldl step b) := by
  intro l
  induction l with
  | nil => intro b hb; exact hb
  | cons hd tl ih => intro b hb; exact ih (step b hd) (hstep b hd hb)

/-- Keys of an association list are pairwise distinct (the `Map`
invariant every map in the source maintains by construction). -/
def NodupKeys {β : Type} (m : List (ℚ × β)) : Prop := (m.map Prod.fst).Nodup

theorem nodupKeys_mapSet {β : Type} {m : List (ℚ × β)} (k : ℚ) (v : β)
    (h : NodupKeys m) : NodupKeys (mapSet m k v) := by
  unfold mapSet
  split
  · unfold NodupKeys at h ⊢
    rw [List.map_map]
    have he : ∀ p ∈ m,
        (Prod.fst ∘ fun p => if p.1 = k then (k, v) else p) p = Prod.fst p := by
      intro p _
      by_cases hp : p.1 = k <;> simp [hp]
    rw [List.map_congr_left he]
    exact h
  · rename_i hs
    have hnone : mapGet m k = Option.none := by
      cases hmg : mapGet m k
      · rfl
      · rw [hmg] at hs; simp at hs
    have hknot : k ∉ m.map Prod.fst := by
      intro hk
      obtain ⟨p, hp, hpk⟩ := List.mem_map.mp hk
      exact mapGet_eq_none hnone p hp hpk
    unfold NodupKeys at h ⊢
    rw [List.map_append]
    refine List.Nodup.append h (by simp) ?_
    simpa [List.disjoint_singleton] using hknot

theorem nodupKeys_bumpInsert (m : List (ℚ × ℚ)) (k v : ℚ)
    (h : NodupKeys m) : NodupKeys (bumpInsert m k v) := by
  unfold bumpInsert
  split
  · exact nodupKeys_mapSet k v h
  · split
    · exact nodupKeys_mapSet k v h
    · exact h

theorem resolve_nodupKeys (getT : ℚ → Option EveType) :
    ∀ (fuel : ℕ) (sid : ℚ) (visited : List ℚ) (result : List (ℚ × ℚ)),
      NodupKeys result →
      NodupKeys (resolvePrereqs getT fuel sid visited result).2 := by
  intro fuel
  induction fuel with
  | zero => intro sid visited result h; exact h
  | succ n ih =>
    intro sid visited result h
    simp only [resolvePrereqs]
    by_cases h1 : sid ∈ visited
    · rw [if_pos h1]; exact h
    · rw [if_neg h1]
      split
      · exact h
      · split
        · exact h
        · exact foldl_preserve (fun acc : List ℚ × List (ℚ × ℚ) => NodupKeys acc.2) _
            (fun (acc : List ℚ × List (ℚ × ℚ)) (req : ℚ × ℚ) hacc =>
              ih req.1 acc.1 _ (nodupKeys_bumpInsert _ _ _ hacc)) _ _ h

theorem foldl_mapSet_keep (g : ℚ × ℚ → ℚ) :
    ∀ (l init : List (ℚ × ℚ)) (k v : ℚ),
      (k, v) ∈ init → k ∉ l.map Prod.fst →
      (k, v) ∈ l.foldl (fun m p => mapSet m p.1 (g p)) init := by
  intro l
  induction l with
  | nil => intro init k v h _; exact h
  | cons hd tl ih =>
    intro init k v h hk
    simp only [List.map_cons, List.mem_cons, not_or] at hk
    simp only [List.foldl_cons]
    exact ih _ k v (mem_mapSet_of_ne hd.1 (g hd) hk.1 h) hk.2

theorem foldl_mapSet_mem (g : ℚ × ℚ → ℚ) :
    ∀ (l init : List (ℚ × ℚ)) (kv : ℚ × ℚ),
      kv ∈ l → (l.map Prod.fst).Nodup →
      (kv.1, g kv) ∈ l.foldl (fun m p => mapSet m p.1 (g p)) init := by
  intro l
  induction l with
  | nil => intro init kv h _; exact absurd h (List.not_mem_nil kv)
  | cons hd tl ih =>
    intro init kv h hnd
    simp only [List.map_cons, List.nodup_cons] at hnd
    simp only [List.foldl_cons]
    rcases List.mem_cons.mp h with h1 | h1
    · subst h1
      exact foldl_mapSet_keep g tl _ kv.1 (g kv) (mem_mapSet_self _ _ _) hnd.1
    · exact ih _ kv h1 hnd.2

theorem mem_supportInsert {m : List (ℚ × ℚ)} {sid : ℚ} {p : ℚ × ℚ}
    (h : p ∈ supportInsert m sid) : p ∈ m ∨ p = (sid, 4) := by
  unfold supportInsert at h
  split at h
  · exact mem_mapSet h
  · split at h
    · exact mem_mapSet h
    · exact Or.inl h

theorem supportInsert_keep {m : List (ℚ × ℚ)} (sid : ℚ)
    (hall : ∀ p ∈ m, 4 ≤ p.2) {k v : ℚ} (hm : (k, v) ∈ m) :
    (k, v) ∈ supportInsert m sid := by
  unfold supportInsert
  split
  · rename_i heq
    exact mem_mapSet_of_ne sid 4 (mapGet_eq_none heq (k, v) hm) hm
  · rename_i e heq
    have he : 4 ≤ e := hall _ (mapGet_eq_some_mem heq)
    have hcond : ¬ (e = 0 ∨ e < 4) := by rintro (h2 | h2) <;> linarith
    rw [if_neg hcond]
    exact hm

theorem nodup_planAllReqs (getT : ℚ → Option EveType) (fuel : ℕ)
    (shipType : EveType) (fitting : Fitting) :
    NodupKeys (planAllReqs getT fuel shipType fitting) := by
  have hdr : NodupKeys (planDirectReqs getT shipType fitting) := by
    unfold planDirectReqs
    exact foldl_preserve NodupKeys _
      (fun (m : List (ℚ × ℚ)) (t : EveType) hm => foldl_preserve NodupKeys _
        (fun (m2 : List (ℚ × ℚ)) (req : ℚ × ℚ) hm2 =>
          nodupKeys_bumpInsert _ _ _ hm2) _ m hm)
      _ _ (by simp [NodupKeys])
  unfold planAllReqs
  exact foldl_preserve (fun acc : List ℚ × List (ℚ × ℚ) => NodupKeys acc.2) _
    (fun (acc : List ℚ × List (ℚ × ℚ)) (kv : ℚ × ℚ) h =>
      resolve_nodupKeys getT fuel kv.1 acc.1 acc.2 h) _ _ hdr

theorem planStage2Map_all4 (getT : ℚ → Option EveType) (fuel : ℕ)
    (shipType : EveType) (fitting : Fitting) :
    ∀ p ∈ planStage2Map getT fuel shipType fitting, 4 ≤ p.2 := by
  unfold planStage2Map
  refine foldl_preserve (fun m : List (ℚ × ℚ) => ∀ p ∈ m, 4 ≤ p.2) _ ?_ _ _ ?_
  · intro m sid hm p hp
    rcases mem_supportInsert hp with h | h
    · exact hm _ h
    · rw [h]
  · refine foldl_preserve (fun m : List (ℚ × ℚ) => ∀ p ∈ m, 4 ≤ p.2) _ ?_ _ _
      (by simp)
    intro m kv hm p hp
    rcases mem_mapSet hp with h | h
    · exact hm _ h
    · rw [h]; exact le_max_right _ _

theorem planStage2Map_mem (getT : ℚ → Option EveType) (fuel : ℕ)
    (shipType : EveType) (fitting : Fitting) {kv : ℚ × ℚ}
    (h : kv ∈ planAllReqs getT fuel shipType fitting) :
    (kv.1, max kv.2 4) ∈ planStage2Map getT fuel shipType fitting := by
  have hbase : (kv.1, max kv.2 4) ∈
      (planAllReqs getT fuel shipType fitting).foldl
        (fun m kv => mapSet m kv.1 (max kv.2 4)) [] :=
    foldl_mapSet_mem (fun p => max p.2 4) _ [] kv h
      (nodup_planAllReqs getT fuel shipType fitting)
  have hall : ∀ p ∈ (planAllReqs getT fuel shipType fitting).foldl
      (fun m kv => mapSet m kv.1 (max kv.2 4)) [], 4 ≤ p.2 := by
    refine foldl_preserve (fun m : List (ℚ × ℚ) => ∀ p ∈ m, 4 ≤ p.2) _ ?_ _ _
      (by simp)
    intro m kv2 hm p hp
    rcases mem_mapSet hp with h2 | h2
    · exact hm _ h2
    · rw [h2]; exact le_max_right _ _
  unfold planStage2Map
  have := foldl_preserve
    (fun m => (kv.1, max kv.2 4) ∈ m ∧ ∀ p ∈ m, 4 ≤ p.2) supportInsert
    (fun m sid hm => ⟨supportInsert_keep sid hm.2 hm.1, fun p hp => by
      rcases mem_supportInsert hp with h2 | h2
      · exact hm.2 _ h2
      · rw [h2]⟩)
    supportSkillIds _ ⟨hbase, hall⟩
  exact this.1

theorem planSkillNames2_keep (getT : ℚ → Option EveType) (fuel : ℕ)
    (shipType : EveType) (fitting : Fitting) {k : ℚ} {n : String}
    (h : mapGet (planSkillNames getT fuel shipType fitting) k = some n) :
    mapGet (planSkillNames2 getT fuel shipType fitting) k = some n := by
  unfold planSkillNames2
  refine foldl_preserve
    (fun names : List (ℚ × String) => mapGet names k = some n) _ ?_ _ _ h
  intro names sid hn
  split
  · exact hn
  · rename_i hs
    cases getT sid with
    | none => exact hn
    | some t =>
      show mapGet (mapSet names sid t.name) k = some n
      have hset : mapSet names sid t.name = names ++ [(sid, t.name)] := by
        unfold mapSet
        rw [if_neg hs]
      rw [hset]
      exact mapGet_append_some _ hn

theorem mem_stageSkills {names : List (ℚ × String)} {m : List (ℚ × ℚ)}
    {r : SkillRequirement} (h : r ∈ stageSkills names m) :
    ∃ kv ∈ m, r.skill_type_id = kv.1 ∧ r.required_level = kv.2 ∧
      mapGet names kv.1 = some r.skill_name ∧ r.skill_name ≠ "" := by
  unfold stageSkills at h
  obtain ⟨kv, hkv, hf⟩ := List.mem_filterMap.mp h
  refine ⟨kv, hkv, ?_⟩
  split at hf
  · rename_i n heq
    split at hf
    · simp at hf
    · rename_i hne
      injection hf with hf2
      subst hf2
      exact ⟨rfl, rfl, heq, hne⟩
  · simp at hf

theorem stageSkills_mem {names : List (ℚ × String)} {m : List (ℚ × ℚ)}
    {kv : ℚ × ℚ} {n : String} (hkv : kv ∈ m)
    (hn : mapGet names kv.1 = some n) (hne : n ≠ "") :
    ({ skill_type_id := kv.1, skill_name := n, required_level := kv.2 } :
      SkillRequirement) ∈ stageSkills names m := by
  unfold stageSkills
  refine List.mem_filterMap.mpr ⟨kv, hkv, ?_⟩
  rw [hn]
  show (if n = "" then Option.none else
    some ({ skill_type_id := kv.1, skill_name := n, required_level := kv.2 } :
      SkillRequirement)) =
    some { skill_type_id := kv.1, skill_name := n, required_level := kv.2 }
  rw [if_neg hne]

theorem mem_sortByName {l : List SkillRequirement} {r : SkillRequirement} :
    r ∈ sortByName l ↔ r ∈ l := by
  unfold sortByName
  exact List.mem_mergeSort

/-- C8: in every plan `buildSkillPlan` returns, the Mastery stage covers
the Recommended stage's skill ids with every level equal to 5, the
Recommended stage covers the Minimum stage's skill ids, and every
Recommended level is at least 4 and at least the corresponding Minimum
level. -/
theorem buildSkillPlan_stage_relations (getT : ℚ → Option EveType) (fuel : ℕ)
    (shipType : EveType) (fitting : Fitting) :
    ∃ s1 s2 s3 : SkillPlanStage,
      (buildSkillPlan getT fuel shipType fitting).stages = [s1, s2, s3] ∧
      s1.name = "Minimum" ∧ s2.name = "Recommended" ∧ s3.name = "Mastery" ∧
      (∀ r ∈ s3.skills, r.required_level = 5) ∧
      (∀ r ∈ s2.skills, 4 ≤ r.required_level ∧
        ∃ r3 ∈ s3.skills, r3.skill_type_id = r.skill_type_id) ∧
      (∀ r ∈ s1.skills, ∃ r2 ∈ s2.skills,
        r2.skill_type_id = r.skill_type_id ∧
        r.required_level ≤ r2.required_level) := by
  refine ⟨_, _, _, rfl, rfl, rfl, rfl, ?_, ?_, ?_⟩
  · intro r hr
    obtain ⟨s, _, hs⟩ := List.mem_map.mp hr
    rw [← hs]
  · intro r hr
    constructor
    · obtain ⟨kv, hkv, _, hlev, _, _⟩ := mem_stageSkills (mem_sortByName.mp hr)
      rw [hlev]
      exact planStage2Map_all4 getT fuel shipType fitting kv hkv
    · exact ⟨{ r with required_level := 5 },
        List.mem_map.mpr ⟨r, hr, rfl⟩, rfl⟩
  · intro r hr
    obtain ⟨kv, hkv, hid, hlev, hname, hne⟩ := mem_stageSkills (mem_sortByName.mp hr)
    refine ⟨⟨kv.1, r.skill_name, max kv.2 4⟩, ?_, ?_, ?_⟩
    · refine mem_sortByName.mpr (stageSkills_mem
        (planStage2Map_mem getT fuel shipType fitting hkv) ?_ hne)
      exact planSkillNames2_keep getT fuel shipType fitting hname
    · rw [hid]
    · rw [hlev]
      exact le_max_left _ _

theorem buildSkillPlan_stage_relations_witness :
    ∃ s1 s2 s3 : SkillPlanStage,
      (buildSkillPlan (fun _ => Option.none) 1 c10Ship c9Fit0).stages =
        [s1, s2, s3] ∧
      s1.name = "Minimum" ∧ s2.name = "Recommended" ∧ s3.name = "Mastery" ∧
      (∀ r ∈ s3.skills, r.required_level = 5) ∧
      (∀ r ∈ s2.skills, 4 ≤ r.required_level ∧
        ∃ r3 ∈ s3.skills, r3.skill_type_id = r.skill_type_id) ∧
      (∀ r ∈ s1.skills, ∃ r2 ∈ s2.skills,
        r2.skill_type_id = r.skill_type_id ∧
        r.required_level ≤ r2.required_level) :=
  buildSkillPlan_stage_relations (fun _ => Option.none) 1 c10Ship c9Fit0

end EveFit
